import Mathlib

/-!
Verification of the Markdown → styled-HTML conversion engine shared by the
`md-to-wechat` and `md-to-zhihu` converters (`scripts/convert.py` in each).

The Python code is shallowly embedded as follows:
* the BeautifulSoup element tree becomes the inductive type `Node`;
* the module-level `THEMES` dictionaries become association lists of `Theme`
  records, and `build_styles` becomes a pure function producing the same
  association list of inline-style strings;
* each `find_all` loop of `apply_styles` becomes one structural pass over the
  tree.  The passes are applied in exactly the order of the source; a loop
  that mutates the tree in document order is rendered as a top-down rewrite,
  which agrees with BeautifulSoup's snapshot semantics for `find_all`
  (freshly re-parsed copies created by a rewrite are not revisited, so the
  rewrites do not recurse into the structures they build);
* Python string operations (`strip`, `split`, `replace`, `startswith`,
  membership) are re-implemented on `List Char` so that everything computes
  inside the kernel; `\s` of the task-list regexes is modelled as ASCII
  whitespace.
The external Markdown parser and the BeautifulSoup serializer are black-box
collaborators (per the spec's scope) and appear as function parameters of
the top-level pipelines.
-/

set_option maxRecDepth 100000

namespace Md

/-! ### Python-style string primitives (over `List Char`) -/

/-- Characters Python's `str.strip` / `\s` treat as whitespace (ASCII). -/
def pyWS (c : Char) : Bool :=
  c == ' ' || c == '\t' || c == '\n' || c == '\r' || c == '\x0b' || c == '\x0c'

/-- Python `str.lstrip()`. -/
def pyLStrip (s : String) : String := String.mk (s.toList.dropWhile pyWS)

/-- Python `str.strip()`. -/
def pyStrip (s : String) : String :=
  String.mk (((s.toList.dropWhile pyWS).reverse.dropWhile pyWS).reverse)

/-- Python `str.lower()` (ASCII). -/
def lowerS (s : String) : String := String.mk (s.toList.map Char.toLower)

/-- Python `str.upper()` (ASCII). -/
def upperS (s : String) : String := String.mk (s.toList.map Char.toUpper)

/-- Python `str.startswith(pre)`. -/
def strStarts (s pre : String) : Bool := pre.toList.isPrefixOf s.toList

/-- Split at the first occurrence of `pat`: `some (before, after)` when `pat`
occurs, scanning left to right. -/
def findSplit (pat : List Char) : List Char → Option (List Char × List Char)
  | [] => if pat.isPrefixOf ([] : List Char) then some ([], []) else none
  | c :: rest =>
      if pat.isPrefixOf (c :: rest) then some ([], List.drop pat.length (c :: rest))
      else match findSplit pat rest with
        | some (a, b) => some (c :: a, b)
        | none => none

/-- Python `pat in s` (substring containment). -/
def containsSub (s pat : String) : Bool := (findSplit pat.toList s.toList).isSome

/-- Python `s.split(sep, 2)`. -/
def pySplit2 (s sep : String) : List String :=
  match findSplit sep.toList s.toList with
  | none => [s]
  | some (a, r) =>
      match findSplit sep.toList r with
      | none => [String.mk a, String.mk r]
      | some (b, r2) => [String.mk a, String.mk b, String.mk r2]

/-- Split on a single character, keeping empty pieces (Python `s.split(c)`). -/
def splitCh (sep : Char) : List Char → List (List Char)
  | [] => [[]]
  | c :: rest =>
      if c == sep then [] :: splitCh sep rest
      else match splitCh sep rest with
        | [] => [[c]]
        | p :: ps => (c :: p) :: ps

/-- Join pieces with a single-character separator. -/
def joinCh (sep : Char) : List (List Char) → List Char
  | [] => []
  | [p] => p
  | p :: ps => p ++ sep :: joinCh sep ps

/-- Python `s.split(c)` on `String`s. -/
def splitChS (sep : Char) (s : String) : List String :=
  (splitCh sep s.toList).map String.mk

/-- Fuel-driven worker for `pyReplace`. -/
def replAux (pat rep : List Char) : Nat → List Char → List Char
  | 0, l => l
  | _ + 1, [] => []
  | fuel + 1, c :: rest =>
      if pat ≠ [] ∧ pat.isPrefixOf (c :: rest) then
        rep ++ replAux pat rep fuel (List.drop pat.length (c :: rest))
      else c :: replAux pat rep fuel rest

/-- Python `s.replace(pat, rep)` (all occurrences, left to right). -/
def pyReplace (s pat rep : String) : String :=
  String.mk (replAux pat.toList rep.toList s.toList.length s.toList)

/-- Decimal value of the leading digit run of a character list. -/
def digitsVal (l : List Char) : Nat :=
  (l.takeWhile Char.isDigit).foldl (fun n c => n * 10 + (c.toNat - 48)) 0

/-! ### The element tree -/

/-- A BeautifulSoup element: either a text node or a tag with a tag name, a
`class` list, the remaining attributes (an association list; `style`, `alt`,
`href`, … live here) and child nodes. -/
inductive Node where
  | text (s : String)
  | elem (tag : String) (classes : List String) (attrs : List (String × String)) (children : List Node)
deriving Repr

/-- `tag.get(key, "")` on the non-class attributes. -/
def getAttr (a : List (String × String)) (k : String) : String :=
  ((a.lookup k).getD "")

/-- `tag[key] = v` (overwrite in place, else append). -/
def setAttr (a : List (String × String)) (k v : String) : List (String × String) :=
  if (a.lookup k).isSome then a.map (fun p => if p.1 = k then (k, v) else p)
  else a ++ [(k, v)]

/-- The tag name (`""` for text nodes). -/
def tagOf : Node → String
  | .text _ => ""
  | .elem t _ _ _ => t

/-- The `class` list (`[]` for text nodes). -/
def clsOf : Node → List String
  | .text _ => []
  | .elem _ c _ _ => c

/-- The non-class attributes (`[]` for text nodes). -/
def attrsOf : Node → List (String × String)
  | .text _ => []
  | .elem _ _ a _ => a

/-- `tag.get("style", "")`. -/
def styleOf (n : Node) : String := getAttr (attrsOf n) "style"

/- Node equality as a computable Boolean. -/
mutual
def nodeBeq : Node → Node → Bool
  | .text s, .text s2 => s == s2
  | .elem t c a ch, .elem t2 c2 a2 ch2 => t == t2 && c == c2 && a == a2 && nodeBeqL ch ch2
  | _, _ => false
def nodeBeqL : List Node → List Node → Bool
  | [], [] => true
  | n :: ns, m :: ms => nodeBeq n m && nodeBeqL ns ms
  | _, _ => false
end

/- All text leaves of a node, in document order. -/
mutual
def leafTextsN : Node → List String
  | .text s => [s]
  | .elem _ _ _ ch => leafTextsL ch
def leafTextsL : List Node → List String
  | [] => []
  | n :: ns => leafTextsN n ++ leafTextsL ns
end

/- Count the nodes of a subtree satisfying a predicate. -/
mutual
def countIfN (p : Node → Bool) : Node → Nat
  | .text s => if p (.text s) then 1 else 0
  | .elem t c a ch => (if p (.elem t c a ch) then 1 else 0) + countIfL p ch
def countIfL (p : Node → Bool) : List Node → Nat
  | [] => 0
  | n :: ns => countIfN p n + countIfL p ns
end

/- Subtree size, for strong induction. -/
mutual
def nsize : Node → Nat
  | .text _ => 1
  | .elem _ _ _ ch => 1 + nsizeL ch
def nsizeL : List Node → Nat
  | [] => 0
  | n :: ns => nsize n + nsizeL ns
end

/- First descendant with the given tag (depth-first, document order),
modelling `tag.find(name)` applied to a list of children. -/
mutual
def findTagN (tag : String) : Node → Option Node
  | .text _ => none
  | .elem t c a ch => if t == tag then some (.elem t c a ch) else findTagL tag ch
def findTagL (tag : String) : List Node → Option Node
  | [] => none
  | n :: ns =>
      match findTagN tag n with
      | some m => some m
      | none => findTagL tag ns
end

/-! ### Theme registries -/

/-- One entry of a `THEMES` dictionary: the named palette/typography tokens. -/
structure Theme where
  name : String
  primary : String
  primary_light : String
  primary_dark : String
  primary_gradient : String
  text : String
  text_secondary : String
  text_light : String
  bg : String
  bg_code : String
  bg_code_text : String
  bg_code_inline : String
  bg_blockquote : String
  border : String
  border_light : String
  font_body : String
  font_size : String
  line_height : String
  font_code : String
  pygments_style : String
deriving Repr

namespace Wechat

/-- The `"blue"` entry of this variant\x27s `THEMES` table. -/
def theme_blue : Theme where
  name := "优雅蓝"
  primary := "#1e6fff"
  primary_light := "#eef4ff"
  primary_dark := "#1557cc"
  primary_gradient := "linear-gradient(135deg, #1e6fff 0%, #5b9aff 100%)"
  text := "#2b2b2b"
  text_secondary := "#5f6368"
  text_light := "#999999"
  bg := "#ffffff"
  bg_code := "#1e1e2e"
  bg_code_text := "#d4d4d4"
  bg_code_inline := "#eef4ff"
  bg_blockquote := "#f7f9fc"
  border := "#e0e0e0"
  border_light := "#f0f0f0"
  font_body := "-apple-system, BlinkMacSystemFont, \x27PingFang SC\x27, \x27Microsoft YaHei\x27, \x27Segoe UI\x27, Roboto, sans-serif"
  font_size := "15px"
  line_height := "1.8"
  font_code := "\x27Fira Code\x27, \x27JetBrains Mono\x27, Consolas, Monaco, \x27Courier New\x27, monospace"
  pygments_style := "monokai"

/-- The `"green"` entry of this variant\x27s `THEMES` table. -/
def theme_green : Theme where
  name := "清新绿"
  primary := "#07a35a"
  primary_light := "#edfaf3"
  primary_dark := "#058c4c"
  primary_gradient := "linear-gradient(135deg, #07a35a 0%, #4ac78e 100%)"
  text := "#2d3436"
  text_secondary := "#636e72"
  text_light := "#999999"
  bg := "#ffffff"
  bg_code := "#1e272e"
  bg_code_text := "#d4d4d4"
  bg_code_inline := "#edfaf3"
  bg_blockquote := "#f5fbf8"
  border := "#dfe6e9"
  border_light := "#f0f0f0"
  font_body := "-apple-system, BlinkMacSystemFont, \x27PingFang SC\x27, \x27Microsoft YaHei\x27, sans-serif"
  font_size := "15px"
  line_height := "1.8"
  font_code := "Consolas, Monaco, \x27Courier New\x27, monospace"
  pygments_style := "monokai"

/-- The `"dark"` entry of this variant\x27s `THEMES` table. -/
def theme_dark : Theme where
  name := "经典黑"
  primary := "#2c3e50"
  primary_light := "#f4f6f7"
  primary_dark := "#1a252f"
  primary_gradient := "linear-gradient(135deg, #2c3e50 0%, #4a6b8a 100%)"
  text := "#2c3e50"
  text_secondary := "#7f8c8d"
  text_light := "#999999"
  bg := "#ffffff"
  bg_code := "#282c34"
  bg_code_text := "#abb2bf"
  bg_code_inline := "#f4f6f7"
  bg_blockquote := "#f8f9fa"
  border := "#dce1e4"
  border_light := "#f0f0f0"
  font_body := "\x27Georgia\x27, \x27Songti SC\x27, \x27SimSun\x27, -apple-system, serif"
  font_size := "16px"
  line_height := "2.0"
  font_code := "Consolas, Monaco, \x27Courier New\x27, monospace"
  pygments_style := "one-dark"

/-- The `"warm"` entry of this variant\x27s `THEMES` table. -/
def theme_warm : Theme where
  name := "温暖橙"
  primary := "#e67e22"
  primary_light := "#fef5ec"
  primary_dark := "#d35400"
  primary_gradient := "linear-gradient(135deg, #e67e22 0%, #f0a653 100%)"
  text := "#34495e"
  text_secondary := "#7f8c8d"
  text_light := "#999999"
  bg := "#ffffff"
  bg_code := "#2d2d2d"
  bg_code_text := "#d4d4d4"
  bg_code_inline := "#fef5ec"
  bg_blockquote := "#fffaf5"
  border := "#f0d0b0"
  border_light := "#f5ead8"
  font_body := "-apple-system, BlinkMacSystemFont, \x27PingFang SC\x27, \x27Microsoft YaHei\x27, sans-serif"
  font_size := "15px"
  line_height := "1.8"
  font_code := "Consolas, Monaco, \x27Courier New\x27, monospace"
  pygments_style := "monokai"

/-- The module-level `THEMES` registry. -/
def THEMES : List (String × Theme) :=
  [("blue", theme_blue), ("green", theme_green), ("dark", theme_dark), ("warm", theme_warm)]

end Wechat

namespace Zhihu

/-- The `"zhihu"` entry of this variant\x27s `THEMES` table. -/
def theme_zhihu : Theme where
  name := "知乎蓝"
  primary := "#0066FF"
  primary_light := "#EBF3FF"
  primary_dark := "#0052CC"
  primary_gradient := "linear-gradient(135deg, #0066FF 0%, #4D94FF 100%)"
  text := "#1A1A1A"
  text_secondary := "#646464"
  text_light := "#999999"
  bg := "#ffffff"
  bg_code := "#1e1e2e"
  bg_code_text := "#d4d4d4"
  bg_code_inline := "#EBF3FF"
  bg_blockquote := "#F6F8FA"
  border := "#E5E5E5"
  border_light := "#F0F0F0"
  font_body := "-apple-system, BlinkMacSystemFont, \x27PingFang SC\x27, \x27Helvetica Neue\x27, \x27Microsoft YaHei\x27, sans-serif"
  font_size := "15px"
  line_height := "1.8"
  font_code := "\x27Fira Code\x27, \x27JetBrains Mono\x27, Consolas, Monaco, \x27Courier New\x27, monospace"
  pygments_style := "monokai"

/-- The `"elegant"` entry of this variant\x27s `THEMES` table. -/
def theme_elegant : Theme where
  name := "优雅灰"
  primary := "#34495E"
  primary_light := "#F0F3F5"
  primary_dark := "#2C3E50"
  primary_gradient := "linear-gradient(135deg, #34495E 0%, #5D7B93 100%)"
  text := "#2C3E50"
  text_secondary := "#7F8C8D"
  text_light := "#999999"
  bg := "#ffffff"
  bg_code := "#282C34"
  bg_code_text := "#ABB2BF"
  bg_code_inline := "#F0F3F5"
  bg_blockquote := "#F8F9FA"
  border := "#DCE1E4"
  border_light := "#F0F0F0"
  font_body := "\x27Georgia\x27, \x27Songti SC\x27, \x27SimSun\x27, -apple-system, serif"
  font_size := "16px"
  line_height := "2.0"
  font_code := "Consolas, Monaco, \x27Courier New\x27, monospace"
  pygments_style := "one-dark"

/-- The `"tech"` entry of this variant\x27s `THEMES` table. -/
def theme_tech : Theme where
  name := "科技紫"
  primary := "#6C5CE7"
  primary_light := "#F0EDFD"
  primary_dark := "#5A4BD1"
  primary_gradient := "linear-gradient(135deg, #6C5CE7 0%, #A29BFE 100%)"
  text := "#2D3436"
  text_secondary := "#636E72"
  text_light := "#999999"
  bg := "#ffffff"
  bg_code := "#1E1E2E"
  bg_code_text := "#CDD6F4"
  bg_code_inline := "#F0EDFD"
  bg_blockquote := "#F8F7FC"
  border := "#DDD6FE"
  border_light := "#F0F0F0"
  font_body := "-apple-system, BlinkMacSystemFont, \x27PingFang SC\x27, \x27Microsoft YaHei\x27, \x27Segoe UI\x27, sans-serif"
  font_size := "15px"
  line_height := "1.8"
  font_code := "\x27Fira Code\x27, \x27JetBrains Mono\x27, Consolas, monospace"
  pygments_style := "dracula"

/-- The `"warm"` entry of this variant\x27s `THEMES` table. -/
def theme_warm : Theme where
  name := "温暖橙"
  primary := "#E67E22"
  primary_light := "#FEF5EC"
  primary_dark := "#D35400"
  primary_gradient := "linear-gradient(135deg, #E67E22 0%, #F0A653 100%)"
  text := "#34495E"
  text_secondary := "#7F8C8D"
  text_light := "#999999"
  bg := "#ffffff"
  bg_code := "#2D2D2D"
  bg_code_text := "#D4D4D4"
  bg_code_inline := "#FEF5EC"
  bg_blockquote := "#FFFAF5"
  border := "#F0D0B0"
  border_light := "#F5EAD8"
  font_body := "-apple-system, BlinkMacSystemFont, \x27PingFang SC\x27, \x27Microsoft YaHei\x27, sans-serif"
  font_size := "15px"
  line_height := "1.8"
  font_code := "Consolas, Monaco, \x27Courier New\x27, monospace"
  pygments_style := "monokai"

/-- The `"nature"` entry of this variant\x27s `THEMES` table. -/
def theme_nature : Theme where
  name := "自然绿"
  primary := "#00B894"
  primary_light := "#E8FAF5"
  primary_dark := "#00A381"
  primary_gradient := "linear-gradient(135deg, #00B894 0%, #55EFC4 100%)"
  text := "#2D3436"
  text_secondary := "#636E72"
  text_light := "#999999"
  bg := "#ffffff"
  bg_code := "#1E272E"
  bg_code_text := "#D4D4D4"
  bg_code_inline := "#E8FAF5"
  bg_blockquote := "#F5FBF8"
  border := "#B2DFDB"
  border_light := "#E0F2F1"
  font_body := "-apple-system, BlinkMacSystemFont, \x27PingFang SC\x27, \x27Microsoft YaHei\x27, sans-serif"
  font_size := "15px"
  line_height := "1.8"
  font_code := "Consolas, Monaco, \x27Courier New\x27, monospace"
  pygments_style := "monokai"

/-- The module-level `THEMES` registry. -/
def THEMES : List (String × Theme) :=
  [("zhihu", theme_zhihu), ("elegant", theme_elegant), ("tech", theme_tech), ("warm", theme_warm), ("nature", theme_nature)]

end Zhihu


/-! ### Style resolvers -/

namespace Wechat

/-- The style dictionary `build_styles` returns for a resolved theme `t`
(the body of `md-to-wechat`\x27s `build_styles` after the `THEMES.get`). -/
def stylesOf (t : Theme) : List (String × String) :=
  [("container",
      "max-width: 100%;font-family: " ++
      t.font_body ++
      ";font-size: " ++
      t.font_size ++
      ";line-height: " ++
      t.line_height ++
      ";color: " ++
      t.text ++
      ";word-wrap: break-word;overflow-wrap: break-word;"),
    ("h1",
      "font-size: 22px;font-weight: bold;color: " ++
      t.primary ++
      ";text-align: center;margin: 30px 0 20px 0;padding-bottom: 12px;border-bottom: 2px solid " ++
      t.primary ++
      ";line-height: 1.4;"),
    ("h2",
      "font-size: 19px;font-weight: bold;color: " ++
      t.primary ++
      ";margin: 28px 0 15px 0;padding: 4px 0 4px 12px;border-left: 4px solid " ++
      t.primary ++
      ";line-height: 1.4;"),
    ("h3",
      "font-size: 17px;font-weight: bold;color: " ++
      t.text ++
      ";margin: 22px 0 10px 0;padding-left: 8px;line-height: 1.4;"),
    ("h4",
      "font-size: 15px;font-weight: bold;color: " ++
      t.text_secondary ++
      ";margin: 18px 0 8px 0;line-height: 1.4;"),
    ("p",
      "margin: 0 0 15px 0;text-align: justify;line-height: " ++
      t.line_height ++
      ";color: " ++
      t.text ++
      ";"),
    ("strong",
      "font-weight: bold; color: " ++
      t.primary_dark ++
      ";"),
    ("em",
      "font-style: italic;"),
    ("del",
      "text-decoration: line-through; color: " ++
      t.text_light ++
      ";"),
    ("a",
      "color: " ++
      t.primary ++
      ";text-decoration: none;border-bottom: 1px dashed " ++
      t.primary ++
      ";word-break: break-all;"),
    ("ul",
      "margin: 5px 0 15px 0; padding-left: 2em; list-style-type: disc;"),
    ("ol",
      "margin: 5px 0 15px 0; padding-left: 2em;"),
    ("li",
      "margin: 4px 0; line-height: " ++
      t.line_height ++
      ";"),
    ("blockquote",
      "margin: 15px 0;padding: 15px 18px;background: " ++
      t.bg_blockquote ++
      ";border-left: 4px solid " ++
      t.primary ++
      ";color: " ++
      t.text_secondary ++
      ";font-size: 14px;line-height: 1.75;border-radius: 0 6px 6px 0;"),
    ("blockquote_p",
      "margin: 0 0 8px 0;text-align: justify;line-height: 1.75;color: " ++
      t.text_secondary ++
      ";"),
    ("code_inline",
      "background: " ++
      t.bg_code_inline ++
      ";color: " ++
      t.primary ++
      ";padding: 2px 6px;border-radius: 3px;font-family: " ++
      t.font_code ++
      ";font-size: 90%;word-break: break-all;"),
    ("code_block_wrapper",
      "background: " ++
      t.bg_code ++
      ";border-radius: 8px;margin: 15px 0;overflow: hidden;"),
    ("code_block_header",
      "display: flex;justify-content: space-between;align-items: center;padding: 8px 16px;background: rgba(255,255,255,0.05);border-bottom: 1px solid rgba(255,255,255,0.08);"),
    ("code_block_lang",
      "font-size: 12px;color: rgba(255,255,255,0.5);font-family: " ++
      t.font_code ++
      ";text-transform: uppercase;letter-spacing: 0.5px;"),
    ("code_block_dots",
      "display: flex; gap: 6px;"),
    ("code_block_dot",
      "width: 10px; height: 10px; border-radius: 50%;"),
    ("code_block_body",
      "padding: 16px;overflow-x: auto;font-family: " ++
      t.font_code ++
      ";font-size: 13px;line-height: 1.6;color: " ++
      t.bg_code_text ++
      ";-webkit-overflow-scrolling: touch;"),
    ("table_wrapper",
      "overflow-x: auto;margin: 15px 0;-webkit-overflow-scrolling: touch;"),
    ("table",
      "width: 100%;border-collapse: collapse;font-size: 14px;border: 1px solid " ++
      t.border ++
      ";"),
    ("th",
      "background: " ++
      t.primary ++
      ";color: #ffffff;font-weight: bold;padding: 10px 14px;text-align: left;border: 1px solid " ++
      t.primary_dark ++
      ";font-size: 14px;white-space: nowrap;"),
    ("td",
      "padding: 9px 14px;border: 1px solid " ++
      t.border ++
      ";line-height: 1.6;font-size: 14px;"),
    ("td_even",
      "padding: 9px 14px;border: 1px solid " ++
      t.border ++
      ";line-height: 1.6;font-size: 14px;background: " ++
      t.primary_light ++
      ";"),
    ("hr",
      "border: none;height: 1px;background: " ++
      t.border ++
      ";margin: 30px 0;"),
    ("img",
      "max-width: 100%;height: auto;border-radius: 6px;margin: 10px auto;display: block;"),
    ("img_caption",
      "text-align: center;font-size: 13px;color: " ++
      t.text_light ++
      ";margin: 6px 0 15px 0;line-height: 1.5;"),
    ("task_done",
      "color: " ++
      t.text_light ++
      ";text-decoration: line-through;"),
    ("footnote_section",
      "margin-top: 30px;padding-top: 15px;border-top: 1px solid " ++
      t.border ++
      ";font-size: 13px;color: " ++
      t.text_secondary ++
      ";"),
    ("footnote_ref",
      "color: " ++
      t.primary ++
      ";font-size: 12px;vertical-align: super;text-decoration: none;font-weight: bold;")]

/-- `build_styles(theme_name)`: resolve the theme key (falling back to the
`"blue"` default for unknown keys, via `THEMES.get`) and build the
inline-style dictionary. -/
def build_styles (theme_name : String) : List (String × String) :=
  stylesOf ((THEMES.lookup theme_name).getD theme_blue)

end Wechat

namespace Zhihu

/-- The style dictionary `build_styles` returns for a resolved theme `t`
(the body of `md-to-zhihu`\x27s `build_styles` after the `THEMES.get`). -/
def stylesOf (t : Theme) : List (String × String) :=
  [("container",
      "max-width: 100%;font-family: " ++
      t.font_body ++
      ";font-size: " ++
      t.font_size ++
      ";line-height: " ++
      t.line_height ++
      ";color: " ++
      t.text ++
      ";word-wrap: break-word;overflow-wrap: break-word;"),
    ("h1",
      "font-size: 24px;font-weight: bold;color: " ++
      t.primary ++
      ";text-align: center;margin: 30px 0 20px 0;padding-bottom: 12px;border-bottom: 2px solid " ++
      t.primary ++
      ";line-height: 1.4;"),
    ("h2",
      "font-size: 20px;font-weight: bold;color: " ++
      t.primary ++
      ";margin: 28px 0 16px 0;padding: 4px 0 4px 12px;border-left: 4px solid " ++
      t.primary ++
      ";line-height: 1.4;"),
    ("h3",
      "font-size: 17px;font-weight: bold;color: " ++
      t.text ++
      ";margin: 24px 0 12px 0;padding-left: 8px;line-height: 1.4;"),
    ("h4",
      "font-size: 15px;font-weight: bold;color: " ++
      t.text_secondary ++
      ";margin: 20px 0 10px 0;line-height: 1.4;"),
    ("p",
      "margin: 0 0 16px 0;text-align: justify;line-height: " ++
      t.line_height ++
      ";color: " ++
      t.text ++
      ";"),
    ("strong",
      "font-weight: bold; color: " ++
      t.primary_dark ++
      ";"),
    ("em",
      "font-style: italic;"),
    ("del",
      "text-decoration: line-through; color: " ++
      t.text_light ++
      ";"),
    ("a",
      "color: " ++
      t.primary ++
      ";text-decoration: none;border-bottom: 1px solid " ++
      t.primary ++
      ";word-break: break-all;padding-bottom: 1px;"),
    ("ul",
      "margin: 8px 0 16px 0; padding-left: 2em; list-style-type: disc;"),
    ("ol",
      "margin: 8px 0 16px 0; padding-left: 2em;"),
    ("li",
      "margin: 5px 0; line-height: " ++
      t.line_height ++
      ";"),
    ("blockquote",
      "margin: 16px 0;padding: 16px 20px;background: " ++
      t.bg_blockquote ++
      ";border-left: 4px solid " ++
      t.primary ++
      ";color: " ++
      t.text_secondary ++
      ";font-size: 14px;line-height: 1.75;border-radius: 0 6px 6px 0;"),
    ("blockquote_p",
      "margin: 0 0 8px 0;text-align: justify;line-height: 1.75;color: " ++
      t.text_secondary ++
      ";"),
    ("code_inline",
      "background: " ++
      t.bg_code_inline ++
      ";color: " ++
      t.primary ++
      ";padding: 2px 6px;border-radius: 3px;font-family: " ++
      t.font_code ++
      ";font-size: 90%;word-break: break-all;"),
    ("code_block_wrapper",
      "background: " ++
      t.bg_code ++
      ";border-radius: 8px;margin: 16px 0;overflow: hidden;"),
    ("code_block_header",
      "display: flex;justify-content: space-between;align-items: center;padding: 8px 16px;background: rgba(255,255,255,0.06);border-bottom: 1px solid rgba(255,255,255,0.08);"),
    ("code_block_lang",
      "font-size: 12px;color: rgba(255,255,255,0.5);font-family: " ++
      t.font_code ++
      ";text-transform: uppercase;letter-spacing: 0.5px;"),
    ("code_block_dots",
      "display: flex; gap: 6px;"),
    ("code_block_dot",
      "width: 10px; height: 10px; border-radius: 50%;"),
    ("code_block_body",
      "padding: 16px;overflow-x: auto;font-family: " ++
      t.font_code ++
      ";font-size: 13px;line-height: 1.6;color: " ++
      t.bg_code_text ++
      ";-webkit-overflow-scrolling: touch;"),
    ("table_wrapper",
      "overflow-x: auto;margin: 16px 0;-webkit-overflow-scrolling: touch;"),
    ("table",
      "width: 100%;border-collapse: collapse;font-size: 14px;border: 1px solid " ++
      t.border ++
      ";"),
    ("th",
      "background: " ++
      t.primary ++
      ";color: #ffffff;font-weight: bold;padding: 10px 14px;text-align: left;border: 1px solid " ++
      t.primary_dark ++
      ";font-size: 14px;white-space: nowrap;"),
    ("td",
      "padding: 9px 14px;border: 1px solid " ++
      t.border ++
      ";line-height: 1.6;font-size: 14px;"),
    ("td_even",
      "padding: 9px 14px;border: 1px solid " ++
      t.border ++
      ";line-height: 1.6;font-size: 14px;background: " ++
      t.primary_light ++
      ";"),
    ("hr",
      "border: none;height: 1px;background: " ++
      t.border ++
      ";margin: 30px 0;"),
    ("img",
      "max-width: 100%;height: auto;border-radius: 6px;margin: 10px auto;display: block;"),
    ("img_caption",
      "text-align: center;font-size: 13px;color: " ++
      t.text_light ++
      ";margin: 6px 0 16px 0;line-height: 1.5;"),
    ("task_done",
      "color: " ++
      t.text_light ++
      ";text-decoration: line-through;"),
    ("footnote_section",
      "margin-top: 30px;padding-top: 15px;border-top: 1px solid " ++
      t.border ++
      ";font-size: 13px;color: " ++
      t.text_secondary ++
      ";"),
    ("footnote_ref",
      "color: " ++
      t.primary ++
      ";font-size: 12px;vertical-align: super;text-decoration: none;font-weight: bold;")]

/-- `build_styles(theme_name)`: resolve the theme key (falling back to the
`"zhihu"` default for unknown keys, via `THEMES.get`) and build the
inline-style dictionary. -/
def build_styles (theme_name : String) : List (String × String) :=
  stylesOf ((THEMES.lookup theme_name).getD theme_zhihu)

end Zhihu


/-! ### The tree-rewrite passes of `apply_styles`

The two variants' `apply_styles` functions are identical except for
(a) the style dictionary, (b) the decorative dot colors (lower/upper case
hex), (c) whether the codehilite language scan of the container's classes is
guarded by the presence of a `pre` descendant (WeChat guards, Zhihu does
not), and (d) the image-caption condition (WeChat: `alt and alt != "image"`;
Zhihu: `alt and alt.lower() not in ("image", "img", "")`).  `Cfg` packages
exactly these four differences; everything else below is shared. -/

/-- The per-variant parameters of `apply_styles`. -/
structure Cfg where
  sty : String → String
  dotColors : List String
  langGuardPre : Bool
  captionCond : String → Bool

/- Pass 1 — the purely local style assignments of `apply_styles`
(headings, paragraphs, strong/em/del, links, lists, blockquotes).  In the
source these are six consecutive `find_all` loops; since their tag sets are
disjoint and each only sets the node's own `style` attribute, the six loops
are combined into a single traversal.  `parent` is the tag name of the
enclosing element (`""` at the fragment root), used for the
paragraph-in-blockquote distinction of the source. -/
mutual
def styleAN (S : String → String) (parent : String) : Node → Node
  | .text s => .text s
  | .elem t c a ch =>
      let ch2 := styleAL S t ch
      -- headings: tag["style"] = styles[tag_name]
      if t == "h1" || t == "h2" || t == "h3" || t == "h4" then
        .elem t c (setAttr a "style" (S t)) ch2
      -- paragraphs: blockquote_p inside a blockquote, p otherwise
      else if t == "p" then
        .elem t c (setAttr a "style"
          (if parent == "blockquote" then S "blockquote_p" else S "p")) ch2
      -- inline formatting
      else if t == "strong" then .elem t c (setAttr a "style" (S "strong")) ch2
      else if t == "em" then .elem t c (setAttr a "style" (S "em")) ch2
      else if t == "del" then .elem t c (setAttr a "style" (S "del")) ch2
      -- links: footnote references and back-references get footnote_ref
      else if t == "a" then
        .elem t c (setAttr a "style"
          (if c.contains "footnote-backref" || c.contains "footnote-ref" then S "footnote_ref"
           else S "a")) ch2
      -- lists
      else if t == "ul" then .elem t c (setAttr a "style" (S "ul")) ch2
      else if t == "ol" then .elem t c (setAttr a "style" (S "ol")) ch2
      else if t == "li" then .elem t c (setAttr a "style" (S "li")) ch2
      -- blockquotes
      else if t == "blockquote" then .elem t c (setAttr a "style" (S "blockquote")) ch2
      else .elem t c a ch2
def styleAL (S : String → String) (parent : String) : List Node → List Node
  | [] => []
  | n :: ns => styleAN S parent n :: styleAL S parent ns
end

/-! Pass 2 — codehilite code blocks. -/

/-- The class-scanning loop of the language detection:
`for cls in classes: if cls.startswith("language-"): lang = cls.replace("language-", "")`
(the last matching class wins). -/
def langFromClasses (classes : List String) : String :=
  classes.foldl (fun lang cls =>
    if strStarts cls "language-" then pyReplace cls "language-" "" else lang) ""

/-- Language detection for a `div.codehilite` with classes `c` and children
`ch`.  In the WeChat variant the scan of the container's own classes happens
inside `if pre:` (`pre = div.find("pre")`); the Zhihu variant scans
unconditionally.  If that yields nothing, both fall back to the classes of
the first `code` descendant. -/
def detectLang (C : Cfg) (c : List String) (ch : List Node) : String :=
  let fromDiv :=
    if C.langGuardPre then
      match findTagL "pre" ch with
      | some _ => langFromClasses c
      | none => ""
    else langFromClasses c
  if fromDiv == "" then
    match findTagL "code" ch with
    | some m => langFromClasses (clsOf m)
    | none => ""
  else fromDiv

/-- The style string assigned to the `pre` inside a rebuilt code block. -/
def neutralPre : String := "margin: 0; padding: 0; background: transparent; overflow: visible;"

/-- One decorative indicator dot. -/
def mkDot (C : Cfg) (color : String) : Node :=
  .elem "span" [] [("style", C.sty "code_block_dot" ++ " background: " ++ color ++ ";")] []

/-- The dots container (one dot per entry of `C.dotColors`). -/
def mkDots (C : Cfg) : Node :=
  .elem "div" [] [("style", C.sty "code_block_dots")] (C.dotColors.map (mkDot C))

/-- The uppercase language badge. -/
def mkBadge (C : Cfg) (lang : String) : Node :=
  .elem "span" [] [("style", C.sty "code_block_lang")] [.text (upperS lang)]

/-- The header of a rebuilt code block: dots, plus the badge when a language
hint was found. -/
def mkHeader (C : Cfg) (lang : String) : Node :=
  .elem "div" [] [("style", C.sty "code_block_header")]
    (mkDots C :: (if lang == "" then [] else [mkBadge C lang]))

/- `new_div.find("pre")` followed by the style overwrite: neutralize the
first `pre` (document order) of the rebuilt block.  The header contains no
`pre`, so searching the body contents suffices. -/
mutual
def neutPreN : Node → Node × Bool
  | .text s => (.text s, false)
  | .elem t c a ch =>
      if t == "pre" then (.elem t c (setAttr a "style" neutralPre) ch, true)
      else
        let r := neutPreL ch
        (.elem t c a r.1, r.2)
def neutPreL : List Node → List Node × Bool
  | [] => ([], false)
  | n :: ns =>
      let r := neutPreN n
      if r.2 then (r.1 :: ns, true)
      else
        let rs := neutPreL ns
        (r.1 :: rs.1, rs.2)
end

/-- The wrapper structure a `div.codehilite` with children `contents` is
rebuilt into: wrapper(header(dots, badge?), body(contents)), with the first
inner `pre` neutralized. -/
def mkWrapper (C : Cfg) (lang : String) (contents : List Node) : Node :=
  .elem "div" [] [("style", C.sty "code_block_wrapper")]
    [mkHeader C lang,
     .elem "div" [] [("style", C.sty "code_block_body")] (neutPreL contents).1]

/- The codehilite loop: every `div` carrying the `codehilite` class is
replaced with the wrapper structure.  The contents re-parsed into the body
(`div.decode_contents()`) are fresh copies that `find_all`'s snapshot does
not revisit, so the rewrite does not recurse into the block it builds. -/
mutual
def codeN (C : Cfg) : Node → Node
  | .text s => .text s
  | .elem t c a ch =>
      if t == "div" && c.contains "codehilite" then
        mkWrapper C (detectLang C c ch) ch
      else .elem t c a (codeL C ch)
def codeL (C : Cfg) : List Node → List Node
  | [] => []
  | n :: ns => codeN C n :: codeL C ns
end

/- Pass 3 — bare `pre` blocks.  The source extracts each `pre` whose
parent's style does not start with `"padding:"`, builds a wrapper around it
and then runs `pre.insert_after(wrapper) if pre.parent else None`; at that
point the pre has already been moved inside the new wrapper, so the wrapper
is inserted into its own (detached) body and never re-attached to the
document: the net effect on the output tree is that the `pre` (with its
whole subtree) disappears.  `pstyle` is the parent's style attribute
(`""` at the fragment root, matching `soup.get("style", "")`). -/
mutual
def preN : Node → Node
  | .text s => .text s
  | .elem t c a ch => .elem t c a (preL (getAttr a "style") ch)
def preL (pstyle : String) : List Node → List Node
  | [] => []
  | n :: ns =>
      if tagOf n == "pre" && !(strStarts pstyle "padding:") then preL pstyle ns
      else preN n :: preL pstyle ns
end

/- Pass 4 — inline code.  A `code` element is styled unless its parent is a
`pre`, or a `div` whose style mentions `overflow-x` or `font-family`
(the code-block body / table-wrapper markers). -/
mutual
def icN (S : String → String) (ptag pstyle : String) : Node → Node
  | .text s => .text s
  | .elem t c a ch =>
      let ch2 := icL S t (getAttr a "style") ch
      if t == "code" then
        if ptag == "pre" then .elem t c a ch2
        else if ptag == "div" && (containsSub pstyle "overflow-x" || containsSub pstyle "font-family") then
          .elem t c a ch2
        else .elem t c (setAttr a "style" (S "code_inline")) ch2
      else .elem t c a ch2
def icL (S : String → String) (ptag pstyle : String) : List Node → List Node
  | [] => []
  | n :: ns => icN S ptag pstyle n :: icL S ptag pstyle ns
end

/-! Pass 5 — tables. -/

/- `table.find_all("th")`: style every `th` descendant. -/
mutual
def thN (S : String → String) : Node → Node
  | .text s => .text s
  | .elem t c a ch =>
      if t == "th" then .elem t c (setAttr a "style" (S "th")) (thL S ch)
      else .elem t c a (thL S ch)
def thL (S : String → String) : List Node → List Node
  | [] => []
  | n :: ns => thN S n :: thL S ns
end

/- The zebra loop `for i, tr in enumerate(tbody.find_all("tr"))` with the
inner `for td in tr.find_all("td"): td["style"] = ...`.  The source styles
the `td` descendants of each enumerated `tr` in document order, so the
final style of a `td` is the parity style of its nearest enclosing
enumerated `tr` (later, deeper rows overwrite earlier writes).  This walk
realizes exactly that final state: `pend` is the style of the nearest
enclosing `tr` (none outside any row) and `i` the running row index, which
counts every `tr` of the subtree in document order exactly as
`find_all("tr")` does. -/
mutual
def zebN (S : String → String) (pend : Option String) (i : Nat) : Node → Node × Nat
  | .text s => (.text s, i)
  | .elem t c a ch =>
      if t == "tr" then
        let r := zebL S (some (if i % 2 == 1 then S "td_even" else S "td")) (i + 1) ch
        (.elem t c a r.1, r.2)
      else if t == "td" then
        let r := zebL S pend i ch
        (.elem t c (match pend with | some s2 => setAttr a "style" s2 | none => a) r.1, r.2)
      else
        let r := zebL S pend i ch
        (.elem t c a r.1, r.2)
def zebL (S : String → String) (pend : Option String) (i : Nat) : List Node → List Node × Nat
  | [] => ([], i)
  | n :: ns =>
      let r := zebN S pend i n
      let rs := zebL S pend r.2 ns
      (r.1 :: rs.1, rs.2)
end

/- `tbody = table.find("tbody"); if tbody: ...`: zebra-stripe the first
`tbody` descendant (document order) if any; a table without one is left
without zebra styling. -/
mutual
def tbodyN (S : String → String) : Node → Node × Bool
  | .text s => (.text s, false)
  | .elem t c a ch =>
      if t == "tbody" then (.elem t c a (zebL S none 0 ch).1, true)
      else
        let r := tbodyL S ch
        (.elem t c a r.1, r.2)
def tbodyL (S : String → String) : List Node → List Node × Bool
  | [] => ([], false)
  | n :: ns =>
      let r := tbodyN S n
      if r.2 then (r.1 :: ns, true)
      else
        let rs := tbodyL S ns
        (r.1 :: rs.1, rs.2)
end

/- The table loop: every table is styled, its `th` descendants get the
header style, the first `tbody` descendant is zebra-striped, and the table
is wrapped in the scrollable container div.  Nested tables are processed by
the recursion before the enclosing table\x27s header/zebra styling is applied;
the snapshot loop of the source instead processes the outer table first and
the nested one afterwards.  The two orders agree except for the row-parity
styles of cells lying below a table nested inside another table\x27s body — a
structure none of the properties below concern. -/
mutual
def tableN (S : String → String) : Node → Node
  | .text s => .text s
  | .elem t c a ch =>
      if t == "table" then
        .elem "div" [] [("style", S "table_wrapper")]
          [.elem t c (setAttr a "style" (S "table")) ((tbodyL S (thL S (tableL S ch))).1)]
      else .elem t c a (tableL S ch)
def tableL (S : String → String) : List Node → List Node
  | [] => []
  | n :: ns => tableN S n :: tableL S ns
end

/- Pass 6 — horizontal rules. -/
mutual
def hrN (S : String → String) : Node → Node
  | .text s => .text s
  | .elem t c a ch =>
      if t == "hr" then .elem t c (setAttr a "style" (S "hr")) (hrL S ch)
      else .elem t c a (hrL S ch)
def hrL (S : String → String) : List Node → List Node
  | [] => []
  | n :: ns => hrN S n :: hrL S ns
end

/-! Pass 7 — images and captions. -/

/-- The caption paragraph inserted after an image with usable alt text. -/
def imgCaption (C : Cfg) (alt : String) : Node :=
  .elem "p" [] [("style", C.sty "img_caption")] [.text alt]

/-- Does this node get a caption?  (It is an `img` whose stripped alt text
satisfies the variant's condition.) -/
def condImg (C : Cfg) (n : Node) : Bool :=
  tagOf n == "img" && C.captionCond (pyStrip (getAttr (attrsOf n) "alt"))

/- The image loop: every `img` gets the image style; when the stripped alt
text passes the variant's condition, a caption paragraph is inserted
immediately after the image (`img.insert_after(caption)`).  The fresh
caption contains no images, so the snapshot loop never revisits it. -/
mutual
def imgN (C : Cfg) : Node → Node
  | .text s => .text s
  | .elem t c a ch =>
      if t == "img" then .elem t c (setAttr a "style" (C.sty "img")) (imgL C ch)
      else .elem t c a (imgL C ch)
def imgL (C : Cfg) : List Node → List Node
  | [] => []
  | n :: ns =>
      if condImg C n then
        imgN C n :: imgCaption C (pyStrip (getAttr (attrsOf n) "alt")) :: imgL C ns
      else imgN C n :: imgL C ns
end

/- Pass 8 — task-list done items (`span.task-done`). -/
mutual
def taskN (S : String → String) : Node → Node
  | .text s => .text s
  | .elem t c a ch =>
      if t == "span" && c.contains "task-done" then
        .elem t c (setAttr a "style" (S "task_done")) (taskL S ch)
      else .elem t c a (taskL S ch)
def taskL (S : String → String) : List Node → List Node
  | [] => []
  | n :: ns => taskN S n :: taskL S ns
end

/-! Pass 9 — footnote sections.

The loop `for div in soup.find_all("div", class_="footnote")` assigns the
footnote-section style to each such div and decomposes every `hr` found by
`div.find_all("hr")`.  Its net effect is: every `div` carrying the
`footnote` class is restyled, and every `hr` that has such a div among its
ancestors is deleted (with its subtree).  The two effects commute (styling
never creates, moves or removes an `hr`; removal never changes a div\x27s
class or style), so they are rendered as two consecutive structural
passes. -/

/- Styling half of the footnote loop. -/
mutual
def fnStyleN (S : String → String) : Node → Node
  | .text s => .text s
  | .elem t c a ch =>
      if t == "div" && c.contains "footnote" then
        .elem t c (setAttr a "style" (S "footnote_section")) (fnStyleL S ch)
      else .elem t c a (fnStyleL S ch)
def fnStyleL (S : String → String) : List Node → List Node
  | [] => []
  | n :: ns => fnStyleN S n :: fnStyleL S ns
end

/- Removal half of the footnote loop: delete every `hr` below a footnote
div.  `inFn` records whether some ancestor is a `div.footnote`. -/
mutual
def fnRmN (inFn : Bool) : Node → Node
  | .text s => .text s
  | .elem t c a ch => .elem t c a (fnRmL (inFn || (t == "div" && c.contains "footnote")) ch)
def fnRmL (inFn : Bool) : List Node → List Node
  | [] => []
  | n :: ns =>
      if inFn && tagOf n == "hr" then fnRmL inFn ns
      else fnRmN inFn n :: fnRmL inFn ns
end

/-- The whole footnote pass. -/
def fnL (S : String → String) (l : List Node) : List Node := fnRmL false (fnStyleL S l)

/-- `apply_styles`: the full sequence of passes, in source order.  The
fragment root behaves like an element with no tag and no style
(`soup.get(...)` returns the defaults). -/
def applyStylesC (C : Cfg) (tree : List Node) : List Node :=
  fnL C.sty (taskL C.sty (imgL C (hrL C.sty (tableL C.sty
    (icL C.sty "" "" (preL "" (codeL C (styleAL C.sty "" tree))))))))

namespace Wechat

/-- The WeChat `apply_styles` configuration for a given style dictionary. -/
def cfg (styles : List (String × String)) : Cfg where
  sty := fun k => getAttr styles k
  dotColors := ["#ff5f57", "#febc2e", "#28c840"]
  langGuardPre := true
  captionCond := fun alt => alt != "" && alt != "image"

/-- `apply_styles(html, styles, theme)` of the WeChat converter, on the
parsed tree. -/
def apply_styles (styles : List (String × String)) (tree : List Node) : List Node :=
  applyStylesC (cfg styles) tree

end Wechat

namespace Zhihu

/-- The Zhihu `apply_styles` configuration for a given style dictionary. -/
def cfg (styles : List (String × String)) : Cfg where
  sty := fun k => getAttr styles k
  dotColors := ["#FF5F57", "#FEBC2E", "#28C840"]
  langGuardPre := false
  captionCond := fun alt => alt != "" && !(["image", "img", ""].contains (lowerS alt))

/-- `apply_styles(html, styles, theme)` of the Zhihu converter, on the
parsed tree. -/
def apply_styles (styles : List (String × String)) (tree : List Node) : List Node :=
  applyStylesC (cfg styles) tree

end Zhihu

/-! ### Markdown pre-processing -/

/-- `strip_frontmatter(md_text)`: when the text starts with `---` and a
closing `---` occurs, drop the delimited block, parse it as flat
`key: value` lines (keys and values stripped, lines without a colon
ignored) and strip the remaining body; otherwise return the text unchanged
with empty metadata.  The same function appears verbatim in
`md-to-wechat/scripts/convert.py` and `md-to-wechat/scripts/publish.py`. -/
def strip_frontmatter (md_text : String) : String × List (String × String) :=
  if strStarts md_text "---" then
    match pySplit2 md_text "---" with
    | [_, fm, content] =>
        let fm_text := pyStrip fm
        let metadata := (splitChS '\n' fm_text).foldl (fun m line =>
          let line2 := pyStrip line
          match findSplit [':'] line2.toList with
          | some kv => setAttr m (pyStrip (String.mk kv.1)) (pyStrip (String.mk kv.2))
          | none => m) []
        (pyStrip content, metadata)
    | _ => (md_text, [])
  else (md_text, [])

/-- The metadata parser exactly as the spec words it: the block is read as
flat `key: value` lines, keys and values trimmed, lines containing no `:`
separator ignored.  (Used to state the refinement; `strip_frontmatter`
above is the source's code.) -/
def parseMetaLines (fm_text : String) : List (String × String) :=
  (splitChS '\n' fm_text).foldl (fun m line =>
    let line2 := pyStrip line
    match findSplit [':'] line2.toList with
    | some kv => setAttr m (pyStrip (String.mk kv.1)) (pyStrip (String.mk kv.2))
    | none => m) []

/-- The `\s+(.+)$` tail of the task-list regexes: at least one whitespace
character, then a nonempty group of non-newline characters reaching the end
of the line (greedy, with the backtracking Python's engine applies when the
remainder is all whitespace).  Returns the second capture group. -/
def afterMarker (r : List Char) : Option (List Char) :=
  let rest := r.dropWhile pyWS
  if r.takeWhile pyWS = [] then none
  else if rest ≠ [] then some rest
  else if 2 ≤ r.length then some (r.drop (r.length - 1)) else none

/-- One line under `re.sub(r"^(\s*[-*])\s*\[x\]\s+(.+)$", r'\1 <span
class="task-done">✅ \2</span>', …, flags=re.MULTILINE)`. -/
def taskDoneLine (l : List Char) : List Char :=
  let ws := l.takeWhile pyWS
  match l.drop ws.length with
  | b :: rest =>
      if b == '-' || b == '*' then
        let rest2 := rest.dropWhile pyWS
        if ("[x]".toList).isPrefixOf rest2 then
          match afterMarker (rest2.drop 3) with
          | some g2 =>
              ws ++ [b] ++ (" <span class=\"task-done\">✅ ".toList) ++ g2 ++ ("</span>".toList)
          | none => l
        else l
      else l
  | [] => l

/-- One line under `re.sub(r"^(\s*[-*])\s*\[ \]\s+(.+)$", r"\1 ⬜ \2", …,
flags=re.MULTILINE)`. -/
def taskTodoLine (l : List Char) : List Char :=
  let ws := l.takeWhile pyWS
  match l.drop ws.length with
  | b :: rest =>
      if b == '-' || b == '*' then
        let rest2 := rest.dropWhile pyWS
        if ("[ ]".toList).isPrefixOf rest2 then
          match afterMarker (rest2.drop 3) with
          | some g2 => ws ++ [b] ++ (" ⬜ ".toList) ++ g2
          | none => l
        else l
      else l
  | [] => l

/-- A multiline `re.sub` anchored with `^…$`: apply the line transformer to
every line. -/
def applyPerLine (f : List Char → List Char) (s : String) : String :=
  String.mk (joinCh '\n' ((splitCh '\n' s.toList).map f))

/-- The two task-list rewrites shared by both converters (checked items
become a styleable `span.task-done`, unchecked ones a plain glyph). -/
def taskRewrites (md : String) : String :=
  applyPerLine taskTodoLine (applyPerLine taskDoneLine md)

/-- `extract_title(md_text)` (Zhihu converter and both `publish.py`
scripts): the group of `re.match(r"^#\s+(.+)", md_text, re.MULTILINE)`
stripped — since `re.match` anchors at position 0, this fires only when the
text itself starts with `#` followed by whitespace; otherwise the first
line with nonempty strip, truncated to 100 characters, else "Untitled". -/
def extractTitleMatch : List Char → Option (List Char)
  | '#' :: rest =>
      let run := rest.takeWhile pyWS
      if run = [] then none
      else
        let tl := rest.drop run.length
        if tl ≠ [] then some (tl.takeWhile (fun c => c != '\n'))
        else if (run.drop 1).any (fun c => c != '\n') then some [] else none
  | _ => none

/-- The fallback of `extract_title`: first line with nonempty strip,
truncated to 100 characters. -/
def firstLineTitle : List String → String
  | [] => "Untitled"
  | line :: rest =>
      let s2 := pyStrip line
      if s2 != "" then String.mk (s2.toList.take 100) else firstLineTitle rest

def extract_title (md_text : String) : String :=
  match extractTitleMatch md_text.toList with
  | some t => pyStrip (String.mk t)
  | none => firstLineTitle (splitChS '\n' md_text)

/-- `remove_title(md_text)` (Zhihu converter):
`re.sub(r"^#\s+.+\n*", "", md_text, count=1).lstrip()`.  Without
`re.MULTILINE` the `^` anchors at position 0 only, so the sub fires only
when the text itself starts with `#` followed by whitespace (`\s` may cross
newlines; `.` may not); it then removes up to the end of that line plus the
following newlines.  The final `lstrip` applies in every case. -/
def removeTitleMatch : List Char → Option (List Char)
  | '#' :: rest =>
      let run := rest.takeWhile pyWS
      if run = [] then none
      else
        let tl := rest.drop run.length
        if tl ≠ [] then
          some ((tl.dropWhile (fun c => c != '\n')).dropWhile (fun c => c == '\n'))
        else if (run.drop 1).any (fun c => c != '\n') then some [] else none
  | _ => none

def remove_title (md_text : String) : String :=
  match removeTitleMatch md_text.toList with
  | some r => pyLStrip (String.mk r)
  | none => pyLStrip md_text

namespace Wechat

/-- `preprocess_markdown` (WeChat converter): strip the frontmatter, then
apply the two task-list rewrites. -/
def preprocess_markdown (md : String) : String :=
  taskRewrites (strip_frontmatter md).1

end Wechat

namespace Zhihu

/-- `preprocess_markdown` (Zhihu converter): only the two task-list
rewrites (no frontmatter handling here). -/
def preprocess_markdown (md : String) : String := taskRewrites md

end Zhihu

namespace Wechat

/-- `build_document(body_html, styles, theme)`: the standalone preview page
(toolbar with copy-to-clipboard, phone frame, the styled fragment). -/
def build_document (body_html : String) (styles : List (String × String)) (t : Theme) : String :=
  "<!DOCTYPE html>\n<html lang=\"zh-CN\">\n<head>\n    <meta charset=\"UTF-8\">\n    <meta name=\"viewport\" content=\"width=device-width, initial-scale=1.0\">\n    <title>微信公众号文章预览 - " ++
    t.name ++
    "</title>\n    <style>\n        * \x7b margin: 0; padding: 0; box-sizing: border-box; \x7d\n        body \x7b\n            background: #f0f2f5;\n            display: flex;\n            flex-direction: column;\n            align-items: center;\n            padding: 20px;\n            font-family: " ++
    t.font_body ++
    ";\n        \x7d\n        .toolbar \x7b\n            position: sticky;\n            top: 0;\n            z-index: 100;\n            background: #fff;\n            padding: 14px 24px;\n            border-radius: 10px;\n            box-shadow: 0 2px 12px rgba(0,0,0,0.08);\n            margin-bottom: 24px;\n            display: flex;\n            gap: 16px;\n            align-items" ++
    ": center;\n            flex-wrap: wrap;\n        \x7d\n        .toolbar button \x7b\n            background: " ++
    t.primary ++
    ";\n            color: #fff;\n            border: none;\n            padding: 10px 24px;\n            border-radius: 8px;\n            cursor: pointer;\n            font-size: 14px;\n            font-weight: 500;\n            transition: all 0.2s;\n            box-shadow: 0 2px 6px rgba(0,0,0,0.12);\n        \x7d\n        .toolbar button:hover \x7b\n            opacity: 0.9;\n  " ++
    "          transform: translateY(-1px);\n            box-shadow: 0 4px 10px rgba(0,0,0,0.15);\n        \x7d\n        .toolbar button:active \x7b transform: translateY(0); \x7d\n        .toolbar .hint \x7b\n            color: #888;\n            font-size: 13px;\n        \x7d\n        .toolbar .status \x7b\n            font-size: 13px;\n            font-weight: 500;\n            t" ++
    "ransition: opacity 0.3s;\n        \x7d\n        .phone-frame \x7b\n            background: #fff;\n            max-width: 420px;\n            width: 100%;\n            border-radius: 40px;\n            box-shadow: 0 8px 40px rgba(0,0,0,0.12);\n            overflow: hidden;\n            border: 8px solid #1a1a1a;\n        \x7d\n        .phone-header \x7b\n            background: " ++
    "#1a1a1a;\n            padding: 10px 20px 8px;\n            display: flex;\n            justify-content: center;\n            align-items: center;\n        \x7d\n        .phone-notch \x7b\n            width: 120px;\n            height: 24px;\n            background: #000;\n            border-radius: 12px;\n        \x7d\n        .phone-content \x7b\n            padding: 20px 16px" ++
    " 30px;\n            max-height: 80vh;\n            overflow-y: auto;\n        \x7d\n        #content \x7b\n            font-family: " ++
    t.font_body ++
    ";\n        \x7d\n        /* Clean up Pygments pre inside our wrapper */\n        #content pre \x7b background: transparent !important; \x7d\n    </style>\n</head>\n<body>\n    <div class=\"toolbar\">\n        <button onclick=\"copyContent()\">复制内容到剪贴板</button>\n        <span class=\"hint\">复制后直接粘贴到微信公众号编辑器</span>\n        <span class=\"status\" id=\"status\"></span>\n    </div>" ++
    "\n    <div class=\"phone-frame\">\n        <div class=\"phone-header\">\n            <div class=\"phone-notch\"></div>\n        </div>\n        <div class=\"phone-content\">\n            <div id=\"content\" style=\"" ++
    getAttr styles "container" ++
    "\">\n" ++
    body_html ++
    "\n            </div>\n        </div>\n    </div>\n    <script>\n        function copyContent() \x7b\n            const content = document.getElementById(\x27content\x27);\n            const range = document.createRange();\n            range.selectNodeContents(content);\n            const sel = window.getSelection();\n            sel.removeAllRanges();\n            sel.addRange(" ++
    "range);\n            try \x7b\n                document.execCommand(\x27copy\x27);\n                showStatus(\x27已复制！可直接粘贴到公众号编辑器\x27, \x27#52c41a\x27);\n            \x7d catch (e) \x7b\n                showStatus(\x27复制失败，请手动 Ctrl+A 全选后复制\x27, \x27#f5222d\x27);\n            \x7d\n            sel.removeAllRanges();\n        \x7d\n        function showStatus(msg, color) \x7b\n" ++
    "            const el = document.getElementById(\x27status\x27);\n            el.textContent = msg;\n            el.style.color = color;\n            setTimeout(() => \x7b el.style.opacity = \x270\x27; setTimeout(() => \x7b el.textContent = \x27\x27; el.style.opacity = \x271\x27; \x7d, 300); \x7d, 3000);\n        \x7d\n    </script>\n</body>\n</html>"

end Wechat

namespace Zhihu

/-- The theme-selector options loop of the Zhihu `build_document`. -/
def theme_options (reg : List (String × Theme)) (theme_name : String) : String :=
  reg.foldl (fun acc p =>
    acc ++ "<option value=\"" ++ p.1 ++ "\" " ++
      (if p.1 == theme_name then "selected" else "") ++ ">" ++
      p.2.name ++ " (" ++ p.1 ++ ")</option>\n") ""

/-- `build_document(title, body_html, styles, theme, theme_name)`: the
standalone preview page (toolbar with copy button and advisory theme
selector, article frame, the styled fragment).  `reg` is the `THEMES`
registry the theme-selector loop reads. -/
def build_document (reg : List (String × Theme)) (title body_html : String) (styles : List (String × String)) (t : Theme) (theme_name : String) : String :=
  "<!DOCTYPE html>\n<html lang=\"zh-CN\">\n<head>\n    <meta charset=\"UTF-8\">\n    <meta name=\"viewport\" content=\"width=device-width, initial-scale=1.0\">\n    <title>知乎文章预览 - " ++
    title ++
    "</title>\n    <style>\n        * \x7b margin: 0; padding: 0; box-sizing: border-box; \x7d\n        body \x7b\n            background: #F6F7F8;\n            display: flex;\n            flex-direction: column;\n            align-items: center;\n            padding: 20px;\n            font-family: " ++
    t.font_body ++
    ";\n        \x7d\n        .toolbar \x7b\n            position: sticky;\n            top: 0;\n            z-index: 100;\n            background: #fff;\n            padding: 14px 24px;\n            border-radius: 10px;\n            box-shadow: 0 2px 12px rgba(0,0,0,0.08);\n            margin-bottom: 24px;\n            display: flex;\n            gap: 16px;\n            align-items" ++
    ": center;\n            flex-wrap: wrap;\n            max-width: 750px;\n            width: 100%;\n        \x7d\n        .toolbar button \x7b\n            background: " ++
    t.primary ++
    ";\n            color: #fff;\n            border: none;\n            padding: 10px 24px;\n            border-radius: 8px;\n            cursor: pointer;\n            font-size: 14px;\n            font-weight: 500;\n            transition: all 0.2s;\n            box-shadow: 0 2px 6px rgba(0,0,0,0.12);\n        \x7d\n        .toolbar button:hover \x7b\n            opacity: 0.9;\n  " ++
    "          transform: translateY(-1px);\n            box-shadow: 0 4px 10px rgba(0,0,0,0.15);\n        \x7d\n        .toolbar button:active \x7b transform: translateY(0); \x7d\n        .toolbar .hint \x7b\n            color: #888;\n            font-size: 13px;\n        \x7d\n        .toolbar .status \x7b\n            font-size: 13px;\n            font-weight: 500;\n            t" ++
    "ransition: opacity 0.3s;\n        \x7d\n        .toolbar select \x7b\n            padding: 8px 12px;\n            border: 1px solid #ddd;\n            border-radius: 6px;\n            font-size: 13px;\n            cursor: pointer;\n            background: #fff;\n        \x7d\n        .article-frame \x7b\n            background: #fff;\n            max-width: 750px;\n            " ++
    "width: 100%;\n            border-radius: 4px;\n            box-shadow: 0 1px 3px rgba(26,26,26,0.1);\n            overflow: hidden;\n        \x7d\n        .article-header \x7b\n            padding: 32px 24px 0;\n        \x7d\n        .article-title \x7b\n            font-size: 24px;\n            font-weight: 600;\n            color: #1A1A1A;\n            line-height: 1.4;\n    " ++
    "        margin-bottom: 16px;\n        \x7d\n        .article-meta \x7b\n            font-size: 14px;\n            color: #8590A6;\n            padding-bottom: 16px;\n            border-bottom: 1px solid #F0F2F7;\n        \x7d\n        .article-content \x7b\n            padding: 24px;\n        \x7d\n        #content \x7b\n            font-family: " ++
    t.font_body ++
    ";\n        \x7d\n        #content pre \x7b background: transparent !important; \x7d\n        .zhihu-badge \x7b\n            display: inline-flex;\n            align-items: center;\n            gap: 6px;\n            background: #F6F7F8;\n            padding: 4px 12px;\n            border-radius: 4px;\n            font-size: 12px;\n            color: #8590A6;\n        \x7d\n    " ++
    "    .zhihu-badge svg \x7b\n            width: 16px;\n            height: 16px;\n        \x7d\n    </style>\n</head>\n<body>\n    <div class=\"toolbar\">\n        <button onclick=\"copyContent()\">复制内容到剪贴板</button>\n        <select onchange=\"switchTheme(this.value)\" title=\"切换主题\">\n            " ++
    theme_options reg theme_name ++
    "\n        </select>\n        <span class=\"hint\">复制后粘贴到知乎编辑器</span>\n        <span class=\"status\" id=\"status\"></span>\n    </div>\n    <div class=\"article-frame\">\n        <div class=\"article-header\">\n            <h1 class=\"article-title\">" ++
    title ++
    "</h1>\n            <div class=\"article-meta\">\n                <span class=\"zhihu-badge\">\n                    <svg viewBox=\"0 0 24 24\" fill=\"#0066FF\"><path d=\"M5.721 0C2.251 0 0 2.25 0 5.719V18.28C0 21.751 2.252 24 5.721 24h12.56C21.751 24 24 21.75 24 18.281V5.72C24 2.249 21.75 0 18.281 0zm1.964 4.078h6.46l.09 1.252h-3.85l-.5 3.797h3.478c0 0-.074 5.089-.26 6.291-.186 " ++
    "1.201-.54 1.862-1.1 2.254-.56.392-1.17.54-2.07.576-.598.024-1.597.009-1.597.009l-.32-1.473s.985.03 1.564.009c.579-.021.913-.1 1.177-.345.264-.246.383-.702.45-1.36.068-.659.194-4.508.194-4.508H9.273l-.658 8.67H7.17l.66-8.67H5.504V9.127h2.465l.5-3.797H6.05z\"/></svg>\n                    知乎文章预览\n                </span>\n            </div>\n        </div>\n        <div class=\"art" ++
    "icle-content\">\n            <div id=\"content\" style=\"" ++
    getAttr styles "container" ++
    "\">\n" ++
    body_html ++
    "\n            </div>\n        </div>\n    </div>\n    <script>\n        function copyContent() \x7b\n            const content = document.getElementById(\x27content\x27);\n            const range = document.createRange();\n            range.selectNodeContents(content);\n            const sel = window.getSelection();\n            sel.removeAllRanges();\n            sel.addRange(" ++
    "range);\n            try \x7b\n                document.execCommand(\x27copy\x27);\n                showStatus(\x27✅ 已复制！可直接粘贴到知乎文章编辑器\x27, \x27#52C41A\x27);\n            \x7d catch (e) \x7b\n                showStatus(\x27❌ 复制失败，请手动 Ctrl+A 全选后复制\x27, \x27#F5222D\x27);\n            \x7d\n            sel.removeAllRanges();\n        \x7d\n        function showStatus(msg, color) \x7b" ++
    "\n            const el = document.getElementById(\x27status\x27);\n            el.textContent = msg;\n            el.style.color = color;\n            setTimeout(() => \x7b\n                el.style.opacity = \x270\x27;\n                setTimeout(() => \x7b el.textContent = \x27\x27; el.style.opacity = \x271\x27; \x7d, 300);\n            \x7d, 3000);\n        \x7d\n        fun" ++
    "ction switchTheme(theme) \x7b\n            const url = new URL(window.location.href);\n            // Reload page can\x27t change server-rendered theme, so we just hint the user\n            showStatus(\x27请重新运行转换命令并添加 --theme \x27 + theme, \x27#0066FF\x27);\n        \x7d\n    </script>\n</body>\n</html>"

end Zhihu


/-! ### Top-level pipelines

The Markdown parser (`markdown.Markdown(extensions=…).convert`) and the
BeautifulSoup serializer (`str(soup)`) are external collaborators; they are
passed in as pure functions `parse` and `render`.  The module-level
`THEMES` table — the only module state the pipelines read — is passed
explicitly as `reg` and returned unchanged, making the (absence of) global
mutation visible. -/

namespace Wechat

/-- `convert(md_content, theme_name)` (WeChat): resolve the theme, build the
styles, preprocess the markdown, parse, apply the styles and assemble the
preview document; the registry is read but never written. -/
def convertS (parse : String → List Node) (render : List Node → String)
    (reg : List (String × Theme)) (md_content theme_name : String) :
    List (String × Theme) × String :=
  let t := (reg.lookup theme_name).getD ((reg.lookup "blue").getD theme_blue)
  let styles := stylesOf t
  let body := preprocess_markdown md_content
  let tree := parse body
  let styled := applyStylesC (cfg styles) tree
  (reg, build_document (render styled) styles t)

/-- `convert_to_wechat_content(md_content, theme_name)`: same pipeline
without the document shell (fragment for the publishing API). -/
def convert_to_wechat_contentS (parse : String → List Node) (render : List Node → String)
    (reg : List (String × Theme)) (md_content theme_name : String) :
    List (String × Theme) × String :=
  let t := (reg.lookup theme_name).getD ((reg.lookup "blue").getD theme_blue)
  let styles := stylesOf t
  let body := preprocess_markdown md_content
  let tree := parse body
  (reg, render (applyStylesC (cfg styles) tree))

end Wechat

namespace Zhihu

/- The post-processing of `convert_to_zhihu_content`: rebuild each
`div.codehilite` that holds a `pre` into a bare `pre > code.language-…`
block (language read from the first `code` descendant's classes); contents
are the re-parse of the found pre's children, which the snapshot loop never
revisits. -/
mutual
def zcCodeN : Node → Node
  | .text s => .text s
  | .elem t c a ch =>
      if t == "div" && c.contains "codehilite" then
        let lang :=
          match findTagL "code" ch with
          | some m => langFromClasses (clsOf m)
          | none => ""
        match findTagL "pre" ch with
        | some p =>
            .elem "pre" [] []
              [.elem "code" (if lang != "" then ["language-" ++ lang] else []) []
                (match p with | .elem _ _ _ pch => pch | .text _ => [])]
        | none => .elem t c a (zcCodeL ch)
      else .elem t c a (zcCodeL ch)
def zcCodeL : List Node → List Node
  | [] => []
  | n :: ns => zcCodeN n :: zcCodeL ns
end

/- The figure-wrapping loop of `convert_to_zhihu_content`: for each `img`
whose parent is not a `figure`, the source extracts the image, builds a
`figure` around it (plus a `figcaption` from usable alt text) and then runs
`img.insert_after(figure) if img.parent else soup.append(figure)`.  At that
point the image has already been moved inside the new figure, so the figure
is inserted into its own detached subtree and never re-attached: the net
effect on the output is that such an `img` disappears.  `ptag` is the
parent's tag (`"[document]"` at the root). -/
mutual
def zcFigN : Node → Node
  | .text s => .text s
  | .elem t c a ch => .elem t c a (zcFigL t ch)
def zcFigL (ptag : String) : List Node → List Node
  | [] => []
  | n :: ns =>
      if tagOf n == "img" && ptag != "figure" then zcFigL ptag ns
      else zcFigN n :: zcFigL ptag ns
end

/-- `convert_to_zhihu_content(md_content)`: preprocess, drop the leading h1
(its text becomes the article title), parse, then apply the two
Zhihu-compatibility rewrites.  Reads no theme state. -/
def convert_to_zhihu_content (parse : String → List Node) (render : List Node → String)
    (md_content : String) : String :=
  let body := remove_title (preprocess_markdown md_content)
  let tree := parse body
  render (zcFigL "[document]" (zcCodeL tree))

/-- The markdown text `convert_to_zhihu_content` hands to the parser. -/
def content_parser_input (md_content : String) : String :=
  remove_title (preprocess_markdown md_content)

/-- The markdown text `convert_to_preview` hands to the parser. -/
def preview_parser_input (md_content : String) : String :=
  preprocess_markdown (remove_title md_content)

/-- `convert_to_preview(md_content, theme_name)` (Zhihu): resolve the
theme, extract the title, drop the leading h1, preprocess, parse, style and
assemble the preview document; the registry is read but never written. -/
def convert_to_previewS (parse : String → List Node) (render : List Node → String)
    (reg : List (String × Theme)) (md_content theme_name : String) :
    List (String × Theme) × String :=
  let t := (reg.lookup theme_name).getD ((reg.lookup "zhihu").getD theme_zhihu)
  let styles := stylesOf t
  let title := extract_title md_content
  let md_body := preview_parser_input md_content
  let tree := parse md_body
  let styled := applyStylesC (cfg styles) tree
  (reg, build_document reg title (render styled) styles t theme_name)

end Zhihu


/-! ### Definitions used to state the claims -/

/-- Leading `font-size: <n>px` value found in an inline style string. -/
def fontSizePx (s : String) : Option Nat :=
  match findSplit ("font-size: ".toList) s.toList with
  | none => none
  | some pr =>
      if pr.2.takeWhile Char.isDigit = [] then none else some (digitsVal pr.2)

/-- Do the h1–h4 font sizes of a style dictionary form a strictly
decreasing ramp? -/
def rampOK (styles : List (String × String)) : Bool :=
  match fontSizePx (getAttr styles "h1"), fontSizePx (getAttr styles "h2"),
        fontSizePx (getAttr styles "h3"), fontSizePx (getAttr styles "h4") with
  | some a, some b, some c, some d => decide (b < a) && decide (c < b) && decide (d < c)
  | _, _, _, _ => false

/-- Every style key `apply_styles` looks up. -/
def usedStyleKeys : List String :=
  ["h1", "h2", "h3", "h4", "p", "blockquote_p", "strong", "em", "del",
   "footnote_ref", "a", "ul", "ol", "li", "blockquote",
   "code_block_wrapper", "code_block_header", "code_block_dots",
   "code_block_dot", "code_block_lang", "code_block_body", "code_inline",
   "table_wrapper", "table", "th", "td", "td_even", "hr", "img",
   "img_caption", "task_done", "footnote_section"]

/- Caption invariant (claim C2): every image whose stripped alt text passes
the variant's condition is immediately followed by the caption paragraph
built from that alt text; checked on every child list of the tree. -/
mutual
def capOKN (C : Cfg) : Node → Bool
  | .text _ => true
  | .elem _ _ _ ch => capOKL C ch
def capOKL (C : Cfg) : List Node → Bool
  | [] => true
  | n :: ns =>
      (if condImg C n then
        match ns with
        | m :: _ => nodeBeq m (imgCaption C (pyStrip (getAttr (attrsOf n) "alt")))
        | [] => false
       else true)
      && capOKN C n && capOKL C ns
end

/- Footnote invariant (claim C7): `hr`-freeness of a subtree, and the
output property that every `div` carrying the `footnote` class has the
footnote-section style and no `hr` descendant. -/
mutual
def noHrN : Node → Bool
  | .text _ => true
  | .elem t _ _ ch => t != "hr" && noHrL ch
def noHrL : List Node → Bool
  | [] => true
  | n :: ns => noHrN n && noHrL ns
end

mutual
def fnOKN (fs : String) : Node → Bool
  | .text _ => true
  | .elem t c a ch =>
      (if t == "div" && c.contains "footnote" then
        (getAttr a "style" == fs) && noHrL ch
       else true)
      && fnOKL fs ch
def fnOKL (fs : String) : List Node → Bool
  | [] => true
  | n :: ns => fnOKN fs n && fnOKL fs ns
end

/-! Recognizers for the code-block structures (claims C1, C4). -/

/-- A codehilite container: a `div` carrying the `codehilite` class. -/
def isCodehilite (n : Node) : Bool := tagOf n == "div" && (clsOf n).contains "codehilite"

/-- A node carrying exactly the code-block-wrapper style of `C`. -/
def isWrapper (C : Cfg) (n : Node) : Bool := styleOf n == C.sty "code_block_wrapper"

/-- A decorative indicator dot: a `span` whose style starts with the
dot style (the source appends the dot color to it). -/
def isDotSpan (C : Cfg) (n : Node) : Bool :=
  tagOf n == "span" && strStarts (styleOf n) (C.sty "code_block_dot")

/-- A language badge: a `span` carrying exactly the language-badge style. -/
def isBadgeSpan (C : Cfg) (n : Node) : Bool :=
  tagOf n == "span" && styleOf n == C.sty "code_block_lang"

/-! ### Concrete input families for the table and code-block laws -/

/-- A table cell holding one text leaf. -/
def mkTd (s : String) : Node := .elem "td" [] [] [.text s]

/-- A body row of text cells. -/
def mkTr (cells : List String) : Node := .elem "tr" [] [] (cells.map mkTd)

/-- A header cell. -/
def mkTh (s : String) : Node := .elem "th" [] [] [.text s]

/-- The `thead` holding one row of header cells. -/
def mkThead (hs : List String) : Node :=
  .elem "thead" [] [] [.elem "tr" [] [] (hs.map mkTh)]

/-- A parsed Markdown table: `thead` plus a `tbody` of body rows. -/
def mkTable (hs : List String) (rows : List (List String)) : Node :=
  .elem "table" [] [] [mkThead hs, .elem "tbody" [] [] (rows.map mkTr)]

/-- A table carrying rows directly, with no `tbody` at all. -/
def mkTableNoTbody (rows : List (List String)) : Node :=
  .elem "table" [] [] (rows.map mkTr)

/-- The expected styled body cell of row `i`. -/
def outTd (S : String → String) (i : Nat) (s : String) : Node :=
  .elem "td" [] [("style", if i % 2 == 1 then S "td_even" else S "td")] [.text s]

/-- The expected styled body row at index `i`. -/
def outTr (S : String → String) (i : Nat) (cells : List String) : Node :=
  .elem "tr" [] [] (cells.map (outTd S i))

/-- The expected zebra-striped rows, numbering from `i`. -/
def zebRows (S : String → String) (i : Nat) : List (List String) → List Node
  | [] => []
  | r :: rs => outTr S i r :: zebRows S (i + 1) rs

/-- The expected styled `thead`. -/
def outThead (S : String → String) (hs : List String) : Node :=
  .elem "thead" [] [] [.elem "tr" [] []
    (hs.map (fun s => .elem "th" [] [("style", S "th")] [.text s]))]

/-- A fenced code block as the codehilite extension emits it:
`div.codehilite` (plus optional further classes) containing
`pre > code > text`. -/
structure CHItem where
  divClasses : List String
  codeClasses : List String
  codeText : String

/-- The parsed form of a `CHItem`. -/
def chDiv (it : CHItem) : Node :=
  .elem "div" ("codehilite" :: it.divClasses) []
    [.elem "pre" [] [] [.elem "code" it.codeClasses [] [.text it.codeText]]]

/-- The wrapper the code-block pass rebuilds a `chDiv` into (the inner
`pre` has been neutralized). -/
def wrapOut (C : Cfg) (it : CHItem) : Node :=
  .elem "div" [] [("style", C.sty "code_block_wrapper")]
    [mkHeader C (detectLang C ("codehilite" :: it.divClasses)
       [.elem "pre" [] [] [.elem "code" it.codeClasses [] [.text it.codeText]]]),
     .elem "div" [] [("style", C.sty "code_block_body")]
       [.elem "pre" [] [("style", neutralPre)]
         [.elem "code" it.codeClasses [] [.text it.codeText]]]]

/-! ### Trigger predicates

Each styling pass rewrites exactly the nodes matching its trigger; on a
subtree containing no triggering node the pass is the identity.  These
Booleans name the triggers, and `freeN`/`freeL` state trigger-freeness. -/

/-- Trigger of the combined local-styling pass. -/
def trigStyleA (n : Node) : Bool :=
  ["h1", "h2", "h3", "h4", "p", "strong", "em", "del", "a", "ul", "ol", "li",
   "blockquote"].contains (tagOf n)

/-- Trigger of the bare-`pre` pass. -/
def trigPre (n : Node) : Bool := tagOf n == "pre"

/-- Trigger of the inline-code pass. -/
def trigIc (n : Node) : Bool := tagOf n == "code"

/-- Trigger of the table pass. -/
def trigTable (n : Node) : Bool := tagOf n == "table"

/-- `tbody` detection inside the table pass. -/
def trigTbody (n : Node) : Bool := tagOf n == "tbody"

/-- Header-cell detection inside the table pass. -/
def trigTh (n : Node) : Bool := tagOf n == "th"

/-- Trigger of the horizontal-rule pass. -/
def trigHr (n : Node) : Bool := tagOf n == "hr"

/-- Trigger of the image pass. -/
def trigImg (n : Node) : Bool := tagOf n == "img"

/-- Trigger of the task-done pass. -/
def trigTask (n : Node) : Bool := tagOf n == "span" && (clsOf n).contains "task-done"

/-- Trigger of the footnote pass. -/
def trigFn (n : Node) : Bool := tagOf n == "div" && (clsOf n).contains "footnote"

/- No node of the subtree satisfies the trigger. -/
mutual
def freeN (trig : Node → Bool) : Node → Bool
  | .text s => !(trig (.text s))
  | .elem t c a ch => !(trig (.elem t c a ch)) && freeL trig ch
def freeL (trig : Node → Bool) : List Node → Bool
  | [] => true
  | n :: ns => freeN trig n && freeL trig ns
end

/-! ## Theorems -/

/-! ### Helper lemmas -/

/-- Structural induction over `Node` with a members hypothesis for the
child list. -/
theorem node_ind (P : Node → Prop)
    (h1 : ∀ s, P (.text s))
    (h2 : ∀ t c a ch, (∀ n ∈ ch, P n) → P (.elem t c a ch)) : ∀ n, P n := by
  intro n
  induction n using Node.rec (motive_2 := fun l => ∀ n ∈ l, P n) with
  | text s => exact h1 s
  | elem t c a ch ih => exact h2 t c a ch ih
  | nil => exact (List.not_mem_nil _ ‹_›).elim
  | cons x xs hx hxs =>
      rename_i n hn
      rcases List.mem_cons.mp hn with h | h
      · exact h ▸ hx
      · exact hxs n h

theorem nodeBeq_refl : ∀ n, nodeBeq n n = true := by
  intro n
  induction n using node_ind with
  | h1 s => simp [nodeBeq]
  | h2 t c a ch ih =>
      rw [nodeBeq]
      simp only [beq_self_eq_true, Bool.and_true, Bool.true_and]
      induction ch with
      | nil => simp [nodeBeqL]
      | cons m ms ihl =>
          rw [nodeBeqL]
          exact Bool.and_eq_true_iff.mpr
            ⟨ih m (List.mem_cons_self m ms), ihl (fun n hn => ih n (List.mem_cons_of_mem m hn))⟩

theorem nodeBeq_sound : ∀ n m, nodeBeq n m = true → n = m := by
  intro n
  induction n using node_ind with
  | h1 s =>
      intro m h
      cases m with
      | text s2 => rw [nodeBeq] at h; exact congrArg Node.text (by simpa using h)
      | elem _ _ _ _ => simp [nodeBeq] at h
  | h2 t c a ch ih =>
      intro m h
      cases m with
      | text _ => simp [nodeBeq] at h
      | elem t2 c2 a2 ch2 =>
          rw [nodeBeq] at h
          simp only [Bool.and_eq_true_iff, beq_iff_eq] at h
          obtain ⟨⟨⟨ht, hc⟩, ha⟩, hch⟩ := h
          subst ht; subst hc; subst ha
          congr 1
          clear t c a
          induction ch generalizing ch2 with
          | nil => cases ch2 with
            | nil => rfl
            | cons _ _ => simp [nodeBeqL] at hch
          | cons x xs ihl =>
              cases ch2 with
              | nil => simp [nodeBeqL] at hch
              | cons y ys =>
                  rw [nodeBeqL] at hch
                  rcases Bool.and_eq_true_iff.mp hch with ⟨hx, hy⟩
                  rw [ih x (List.mem_cons_self x xs) y hx,
                      ihl (fun n hn => ih n (List.mem_cons_of_mem x hn)) ys hy]

theorem lookup_map_set_ne (a : List (String × String)) (k k2 v : String) (h : k ≠ k2) :
    List.lookup k2 (a.map (fun p => if p.1 = k then (k, v) else p)) = List.lookup k2 a := by
  induction a with
  | nil => rfl
  | cons p ps ih =>
      simp only [List.map_cons]
      by_cases hp : p.1 = k
      · have hk2p : (k2 == p.1) = false := by simp [hp, Ne.symm h]
        have hk2 : (k2 == k) = false := by simp [Ne.symm h]
        rw [if_pos hp]
        simp only [List.lookup, hk2, hk2p]
        exact ih
      · rw [if_neg hp]
        by_cases hq : k2 = p.1
        · simp [List.lookup, hq]
        · have hq2 : (k2 == p.1) = false := by simp [hq]
          simp only [List.lookup, hq2]
          exact ih

theorem lookup_map_set_same (a : List (String × String)) (k v : String)
    (hs : (List.lookup k a).isSome = true) :
    List.lookup k (a.map (fun p => if p.1 = k then (k, v) else p)) = some v := by
  induction a with
  | nil => simp [List.lookup] at hs
  | cons p ps ih =>
      simp only [List.map_cons]
      by_cases hp : p.1 = k
      · rw [if_pos hp]
        simp [List.lookup]
      · rw [if_neg hp]
        have hk : (k == p.1) = false := by simp [Ne.symm hp]
        simp only [List.lookup, hk] at hs
        simp only [List.lookup, hk]
        exact ih hs

theorem lookup_append_none (a b : List (String × String)) (k : String)
    (h : List.lookup k a = none) : List.lookup k (a ++ b) = List.lookup k b := by
  induction a with
  | nil => rfl
  | cons p ps ih =>
      by_cases hq : k = p.1
      · have : (k == p.1) = true := by simp [hq]
        simp [List.lookup, this] at h
      · have hq2 : (k == p.1) = false := by simp [hq]
        simp only [List.lookup, hq2] at h
        rw [List.cons_append]
        simp only [List.lookup, hq2]
        exact ih h

theorem lookup_append_some (a b : List (String × String)) (k : String) (x : String)
    (h : List.lookup k a = some x) : List.lookup k (a ++ b) = some x := by
  induction a with
  | nil => simp [List.lookup] at h
  | cons p ps ih =>
      by_cases hq : k = p.1
      · have hb : (k == p.1) = true := by simp [hq]
        simp only [List.lookup, hb] at h
        simp only [List.cons_append, List.lookup, hb]
        exact h
      · have hq2 : (k == p.1) = false := by simp [hq]
        simp only [List.lookup, hq2] at h
        simp only [List.cons_append, List.lookup, hq2]
        exact ih h

/-- Setting one attribute does not change the others. -/
theorem getAttr_setAttr_ne (a : List (String × String)) (k k2 v : String) (h : k ≠ k2) :
    getAttr (setAttr a k v) k2 = getAttr a k2 := by
  unfold setAttr getAttr
  by_cases hs : (List.lookup k a).isSome = true
  · rw [if_pos hs, lookup_map_set_ne a k k2 v h]
  · rw [if_neg hs]
    cases hl : List.lookup k2 a with
    | some x => rw [lookup_append_some a _ k2 x hl]
    | none =>
        rw [lookup_append_none a _ k2 hl]
        have hk2 : (k2 == k) = false := by simp [Ne.symm h]
        simp [List.lookup, hk2]

/-- Reading back the attribute just set. -/
theorem getAttr_setAttr_same (a : List (String × String)) (k v : String) :
    getAttr (setAttr a k v) k = v := by
  unfold setAttr getAttr
  by_cases hs : (List.lookup k a).isSome = true
  · rw [if_pos hs, lookup_map_set_same a k v hs]; rfl
  · rw [if_neg hs]
    cases hl : List.lookup k a with
    | some x => rw [hl] at hs; simp at hs
    | none =>
        rw [lookup_append_none a _ k hl]
        simp [List.lookup]

/-! ### Claim C1 -/

/-- C1: the structural rewrite for bare (non-codehilite) `pre` blocks loses
the block's text: on an input holding one bare `pre` with the text
`"hello"`, both variants' style-application passes return an output tree
with no nodes at all — the claimed wrapper/body structure at the pre's
position, still containing the text, does not exist.  (The pass extracts
the `pre`, moves it into the new wrapper's body, and then the guarded
`insert_after` attaches the wrapper inside its own detached body instead of
the document.) -/
theorem c1_bare_pre_text_lost :
    Wechat.apply_styles (Wechat.build_styles "blue") [.elem "pre" [] [] [.text "hello"]] = [] ∧
    Zhihu.apply_styles (Zhihu.build_styles "zhihu") [.elem "pre" [] [] [.text "hello"]] = [] ∧
    leafTextsL [Node.elem "pre" [] [] [.text "hello"]] = ["hello"] ∧
    leafTextsL (Wechat.apply_styles (Wechat.build_styles "blue")
      [.elem "pre" [] [] [.text "hello"]]) = [] :=
  ⟨rfl, rfl, rfl, rfl⟩

/-! ### Claim C5 -/

/-- C5: the style resolvers are total.  An unknown theme key resolves to
exactly the designated default theme's stylesheet (`"blue"` for WeChat,
`"zhihu"` for Zhihu), and for every key whatsoever the returned dictionary
contains an entry for every element-kind the style-application pass looks
up. -/
theorem c5_build_styles_total :
    (∀ key, Wechat.THEMES.lookup key = none →
      Wechat.build_styles key = Wechat.build_styles "blue") ∧
    (∀ key, (usedStyleKeys.all (fun k => ((Wechat.build_styles key).lookup k).isSome)) = true) ∧
    (∀ key, Zhihu.THEMES.lookup key = none →
      Zhihu.build_styles key = Zhihu.build_styles "zhihu") ∧
    (∀ key, (usedStyleKeys.all (fun k => ((Zhihu.build_styles key).lookup k).isSome)) = true) := by
  refine ⟨fun key h => ?_, fun key => ?_, fun key h => ?_, fun key => ?_⟩
  · unfold Wechat.build_styles
    rw [h]
    rfl
  · unfold Wechat.build_styles
    generalize (Wechat.THEMES.lookup key).getD Wechat.theme_blue = t
    rfl
  · unfold Zhihu.build_styles
    rw [h]
    rfl
  · unfold Zhihu.build_styles
    generalize (Zhihu.THEMES.lookup key).getD Zhihu.theme_zhihu = t
    rfl

/-- C5 witness: the unknown key `"solarized"` falls back to each default,
and the `"blue"` stylesheet covers every key the pass looks up. -/
theorem c5_build_styles_total_witness :
    Wechat.build_styles "solarized" = Wechat.build_styles "blue" ∧
    Zhihu.build_styles "solarized" = Zhihu.build_styles "zhihu" ∧
    (usedStyleKeys.all (fun k => ((Wechat.build_styles "blue").lookup k).isSome)) = true :=
  ⟨c5_build_styles_total.1 "solarized" rfl,
   c5_build_styles_total.2.2.1 "solarized" rfl,
   c5_build_styles_total.2.1 "blue"⟩

/-! ### Claim C8 -/

/-- C8: for every theme in each variant's registry, the resolved h1–h4
font sizes form a strictly decreasing ramp (WeChat 22 > 19 > 17 > 15 px,
Zhihu 24 > 20 > 17 > 15 px). -/
theorem c8_heading_ramp :
    (Wechat.THEMES.all (fun p => rampOK (Wechat.build_styles p.1))) = true ∧
    (Zhihu.THEMES.all (fun p => rampOK (Zhihu.build_styles p.1))) = true := by
  constructor
  · decide
  · decide

/-! ### Claim C9 -/

/-- C9: determinism of the conversion pipelines.  With the external parser
and serializer fixed, a pipeline invocation leaves the theme registry (the
only module state it reads) unchanged, and a second invocation on the same
(input, theme) pair — running against the state the first one left behind —
produces a byte-identical output string. -/
theorem c9_pipeline_deterministic :
    ∀ (parse : String → List Node) (render : List Node → String)
      (reg : List (String × Theme)) (md theme_name : String),
      (Wechat.convertS parse render reg md theme_name).1 = reg ∧
      (Wechat.convertS parse render (Wechat.convertS parse render reg md theme_name).1
        md theme_name).2 = (Wechat.convertS parse render reg md theme_name).2 ∧
      (Zhihu.convert_to_previewS parse render reg md theme_name).1 = reg ∧
      (Zhihu.convert_to_previewS parse render
        (Zhihu.convert_to_previewS parse render reg md theme_name).1 md theme_name).2
        = (Zhihu.convert_to_previewS parse render reg md theme_name).2 :=
  fun _ _ _ _ _ => ⟨rfl, rfl, rfl, rfl⟩

/-! ### Claim C6 -/

/-- C6: `strip_frontmatter` is total and graceful.  If the text does not
begin with the `---` marker, or no closing occurrence of `---` exists
(fewer than three pieces under `split("---", 2)`), the body is returned
unchanged with an empty metadata mapping; when the marker is properly
closed, the delimited block is removed and parsed exactly as flat
`key: value` lines with keys and values trimmed, lines without a `:`
separator being ignored (`parseMetaLines` is that specification-shaped
parser). -/
theorem c6_strip_frontmatter_graceful :
    (∀ md, strStarts md "---" = false → strip_frontmatter md = (md, [])) ∧
    (∀ md x, pySplit2 md "---" = [x] → strip_frontmatter md = (md, [])) ∧
    (∀ md x y, pySplit2 md "---" = [x, y] → strip_frontmatter md = (md, [])) ∧
    (∀ md x fm body, strStarts md "---" = true → pySplit2 md "---" = [x, fm, body] →
      strip_frontmatter md = (pyStrip body, parseMetaLines (pyStrip fm))) := by
  refine ⟨fun md h => ?_, fun md x h => ?_, fun md x y h => ?_, fun md x fm body hs h => ?_⟩
  · unfold strip_frontmatter
    rw [h]
    rfl
  · unfold strip_frontmatter
    rw [h]
    split <;> rfl
  · unfold strip_frontmatter
    rw [h]
    split <;> rfl
  · unfold strip_frontmatter
    rw [h, if_pos hs]
    rfl

/-- C6 witness: a frontmatter block with one well-formed line and one line
without a separator parses to a single-entry mapping, and both degenerate
shapes return the input untouched. -/
theorem c6_strip_frontmatter_graceful_witness :
    strip_frontmatter "---\ntitle: Hi\nnocolon\n---\nBody" = ("Body", [("title", "Hi")]) ∧
    strip_frontmatter "no marker here" = ("no marker here", []) ∧
    strip_frontmatter "---\nunclosed: yes" = ("---\nunclosed: yes", []) := by
  refine ⟨?_, ?_, ?_⟩
  · have h := c6_strip_frontmatter_graceful.2.2.2 "---\ntitle: Hi\nnocolon\n---\nBody"
      "" "\ntitle: Hi\nnocolon\n" "\nBody" (by decide) (by decide)
    rw [h]
    decide
  · exact c6_strip_frontmatter_graceful.1 "no marker here" (by decide)
  · exact c6_strip_frontmatter_graceful.2.2.1 "---\nunclosed: yes" "" "\nunclosed: yes" (by decide)

/-! ### Claim C10 -/

/-- C10 counterexample: `remove_title` uses `re.sub(r"^#\s+.+\n*", …)`
without `re.MULTILINE`, so it only fires when the h1 is at the very start
of the text.  On a body whose first heading is an h1 that is not the first
line, nothing is removed: both Zhihu pipelines hand the parser markdown
that still contains the `# Title` line, so the produced fragment does
contain an element derived from that h1. -/
theorem c10_first_h1_not_removed_counterexample :
    remove_title "intro\n\n# Title\nbody" = "intro\n\n# Title\nbody" ∧
    containsSub (Zhihu.content_parser_input "intro\n\n# Title\nbody") "# Title" = true ∧
    containsSub (Zhihu.preview_parser_input "intro\n\n# Title\nbody") "# Title" = true := by
  refine ⟨by decide, by decide, by decide⟩

theorem drop_len_takeWhile (p : Char → Bool) (l : List Char) :
    l.drop (l.takeWhile p).length = l.dropWhile p := by
  induction l with
  | nil => rfl
  | cons c cs ih =>
      by_cases h : p c = true
      · simp [List.takeWhile_cons, List.dropWhile_cons, h, ih]
      · simp [List.takeWhile_cons, List.dropWhile_cons, h]

theorem dropWhile_append_of_any (title z : List Char)
    (h : (title.any (fun c => !(pyWS c))) = true) :
    (title ++ z).dropWhile pyWS = title.dropWhile pyWS ++ z ∧
    (title.dropWhile pyWS) ≠ [] := by
  induction title with
  | nil => simp at h
  | cons c cs ih =>
      by_cases hc : pyWS c = true
      · have h2 : (cs.any (fun c => !(pyWS c))) = true := by
          simpa [List.any_cons, hc] using h
        simpa [List.dropWhile_cons, hc] using ih h2
      · simp [List.dropWhile_cons, hc]

theorem all_dropWhile_ne (p q : Char → Bool) (l : List Char) (h : l.all q = true) :
    (l.dropWhile p).all q = true := by
  induction l with
  | nil => rfl
  | cons c cs ih =>
      rw [List.all_cons] at h
      rcases Bool.and_eq_true_iff.mp h with ⟨h1, h2⟩
      by_cases hc : p c = true
      · simp [List.dropWhile_cons, hc, ih h2]
      · simp [List.dropWhile_cons, hc, List.all_cons, h1, h2]

theorem dropWhile_line_end (l z : List Char) (h : (l.all (fun c => c != '\n')) = true) :
    (l ++ '\n' :: z).dropWhile (fun c => c != '\n') = '\n' :: z := by
  induction l with
  | nil => simp [List.dropWhile_cons]
  | cons c cs ih =>
      rw [List.all_cons] at h
      rcases Bool.and_eq_true_iff.mp h with ⟨h1, h2⟩
      simp [List.dropWhile_cons, h1, ih h2]

theorem dropWhile_ws_newlines (r : List Char) :
    ((r.dropWhile (fun c => c == '\n')).dropWhile pyWS) = r.dropWhile pyWS := by
  induction r with
  | nil => rfl
  | cons c cs ih =>
      by_cases hc : c = '\n'
      · subst hc
        simpa [List.dropWhile_cons, pyWS] using ih
      · have h1 : (c == '\n') = false := by simp [hc]
        simp [List.dropWhile_cons, h1]

/-- The title-removal regex on a text whose first line is an h1 heading. -/
theorem removeTitleMatch_first_line (title rest : List Char)
    (hnl : (title.all (fun c => c != '\n')) = true)
    (hws : (title.any (fun c => !(pyWS c))) = true) :
    removeTitleMatch ('#' :: ' ' :: (title ++ '\n' :: rest)) =
      some (rest.dropWhile (fun c => c == '\n')) := by
  obtain ⟨hd1, hd2⟩ := dropWhile_append_of_any title ('\n' :: rest) hws
  show (let run := (' ' :: (title ++ '\n' :: rest)).takeWhile pyWS
        if run = [] then none
        else
          let tl := (' ' :: (title ++ '\n' :: rest)).drop run.length
          if tl ≠ [] then
            some ((tl.dropWhile (fun c => c != '\n')).dropWhile (fun c => c == '\n'))
          else if (run.drop 1).any (fun c => c != '\n') then some [] else none) = _
  have hrun : (' ' :: (title ++ '\n' :: rest)).takeWhile pyWS
      = ' ' :: (title ++ '\n' :: rest).takeWhile pyWS := by
    simp [List.takeWhile_cons]
    decide
  simp only [hrun]
  rw [if_neg (List.cons_ne_nil _ _)]
  have htl : (' ' :: (title ++ '\n' :: rest)).drop
      (' ' :: (title ++ '\n' :: rest).takeWhile pyWS).length
      = title.dropWhile pyWS ++ '\n' :: rest := by
    rw [List.length_cons, List.drop_succ_cons, drop_len_takeWhile, hd1]
  simp only [htl]
  rw [if_pos (by simp)]
  rw [dropWhile_line_end _ _ (all_dropWhile_ne pyWS _ title hnl)]
  rw [List.dropWhile_cons]
  simp

theorem mk_toList (s : String) : String.mk s.toList = s := rfl

theorem splitCh_ne_nil (c : Char) (l : List Char) : splitCh c l ≠ [] := by
  cases l with
  | nil => simp [splitCh]
  | cons x xs =>
      rw [splitCh]
      by_cases h : (x == c) = true
      · simp [h]
      · rw [if_neg h]
        cases splitCh c xs <;> simp

theorem splitCh_first_line (l1 r : List Char) (h : (l1.all (fun c => c != '\n')) = true) :
    splitCh '\n' (l1 ++ '\n' :: r) = l1 :: splitCh '\n' r := by
  induction l1 with
  | nil => simp [splitCh]
  | cons c cs ih =>
      rw [List.all_cons] at h
      rcases Bool.and_eq_true_iff.mp h with ⟨h1, h2⟩
      have hc : (c == '\n') = false := by simpa using h1
      rw [List.cons_append, splitCh]
      rw [if_neg (by simp [hc])]
      rw [ih h2]

theorem taskDoneLine_hash (xs : List Char) : taskDoneLine ('#' :: xs) = '#' :: xs := rfl

theorem taskTodoLine_hash (xs : List Char) : taskTodoLine ('#' :: xs) = '#' :: xs := rfl

/-- A multiline line-anchored rewrite that fixes `#`-headed lines leaves the
leading h1 line intact and acts independently on the remainder. -/
theorem applyPerLine_hash (f : List Char → List Char)
    (hf : ∀ xs, f ('#' :: xs) = '#' :: xs)
    (title rest : List Char) (hnl : (title.all (fun c => c != '\n')) = true) :
    applyPerLine f (String.mk ('#' :: ' ' :: (title ++ '\n' :: rest)))
      = String.mk ('#' :: ' ' :: (title ++ '\n' :: (applyPerLine f (String.mk rest)).toList)) := by
  unfold applyPerLine
  have hsplit : splitCh '\n' ('#' :: ' ' :: (title ++ '\n' :: rest))
      = ('#' :: ' ' :: title) :: splitCh '\n' rest := by
    have : ('#' :: ' ' :: title).all (fun c => c != '\n') = true := by
      simp [List.all_cons, hnl]
    exact splitCh_first_line ('#' :: ' ' :: title) rest this
  show String.mk (joinCh '\n' (List.map f (splitCh '\n' ('#' :: ' ' :: (title ++ '\n' :: rest)))))
      = String.mk ('#' :: ' ' :: (title ++ '\n' :: joinCh '\n' (List.map f (splitCh '\n' rest))))
  rw [hsplit, List.map_cons, hf]
  cases hms : List.map f (splitCh '\n' rest) with
  | nil => exact absurd (List.map_eq_nil_iff.mp hms) (splitCh_ne_nil '\n' rest)
  | cons m ms => rfl

/-- C10 amended: the first h1 is removed only when it is the leading line of
the text.  For markdown whose first line is `# <title>` (title on one line,
containing some non-whitespace), `remove_title` removes exactly that line,
both Zhihu pipelines hand the parser a body derived from the text after it,
and the WeChat pipeline's parser input keeps the h1 line verbatim. -/
theorem c10_title_removal_amended (title rest : List Char)
    (hnl : (title.all (fun c => c != '\n')) = true)
    (hws : (title.any (fun c => !(pyWS c))) = true) :
    remove_title (String.mk ('#' :: ' ' :: (title ++ '\n' :: rest)))
      = pyLStrip (String.mk rest) ∧
    Zhihu.preview_parser_input (String.mk ('#' :: ' ' :: (title ++ '\n' :: rest)))
      = Zhihu.preprocess_markdown (pyLStrip (String.mk rest)) ∧
    Zhihu.content_parser_input (String.mk ('#' :: ' ' :: (title ++ '\n' :: rest)))
      = pyLStrip (taskRewrites (String.mk rest)) ∧
    Wechat.preprocess_markdown (String.mk ('#' :: ' ' :: (title ++ '\n' :: rest)))
      = String.mk ('#' :: ' ' :: (title ++ '\n' :: (taskRewrites (String.mk rest)).toList)) := by
  have hrm : ∀ r2 : List Char,
      remove_title (String.mk ('#' :: ' ' :: (title ++ '\n' :: r2))) = pyLStrip (String.mk r2) := by
    intro r2
    unfold remove_title
    show (match removeTitleMatch ('#' :: ' ' :: (title ++ '\n' :: r2)) with
          | some r => pyLStrip (String.mk r)
          | none => pyLStrip (String.mk ('#' :: ' ' :: (title ++ '\n' :: r2)))) = _
    rw [removeTitleMatch_first_line title r2 hnl hws]
    show pyLStrip (String.mk (r2.dropWhile (fun c => c == '\n'))) = _
    unfold pyLStrip
    show String.mk ((r2.dropWhile (fun c => c == '\n')).dropWhile pyWS) = _
    rw [dropWhile_ws_newlines]
    rfl
  have htask : taskRewrites (String.mk ('#' :: ' ' :: (title ++ '\n' :: rest)))
      = String.mk ('#' :: ' ' :: (title ++ '\n' :: (taskRewrites (String.mk rest)).toList)) := by
    unfold taskRewrites
    rw [applyPerLine_hash taskDoneLine taskDoneLine_hash title rest hnl,
        applyPerLine_hash taskTodoLine taskTodoLine_hash title _ hnl]
    rw [mk_toList]
  refine ⟨hrm rest, ?_, ?_, ?_⟩
  · unfold Zhihu.preview_parser_input
    rw [hrm rest]
  · unfold Zhihu.content_parser_input
    show remove_title (Zhihu.preprocess_markdown (String.mk ('#' :: ' ' :: (title ++ '\n' :: rest)))) = _
    unfold Zhihu.preprocess_markdown
    rw [htask, hrm ((taskRewrites (String.mk rest)).toList), mk_toList]
  · unfold Wechat.preprocess_markdown
    show taskRewrites (strip_frontmatter (String.mk ('#' :: ' ' :: (title ++ '\n' :: rest)))).1 = _
    rw [show (strip_frontmatter (String.mk ('#' :: ' ' :: (title ++ '\n' :: rest)))).1
        = String.mk ('#' :: ' ' :: (title ++ '\n' :: rest)) from rfl]
    exact htask

/-- C10 amended, witness: the concrete body `"# Title\nbody"`. -/
theorem c10_title_removal_amended_witness :
    remove_title (String.mk ('#' :: ' ' :: ("Title".toList ++ '\n' :: "body".toList)))
      = pyLStrip (String.mk "body".toList) ∧
    Zhihu.content_parser_input (String.mk ('#' :: ' ' :: ("Title".toList ++ '\n' :: "body".toList)))
      = pyLStrip (taskRewrites (String.mk "body".toList)) :=
  ⟨(c10_title_removal_amended "Title".toList "body".toList (by decide) (by decide)).1,
   (c10_title_removal_amended "Title".toList "body".toList (by decide) (by decide)).2.2.1⟩

/-! ### Trigger-freeness: each pass is the identity off its trigger -/

theorem freeL_mem (trig : Node → Bool) (l : List Node) (h : freeL trig l = true) :
    ∀ n ∈ l, freeN trig n = true := by
  induction l with
  | nil => intro n hn; cases hn
  | cons x xs ih =>
      rw [freeL] at h
      rcases Bool.and_eq_true_iff.mp h with ⟨h1, h2⟩
      intro n hn
      rcases List.mem_cons.mp hn with hh | hh
      · exact hh ▸ h1
      · exact ih h2 n hh

theorem freeN_elem_parts {trig : Node → Bool} {t : String} {c : List String}
    {a : List (String × String)} {ch : List Node}
    (h : freeN trig (.elem t c a ch) = true) :
    trig (.elem t c a ch) = false ∧ freeL trig ch = true := by
  rw [freeN] at h
  rcases Bool.and_eq_true_iff.mp h with ⟨h1, h2⟩
  exact ⟨by simpa using h1, h2⟩

theorem styleA_id : ∀ n, freeN trigStyleA n = true → ∀ S p, styleAN S p n = n := by
  intro n
  induction n using node_ind with
  | h1 s => intro _ S p; rfl
  | h2 t c a ch ih =>
      intro hf S p
      obtain ⟨htr, hch⟩ := freeN_elem_parts hf
      have hmem : ¬ t ∈ ["h1", "h2", "h3", "h4", "p", "strong", "em", "del", "a",
          "ul", "ol", "li", "blockquote"] := by
        simpa [trigStyleA, tagOf] using htr
      simp only [List.mem_cons, List.not_mem_nil, or_false, not_or] at hmem
      obtain ⟨n1, n2, n3, n4, n5, n6, n7, n8, n9, n10, n11, n12, n13⟩ := hmem
      have hl : ∀ (l : List Node), (∀ m ∈ l, ∀ S2 p2, styleAN S2 p2 m = m) →
          styleAL S t l = l := by
        intro l
        induction l with
        | nil => intro _; rfl
        | cons x xs ihl =>
            intro hid
            rw [styleAL, hid x (List.mem_cons_self x xs) S t,
                ihl (fun m hmm => hid m (List.mem_cons_of_mem x hmm))]
      rw [styleAN]
      simp only [beq_eq_false_iff_ne.mpr n1, beq_eq_false_iff_ne.mpr n2,
        beq_eq_false_iff_ne.mpr n3, beq_eq_false_iff_ne.mpr n4,
        beq_eq_false_iff_ne.mpr n5, beq_eq_false_iff_ne.mpr n6,
        beq_eq_false_iff_ne.mpr n7, beq_eq_false_iff_ne.mpr n8,
        beq_eq_false_iff_ne.mpr n9, beq_eq_false_iff_ne.mpr n10,
        beq_eq_false_iff_ne.mpr n11, beq_eq_false_iff_ne.mpr n12,
        beq_eq_false_iff_ne.mpr n13,
        Bool.or_false, Bool.false_or, Bool.false_eq_true, if_false]
      rw [hl ch (fun m hmm => ih m hmm (freeL_mem trigStyleA ch hch m hmm))]

theorem styleA_id_list (S : String → String) (p : String) :
    ∀ l, freeL trigStyleA l = true → styleAL S p l = l := by
  intro l
  induction l with
  | nil => intro _; rfl
  | cons x xs ih =>
      intro h
      rw [freeL] at h
      rcases Bool.and_eq_true_iff.mp h with ⟨h1, h2⟩
      rw [styleAL, styleA_id x h1 S p, ih h2]
theorem code_id (C : Cfg) : ∀ n, freeN isCodehilite n = true → codeN C n = n := by
  intro n
  induction n using node_ind with
  | h1 s => intro _; rfl
  | h2 t c a ch ih =>
      intro hf
      obtain ⟨htr, hch⟩ := freeN_elem_parts hf
      have hcond : (t == "div" && c.contains "codehilite") = false := by
        simpa [isCodehilite, tagOf, clsOf] using htr
      have hl : ∀ (l : List Node), (∀ m ∈ l, codeN C m = m) → codeL C l = l := by
        intro l
        induction l with
        | nil => intro _; rfl
        | cons x xs ihl =>
            intro hid
            rw [codeL, hid x (List.mem_cons_self x xs),
                ihl (fun m hmm => hid m (List.mem_cons_of_mem x hmm))]
      rw [codeN]
      simp only [hcond, Bool.false_eq_true, if_false]
      rw [hl ch (fun m hmm => ih m hmm (freeL_mem isCodehilite ch hch m hmm))]

theorem code_id_list (C : Cfg) :
    ∀ l, freeL isCodehilite l = true → codeL C l = l := by
  intro l
  induction l with
  | nil => intro _; rfl
  | cons x xs ih =>
      intro h
      rw [freeL] at h
      rcases Bool.and_eq_true_iff.mp h with ⟨h1, h2⟩
      rw [codeL, code_id C x h1, ih h2]

theorem pre_id : ∀ n, freeN trigPre n = true → preN n = n := by
  intro n
  induction n using node_ind with
  | h1 s => intro _; rfl
  | h2 t c a ch ih =>
      intro hf
      obtain ⟨_, hch⟩ := freeN_elem_parts hf
      have hl : ∀ (l : List Node), (∀ m ∈ l, freeN trigPre m = true) →
          (∀ m ∈ l, preN m = m) → ∀ ps, preL ps l = l := by
        intro l
        induction l with
        | nil => intro _ _ _; rfl
        | cons x xs ihl =>
            intro hfr hid ps
            have hx : (tagOf x == "pre") = false := by
              have := hfr x (List.mem_cons_self x xs)
              cases x with
              | text s => simp [tagOf]
              | elem t2 c2 a2 ch2 => simpa [trigPre] using (freeN_elem_parts this).1
            rw [preL]
            simp only [hx, Bool.false_and, Bool.false_eq_true, if_false]
            rw [hid x (List.mem_cons_self x xs),
                ihl (fun m hmm => hfr m (List.mem_cons_of_mem x hmm))
                    (fun m hmm => hid m (List.mem_cons_of_mem x hmm)) ps]
      rw [preN]
      rw [hl ch (freeL_mem trigPre ch hch)
        (fun m hmm => ih m hmm (freeL_mem trigPre ch hch m hmm))]

theorem pre_id_list (ps : String) :
    ∀ l, freeL trigPre l = true → preL ps l = l := by
  intro l
  induction l with
  | nil => intro _; rfl
  | cons x xs ih =>
      intro h
      rw [freeL] at h
      rcases Bool.and_eq_true_iff.mp h with ⟨h1, h2⟩
      have hx : (tagOf x == "pre") = false := by
        cases x with
        | text s => simp [tagOf]
        | elem t2 c2 a2 ch2 => simpa [trigPre] using (freeN_elem_parts h1).1
      rw [preL]
      simp only [hx, Bool.false_and, Bool.false_eq_true, if_false]
      rw [pre_id x h1, ih h2]

theorem ic_id (S : String → String) : ∀ n, freeN trigIc n = true →
    ∀ pt ps, icN S pt ps n = n := by
  intro n
  induction n using node_ind with
  | h1 s => intro _ _ _; rfl
  | h2 t c a ch ih =>
      intro hf pt ps
      obtain ⟨htr, hch⟩ := freeN_elem_parts hf
      have hcond : (t == "code") = false := by simpa [trigIc, tagOf] using htr
      have hl : ∀ (l : List Node), (∀ m ∈ l, ∀ pt2 ps2, icN S pt2 ps2 m = m) →
          ∀ pt2 ps2, icL S pt2 ps2 l = l := by
        intro l
        induction l with
        | nil => intro _ _ _; rfl
        | cons x xs ihl =>
            intro hid pt2 ps2
            rw [icL, hid x (List.mem_cons_self x xs),
                ihl (fun m hmm => hid m (List.mem_cons_of_mem x hmm))]
      rw [icN]
      simp only [hcond, Bool.false_eq_true, if_false]
      rw [hl ch (fun m hmm => ih m hmm (freeL_mem trigIc ch hch m hmm))]

theorem ic_id_list (S : String → String) (pt ps : String) :
    ∀ l, freeL trigIc l = true → icL S pt ps l = l := by
  intro l
  induction l with
  | nil => intro _; rfl
  | cons x xs ih =>
      intro h
      rw [freeL] at h
      rcases Bool.and_eq_true_iff.mp h with ⟨h1, h2⟩
      rw [icL, ic_id S x h1 pt ps, ih h2]

theorem th_id (S : String → String) : ∀ n, freeN trigTh n = true → thN S n = n := by
  intro n
  induction n using node_ind with
  | h1 s => intro _; rfl
  | h2 t c a ch ih =>
      intro hf
      obtain ⟨htr, hch⟩ := freeN_elem_parts hf
      have hcond : (t == "th") = false := by simpa [trigTh, tagOf] using htr
      have hl : ∀ (l : List Node), (∀ m ∈ l, thN S m = m) → thL S l = l := by
        intro l
        induction l with
        | nil => intro _; rfl
        | cons x xs ihl =>
            intro hid
            rw [thL, hid x (List.mem_cons_self x xs),
                ihl (fun m hmm => hid m (List.mem_cons_of_mem x hmm))]
      rw [thN]
      simp only [hcond, Bool.false_eq_true, if_false]
      rw [hl ch (fun m hmm => ih m hmm (freeL_mem trigTh ch hch m hmm))]

theorem th_id_list (S : String → String) :
    ∀ l, freeL trigTh l = true → thL S l = l := by
  intro l
  induction l with
  | nil => intro _; rfl
  | cons x xs ih =>
      intro h
      rw [freeL] at h
      rcases Bool.and_eq_true_iff.mp h with ⟨h1, h2⟩
      rw [thL, th_id S x h1, ih h2]

theorem tbody_id (S : String → String) : ∀ n, freeN trigTbody n = true →
    tbodyN S n = (n, false) := by
  intro n
  induction n using node_ind with
  | h1 s => intro _; rfl
  | h2 t c a ch ih =>
      intro hf
      obtain ⟨htr, hch⟩ := freeN_elem_parts hf
      have hcond : (t == "tbody") = false := by simpa [trigTbody, tagOf] using htr
      have hl : ∀ (l : List Node), (∀ m ∈ l, tbodyN S m = (m, false)) →
          tbodyL S l = (l, false) := by
        intro l
        induction l with
        | nil => intro _; rfl
        | cons x xs ihl =>
            intro hid
            rw [tbodyL, hid x (List.mem_cons_self x xs)]
            simp only [Bool.false_eq_true, if_false,
              ihl (fun m hmm => hid m (List.mem_cons_of_mem x hmm))]
      rw [tbodyN]
      simp only [hcond, Bool.false_eq_true, if_false]
      rw [hl ch (fun m hmm => ih m hmm (freeL_mem trigTbody ch hch m hmm))]

theorem tbody_id_list (S : String → String) :
    ∀ l, freeL trigTbody l = true → tbodyL S l = (l, false) := by
  intro l
  induction l with
  | nil => intro _; rfl
  | cons x xs ih =>
      intro h
      rw [freeL] at h
      rcases Bool.and_eq_true_iff.mp h with ⟨h1, h2⟩
      rw [tbodyL, tbody_id S x h1]
      simp only [Bool.false_eq_true, if_false, ih h2]

theorem table_id (S : String → String) : ∀ n, freeN trigTable n = true → tableN S n = n := by
  intro n
  induction n using node_ind with
  | h1 s => intro _; rfl
  | h2 t c a ch ih =>
      intro hf
      obtain ⟨htr, hch⟩ := freeN_elem_parts hf
      have hcond : (t == "table") = false := by simpa [trigTable, tagOf] using htr
      have hl : ∀ (l : List Node), (∀ m ∈ l, tableN S m = m) → tableL S l = l := by
        intro l
        induction l with
        | nil => intro _; rfl
        | cons x xs ihl =>
            intro hid
            rw [tableL, hid x (List.mem_cons_self x xs),
                ihl (fun m hmm => hid m (List.mem_cons_of_mem x hmm))]
      rw [tableN]
      simp only [hcond, Bool.false_eq_true, if_false]
      rw [hl ch (fun m hmm => ih m hmm (freeL_mem trigTable ch hch m hmm))]

theorem table_id_list (S : String → String) :
    ∀ l, freeL trigTable l = true → tableL S l = l := by
  intro l
  induction l with
  | nil => intro _; rfl
  | cons x xs ih =>
      intro h
      rw [freeL] at h
      rcases Bool.and_eq_true_iff.mp h with ⟨h1, h2⟩
      rw [tableL, table_id S x h1, ih h2]

theorem hr_id (S : String → String) : ∀ n, freeN trigHr n = true → hrN S n = n := by
  intro n
  induction n using node_ind with
  | h1 s => intro _; rfl
  | h2 t c a ch ih =>
      intro hf
      obtain ⟨htr, hch⟩ := freeN_elem_parts hf
      have hcond : (t == "hr") = false := by simpa [trigHr, tagOf] using htr
      have hl : ∀ (l : List Node), (∀ m ∈ l, hrN S m = m) → hrL S l = l := by
        intro l
        induction l with
        | nil => intro _; rfl
        | cons x xs ihl =>
            intro hid
            rw [hrL, hid x (List.mem_cons_self x xs),
                ihl (fun m hmm => hid m (List.mem_cons_of_mem x hmm))]
      rw [hrN]
      simp only [hcond, Bool.false_eq_true, if_false]
      rw [hl ch (fun m hmm => ih m hmm (freeL_mem trigHr ch hch m hmm))]

theorem hr_id_list (S : String → String) :
    ∀ l, freeL trigHr l = true → hrL S l = l := by
  intro l
  induction l with
  | nil => intro _; rfl
  | cons x xs ih =>
      intro h
      rw [freeL] at h
      rcases Bool.and_eq_true_iff.mp h with ⟨h1, h2⟩
      rw [hrL, hr_id S x h1, ih h2]

theorem img_id (C : Cfg) : ∀ n, freeN trigImg n = true → imgN C n = n := by
  intro n
  induction n using node_ind with
  | h1 s => intro _; rfl
  | h2 t c a ch ih =>
      intro hf
      obtain ⟨htr, hch⟩ := freeN_elem_parts hf
      have hcond : (t == "img") = false := by simpa [trigImg, tagOf] using htr
      have hl : ∀ (l : List Node), (∀ m ∈ l, freeN trigImg m = true) →
          (∀ m ∈ l, imgN C m = m) → imgL C l = l := by
        intro l
        induction l with
        | nil => intro _ _; rfl
        | cons x xs ihl =>
            intro hfr hid
            have hx : condImg C x = false := by
              have h2 : (tagOf x == "img") = false := by
                have := hfr x (List.mem_cons_self x xs)
                cases x with
                | text s => simp [tagOf]
                | elem t2 c2 a2 ch2 => simpa [trigImg] using (freeN_elem_parts this).1
              simp [condImg, h2]
            rw [imgL]
            simp only [hx, Bool.false_eq_true, if_false]
            rw [hid x (List.mem_cons_self x xs),
                ihl (fun m hmm => hfr m (List.mem_cons_of_mem x hmm))
                    (fun m hmm => hid m (List.mem_cons_of_mem x hmm))]
      rw [imgN]
      simp only [hcond, Bool.false_eq_true, if_false]
      rw [hl ch (freeL_mem trigImg ch hch)
        (fun m hmm => ih m hmm (freeL_mem trigImg ch hch m hmm))]

theorem img_id_list (C : Cfg) :
    ∀ l, freeL trigImg l = true → imgL C l = l := by
  intro l
  induction l with
  | nil => intro _; rfl
  | cons x xs ih =>
      intro h
      rw [freeL] at h
      rcases Bool.and_eq_true_iff.mp h with ⟨h1, h2⟩
      have hx : condImg C x = false := by
        have h3 : (tagOf x == "img") = false := by
          cases x with
          | text s => simp [tagOf]
          | elem t2 c2 a2 ch2 => simpa [trigImg] using (freeN_elem_parts h1).1
        simp [condImg, h3]
      rw [imgL]
      simp only [hx, Bool.false_eq_true, if_false]
      rw [img_id C x h1, ih h2]

theorem task_id (S : String → String) : ∀ n, freeN trigTask n = true → taskN S n = n := by
  intro n
  induction n using node_ind with
  | h1 s => intro _; rfl
  | h2 t c a ch ih =>
      intro hf
      obtain ⟨htr, hch⟩ := freeN_elem_parts hf
      have hcond : (t == "span" && c.contains "task-done") = false := by
        simpa [trigTask, tagOf, clsOf] using htr
      have hl : ∀ (l : List Node), (∀ m ∈ l, taskN S m = m) → taskL S l = l := by
        intro l
        induction l with
        | nil => intro _; rfl
        | cons x xs ihl =>
            intro hid
            rw [taskL, hid x (List.mem_cons_self x xs),
                ihl (fun m hmm => hid m (List.mem_cons_of_mem x hmm))]
      rw [taskN]
      simp only [hcond, Bool.false_eq_true, if_false]
      rw [hl ch (fun m hmm => ih m hmm (freeL_mem trigTask ch hch m hmm))]

theorem task_id_list (S : String → String) :
    ∀ l, freeL trigTask l = true → taskL S l = l := by
  intro l
  induction l with
  | nil => intro _; rfl
  | cons x xs ih =>
      intro h
      rw [freeL] at h
      rcases Bool.and_eq_true_iff.mp h with ⟨h1, h2⟩
      rw [taskL, task_id S x h1, ih h2]

theorem fnStyle_id (S : String → String) : ∀ n, freeN trigFn n = true → fnStyleN S n = n := by
  intro n
  induction n using node_ind with
  | h1 s => intro _; rfl
  | h2 t c a ch ih =>
      intro hf
      obtain ⟨htr, hch⟩ := freeN_elem_parts hf
      have hcond : (t == "div" && c.contains "footnote") = false := by
        simpa [trigFn, tagOf, clsOf] using htr
      have hl : ∀ (l : List Node), (∀ m ∈ l, fnStyleN S m = m) → fnStyleL S l = l := by
        intro l
        induction l with
        | nil => intro _; rfl
        | cons x xs ihl =>
            intro hid
            rw [fnStyleL, hid x (List.mem_cons_self x xs),
                ihl (fun m hmm => hid m (List.mem_cons_of_mem x hmm))]
      rw [fnStyleN]
      simp only [hcond, Bool.false_eq_true, if_false]
      rw [hl ch (fun m hmm => ih m hmm (freeL_mem trigFn ch hch m hmm))]

theorem fnStyle_id_list (S : String → String) :
    ∀ l, freeL trigFn l = true → fnStyleL S l = l := by
  intro l
  induction l with
  | nil => intro _; rfl
  | cons x xs ih =>
      intro h
      rw [freeL] at h
      rcases Bool.and_eq_true_iff.mp h with ⟨h1, h2⟩
      rw [fnStyleL, fnStyle_id S x h1, ih h2]

theorem fnRm_id : ∀ n, freeN trigHr n = true → ∀ b, fnRmN b n = n := by
  intro n
  induction n using node_ind with
  | h1 s => intro _ _; rfl
  | h2 t c a ch ih =>
      intro hf b
      obtain ⟨_, hch⟩ := freeN_elem_parts hf
      have hl : ∀ (l : List Node), (∀ m ∈ l, freeN trigHr m = true) →
          (∀ m ∈ l, ∀ b2, fnRmN b2 m = m) → ∀ b2, fnRmL b2 l = l := by
        intro l
        induction l with
        | nil => intro _ _ _; rfl
        | cons x xs ihl =>
            intro hfr hid b2
            have hx : (tagOf x == "hr") = false := by
              have := hfr x (List.mem_cons_self x xs)
              cases x with
              | text s => simp [tagOf]
              | elem t2 c2 a2 ch2 => simpa [trigHr] using (freeN_elem_parts this).1
            rw [fnRmL]
            simp only [hx, Bool.and_false, Bool.false_eq_true, if_false]
            rw [hid x (List.mem_cons_self x xs),
                ihl (fun m hmm => hfr m (List.mem_cons_of_mem x hmm))
                    (fun m hmm => hid m (List.mem_cons_of_mem x hmm)) b2]
      rw [fnRmN]
      rw [hl ch (freeL_mem trigHr ch hch)
        (fun m hmm b2 => ih m hmm (freeL_mem trigHr ch hch m hmm) b2) _]

theorem fnRm_id_list (b : Bool) :
    ∀ l, freeL trigHr l = true → fnRmL b l = l := by
  intro l
  induction l with
  | nil => intro _; rfl
  | cons x xs ih =>
      intro h
      rw [freeL] at h
      rcases Bool.and_eq_true_iff.mp h with ⟨h1, h2⟩
      have hx : (tagOf x == "hr") = false := by
        cases x with
        | text s => simp [tagOf]
        | elem t2 c2 a2 ch2 => simpa [trigHr] using (freeN_elem_parts h1).1
      rw [fnRmL]
      simp only [hx, Bool.and_false, Bool.false_eq_true, if_false]
      rw [fnRm_id x h1 b, ih h2]

theorem fn_id_list (S : String → String) (l : List Node)
    (hfn : freeL trigFn l = true) (hhr : freeL trigHr l = true) : fnL S l = l := by
  unfold fnL
  rw [fnStyle_id_list S l hfn, fnRm_id_list false l hhr]

/-! ### The table family: freeness and the zebra computation -/

theorem freeN_text_eq (trig : Node → Bool) (s : String) :
    freeN trig (.text s) = !(trig (.text s)) := rfl

theorem freeN_elem_eq (trig : Node → Bool) (t : String) (c : List String)
    (a : List (String × String)) (ch : List Node) :
    freeN trig (.elem t c a ch) = (!(trig (.elem t c a ch)) && freeL trig ch) := rfl

theorem freeL_nil_eq (trig : Node → Bool) : freeL trig [] = true := rfl

theorem freeL_cons_eq (trig : Node → Bool) (n : Node) (ns : List Node) :
    freeL trig (n :: ns) = (freeN trig n && freeL trig ns) := rfl

theorem free_table_family (trig : Node → Bool)
    (htext : ∀ s, trig (.text s) = false)
    (helem : ∀ t c a ch, t ∈ ["div", "table", "thead", "tbody", "tr", "th", "td"] →
      c = [] → trig (.elem t c a ch) = false) :
    (∀ s, freeN trig (mkTd s) = true) ∧
    (∀ cs, freeL trig ((cs : List String).map mkTd) = true) ∧
    (∀ cs, freeN trig (mkTr cs) = true) ∧
    (∀ rows, freeL trig ((rows : List (List String)).map mkTr) = true) ∧
    (∀ hs, freeN trig (mkThead hs) = true) ∧
    (∀ hs rows, freeN trig (mkTable hs rows) = true) ∧
    (∀ rows, freeN trig (mkTableNoTbody rows) = true) := by
  have htd : ∀ s, freeN trig (mkTd s) = true := by
    intro s
    simp [mkTd, freeN_elem_eq, freeL_cons_eq, freeL_nil_eq, freeN_text_eq, helem, htext]
  have hcells : ∀ cs : List String, freeL trig (cs.map mkTd) = true := by
    intro cs
    induction cs with
    | nil => rfl
    | cons c cs ih => simp [freeL_cons_eq, htd, ih]
  have htr2 : ∀ cs, freeN trig (mkTr cs) = true := by
    intro cs
    simp [mkTr, freeN_elem_eq, helem, hcells]
  have hrows : ∀ rows : List (List String), freeL trig (rows.map mkTr) = true := by
    intro rows
    induction rows with
    | nil => rfl
    | cons r rs ih => simp [freeL_cons_eq, htr2, ih]
  have hth : ∀ s, freeN trig (mkTh s) = true := by
    intro s
    simp [mkTh, freeN_elem_eq, freeL_cons_eq, freeL_nil_eq, freeN_text_eq, helem, htext]
  have hths : ∀ hs : List String, freeL trig (hs.map mkTh) = true := by
    intro hs
    induction hs with
    | nil => rfl
    | cons c cs ih => simp [freeL_cons_eq, hth, ih]
  have hthead : ∀ hs, freeN trig (mkThead hs) = true := by
    intro hs
    simp [mkThead, freeN_elem_eq, freeL_cons_eq, freeL_nil_eq, helem, hths]
  refine ⟨htd, hcells, htr2, hrows, hthead, ?_, ?_⟩
  · intro hs rows
    simp [mkTable, freeN_elem_eq, freeL_cons_eq, freeL_nil_eq, helem, hthead, hrows]
  · intro rows
    simp [mkTableNoTbody, freeN_elem_eq, helem, hrows]

theorem free_out_family (trig : Node → Bool) (S : String → String)
    (htext : ∀ s, trig (.text s) = false)
    (helem : ∀ t c a ch, t ∈ ["div", "table", "thead", "tbody", "tr", "th", "td"] →
      c = [] → trig (.elem t c a ch) = false) :
    (∀ i s, freeN trig (outTd S i s) = true) ∧
    (∀ i cs, freeN trig (outTr S i cs) = true) ∧
    (∀ i rows, freeL trig (zebRows S i rows) = true) ∧
    (∀ hs, freeN trig (outThead S hs) = true) := by
  have htd : ∀ i s, freeN trig (outTd S i s) = true := by
    intro i s
    simp [outTd, freeN_elem_eq, freeL_cons_eq, freeL_nil_eq, freeN_text_eq, helem, htext]
  have hcells : ∀ i (cs : List String), freeL trig (cs.map (outTd S i)) = true := by
    intro i cs
    induction cs with
    | nil => rfl
    | cons c cs ih => simp [freeL_cons_eq, htd, ih]
  have htr2 : ∀ i cs, freeN trig (outTr S i cs) = true := by
    intro i cs
    simp [outTr, freeN_elem_eq, helem, hcells]
  have hrows : ∀ i rows, freeL trig (zebRows S i rows) = true := by
    intro i rows
    induction rows generalizing i with
    | nil => rfl
    | cons r rs ih => simp [zebRows, freeL_cons_eq, htr2, ih]
  refine ⟨htd, htr2, hrows, ?_⟩
  intro hs
  have hth : ∀ s : String, freeN trig (.elem "th" [] [("style", S "th")] [.text s]) = true := by
    intro s
    simp [freeN_elem_eq, freeL_cons_eq, freeL_nil_eq, freeN_text_eq, helem, htext]
  have hths : ∀ hs : List String,
      freeL trig (hs.map (fun s => Node.elem "th" [] [("style", S "th")] [.text s])) = true := by
    intro hs
    induction hs with
    | nil => rfl
    | cons c cs ih => simp [freeL_cons_eq, hth, ih]
  simp [outThead, freeN_elem_eq, freeL_cons_eq, freeL_nil_eq, helem, hths]

theorem zeb_cells (S : String → String) (s2 : String) (j : Nat) :
    ∀ cs : List String, zebL S (some s2) j (cs.map mkTd)
      = (cs.map (fun s => Node.elem "td" [] [("style", s2)] [.text s]), j) := by
  intro cs
  induction cs with
  | nil => rfl
  | cons c rest ih =>
      rw [List.map_cons, zebL]
      have hn : zebN S (some s2) j (mkTd c) = (.elem "td" [] [("style", s2)] [.text c], j) := rfl
      rw [hn, ih]
      rfl

theorem zeb_rows (S : String → String) :
    ∀ (rows : List (List String)) (i : Nat),
      zebL S none i (rows.map mkTr) = (zebRows S i rows, i + rows.length) := by
  intro rows
  induction rows with
  | nil => intro i; simp [zebRows, zebL]
  | cons r rs ih =>
      intro i
      rw [List.map_cons, zebL]
      have hn : zebN S none i (mkTr r) = (outTr S i r, i + 1) := by
        rw [mkTr, zebN]
        simp only [if_pos rfl]
        rw [zeb_cells]
        rfl
      rw [hn, ih (i + 1)]
      rw [zebRows]
      simp [List.length_cons]
      omega

theorem th_header_cells (S : String → String) :
    ∀ hs : List String, thL S (hs.map mkTh)
      = hs.map (fun s => Node.elem "th" [] [("style", S "th")] [.text s]) := by
  intro hs
  induction hs with
  | nil => rfl
  | cons c cs ih =>
      rw [List.map_cons, thL]
      have hn : thN S (mkTh c) = .elem "th" [] [("style", S "th")] [.text c] := rfl
      rw [hn, ih]
      rfl
theorem trigStyleA_safe :
    (∀ s, trigStyleA (.text s) = false) ∧
    (∀ t c a ch, t ∈ ["div", "table", "thead", "tbody", "tr", "th", "td"] → c = [] →
      trigStyleA (.elem t c a ch) = false) := by
  refine ⟨fun s => rfl, fun t c a ch ht hc => ?_⟩
  subst hc
  fin_cases ht <;> rfl

theorem isCodehilite_safe :
    (∀ s, isCodehilite (.text s) = false) ∧
    (∀ t c a ch, t ∈ ["div", "table", "thead", "tbody", "tr", "th", "td"] → c = [] →
      isCodehilite (.elem t c a ch) = false) := by
  refine ⟨fun s => rfl, fun t c a ch ht hc => ?_⟩
  subst hc
  fin_cases ht <;> rfl

theorem trigPre_safe :
    (∀ s, trigPre (.text s) = false) ∧
    (∀ t c a ch, t ∈ ["div", "table", "thead", "tbody", "tr", "th", "td"] → c = [] →
      trigPre (.elem t c a ch) = false) := by
  refine ⟨fun s => rfl, fun t c a ch ht hc => ?_⟩
  subst hc
  fin_cases ht <;> rfl

theorem trigIc_safe :
    (∀ s, trigIc (.text s) = false) ∧
    (∀ t c a ch, t ∈ ["div", "table", "thead", "tbody", "tr", "th", "td"] → c = [] →
      trigIc (.elem t c a ch) = false) := by
  refine ⟨fun s => rfl, fun t c a ch ht hc => ?_⟩
  subst hc
  fin_cases ht <;> rfl

theorem trigTable_onFamily_safe :
    (∀ s, trigTable (.text s) = false) ∧
    (∀ t c a ch, t ∈ ["div", "thead", "tbody", "tr", "th", "td"] → c = [] →
      trigTable (.elem t c a ch) = false) := by
  refine ⟨fun s => rfl, fun t c a ch ht hc => ?_⟩
  subst hc
  fin_cases ht <;> rfl

theorem trigTbody_safe :
    (∀ s, trigTbody (.text s) = false) ∧
    (∀ t c a ch, t ∈ ["div", "table", "thead", "tr", "th", "td"] → c = [] →
      trigTbody (.elem t c a ch) = false) := by
  refine ⟨fun s => rfl, fun t c a ch ht hc => ?_⟩
  subst hc
  fin_cases ht <;> rfl

theorem trigTh_safe :
    (∀ s, trigTh (.text s) = false) ∧
    (∀ t c a ch, t ∈ ["div", "table", "thead", "tbody", "tr", "td"] → c = [] →
      trigTh (.elem t c a ch) = false) := by
  refine ⟨fun s => rfl, fun t c a ch ht hc => ?_⟩
  subst hc
  fin_cases ht <;> rfl

theorem trigHr_safe :
    (∀ s, trigHr (.text s) = false) ∧
    (∀ t c a ch, t ∈ ["div", "table", "thead", "tbody", "tr", "th", "td"] → c = [] →
      trigHr (.elem t c a ch) = false) := by
  refine ⟨fun s => rfl, fun t c a ch ht hc => ?_⟩
  subst hc
  fin_cases ht <;> rfl

theorem trigImg_safe :
    (∀ s, trigImg (.text s) = false) ∧
    (∀ t c a ch, t ∈ ["div", "table", "thead", "tbody", "tr", "th", "td"] → c = [] →
      trigImg (.elem t c a ch) = false) := by
  refine ⟨fun s => rfl, fun t c a ch ht hc => ?_⟩
  subst hc
  fin_cases ht <;> rfl

theorem trigTask_safe :
    (∀ s, trigTask (.text s) = false) ∧
    (∀ t c a ch, t ∈ ["div", "table", "thead", "tbody", "tr", "th", "td"] → c = [] →
      trigTask (.elem t c a ch) = false) := by
  refine ⟨fun s => rfl, fun t c a ch ht hc => ?_⟩
  subst hc
  fin_cases ht <;> rfl

theorem trigFn_safe :
    (∀ s, trigFn (.text s) = false) ∧
    (∀ t c a ch, t ∈ ["div", "table", "thead", "tbody", "tr", "th", "td"] → c = [] →
      trigFn (.elem t c a ch) = false) := by
  refine ⟨fun s => rfl, fun t c a ch ht hc => ?_⟩
  subst hc
  fin_cases ht <;> rfl

theorem rows_free (trig : Node → Bool)
    (htext : ∀ s, trig (.text s) = false)
    (htd : ∀ s, trig (.elem "td" [] [] [.text s]) = false)
    (htr : ∀ cs : List String, trig (.elem "tr" [] [] (cs.map mkTd)) = false) :
    ∀ rows : List (List String), freeL trig (rows.map mkTr) = true := by
  have htdf : ∀ s, freeN trig (mkTd s) = true := by
    intro s
    simp [mkTd, freeN_elem_eq, freeL_cons_eq, freeL_nil_eq, freeN_text_eq, htd, htext]
  have hcells : ∀ cs : List String, freeL trig (cs.map mkTd) = true := by
    intro cs
    induction cs with
    | nil => rfl
    | cons c cs ih =>
        rw [List.map_cons, freeL_cons_eq, htdf c, ih]
        rfl
  have htrf : ∀ cs, freeN trig (mkTr cs) = true := by
    intro cs
    rw [mkTr, freeN_elem_eq, htr cs, hcells cs]
    rfl
  intro rows
  induction rows with
  | nil => rfl
  | cons r rs ih =>
      rw [List.map_cons, freeL_cons_eq, htrf r, ih]
      rfl

theorem rows_free_th (rows : List (List String)) : freeL trigTh (rows.map mkTr) = true :=
  rows_free trigTh (fun _ => rfl) (fun _ => rfl) (fun _ => rfl) rows

theorem rows_free_tbody (rows : List (List String)) : freeL trigTbody (rows.map mkTr) = true :=
  rows_free trigTbody (fun _ => rfl) (fun _ => rfl) (fun _ => rfl) rows

theorem rows_free_table (rows : List (List String)) : freeL trigTable (rows.map mkTr) = true :=
  rows_free trigTable (fun _ => rfl) (fun _ => rfl) (fun _ => rfl) rows

theorem tbody_node_free_th (rows : List (List String)) :
    freeN trigTh (.elem "tbody" [] [] (rows.map mkTr)) = true := by
  rw [freeN_elem_eq, rows_free_th rows]
  rfl

theorem table_children_free_table (hs : List String) (rows : List (List String)) :
    freeL trigTable [mkThead hs, .elem "tbody" [] [] (rows.map mkTr)] = true := by
  have hth2 : ∀ s, freeN trigTable (mkTh s) = true := fun _ => rfl
  have hths : ∀ l : List String, freeL trigTable (l.map mkTh) = true := by
    intro l
    induction l with
    | nil => rfl
    | cons c cs ih =>
        rw [List.map_cons, freeL_cons_eq, hth2 c, ih]
        rfl
  have h1 : freeN trigTable (mkThead hs) = true := by
    rw [mkThead, freeN_elem_eq, freeL_cons_eq, freeN_elem_eq, hths hs]
    rfl
  have h2 : freeN trigTable (.elem "tbody" [] [] (rows.map mkTr)) = true := by
    rw [freeN_elem_eq, rows_free_table rows]
    rfl
  rw [freeL_cons_eq, freeL_cons_eq, h1, h2]
  rfl

theorem outThead_free_tbody (S : String → String) (hs : List String) :
    freeN trigTbody (outThead S hs) = true := by
  have hc : ∀ s, freeN trigTbody (Node.elem "th" [] [("style", S "th")] [.text s]) = true :=
    fun _ => rfl
  have hl : ∀ l : List String,
      freeL trigTbody (l.map (fun s => Node.elem "th" [] [("style", S "th")] [.text s])) = true := by
    intro l
    induction l with
    | nil => rfl
    | cons c cs ih =>
        rw [List.map_cons, freeL_cons_eq, hc c, ih]
        rfl
  rw [outThead, freeN_elem_eq, freeL_cons_eq, freeN_elem_eq, hl hs]
  rfl

theorem thN_mkThead (S : String → String) (hs : List String) :
    thN S (mkThead hs) = outThead S hs := by
  have h0 : thN S (mkThead hs)
      = Node.elem "thead" [] [] [.elem "tr" [] [] (thL S (hs.map mkTh))] := rfl
  rw [h0, th_header_cells]
  rfl
theorem tbodyL_table_body (S : String → String) (hs : List String)
    (rows : List (List String)) :
    tbodyL S [outThead S hs, .elem "tbody" [] [] (rows.map mkTr)]
      = ([outThead S hs, .elem "tbody" [] [] (zebRows S 0 rows)], true) := by
  have h1 : tbodyN S (outThead S hs) = (outThead S hs, false) :=
    tbody_id S (outThead S hs) (outThead_free_tbody S hs)
  have h2 : tbodyN S (.elem "tbody" [] [] (rows.map mkTr))
      = (.elem "tbody" [] [] (zebRows S 0 rows), true) := by
    have h3 : (zebL S none 0 (rows.map mkTr)).1 = zebRows S 0 rows := by
      rw [zeb_rows S rows 0]
    calc tbodyN S (.elem "tbody" [] [] (rows.map mkTr))
        = (.elem "tbody" [] [] ((zebL S none 0 (rows.map mkTr)).1), true) := rfl
      _ = (.elem "tbody" [] [] (zebRows S 0 rows), true) := by rw [h3]
  rw [tbodyL, h1]
  simp only [Bool.false_eq_true, if_false]
  rw [tbodyL, h2]
  rfl

theorem tableL_mkTable (S : String → String) (hs : List String)
    (rows : List (List String)) :
    tableL S [mkTable hs rows]
      = [.elem "div" [] [("style", S "table_wrapper")]
          [.elem "table" [] [("style", S "table")]
            [outThead S hs, .elem "tbody" [] [] (zebRows S 0 rows)]]] := by
  have h0 : tableL S [mkTable hs rows]
      = [.elem "div" [] [("style", S "table_wrapper")]
          [.elem "table" [] [("style", S "table")]
            ((tbodyL S (thL S (tableL S
              [mkThead hs, .elem "tbody" [] [] (rows.map mkTr)]))).1)]] := rfl
  rw [h0, table_id_list S _ (table_children_free_table hs rows)]
  have hth : thL S [mkThead hs, .elem "tbody" [] [] (rows.map mkTr)]
      = [outThead S hs, .elem "tbody" [] [] (rows.map mkTr)] := by
    have hstep : thL S [mkThead hs, .elem "tbody" [] [] (rows.map mkTr)]
        = thN S (mkThead hs) :: thN S (.elem "tbody" [] [] (rows.map mkTr)) :: [] := rfl
    rw [hstep, thN_mkThead, th_id S _ (tbody_node_free_th rows)]
  rw [hth, tbodyL_table_body]

theorem tableL_mkTableNoTbody (S : String → String) (rows : List (List String)) :
    tableL S [mkTableNoTbody rows]
      = [.elem "div" [] [("style", S "table_wrapper")]
          [.elem "table" [] [("style", S "table")] (rows.map mkTr)]] := by
  have h0 : tableL S [mkTableNoTbody rows]
      = [.elem "div" [] [("style", S "table_wrapper")]
          [.elem "table" [] [("style", S "table")]
            ((tbodyL S (thL S (tableL S (rows.map mkTr)))).1)]] := rfl
  rw [h0, table_id_list S _ (rows_free_table rows),
      th_id_list S _ (rows_free_th rows),
      tbody_id_list S _ (rows_free_tbody rows)]

theorem wrapped_table_free (trig : Node → Bool) (S : String → String)
    (htext : ∀ s, trig (.text s) = false)
    (helem : ∀ t c a ch, t ∈ ["div", "table", "thead", "tbody", "tr", "th", "td"] →
      c = [] → trig (.elem t c a ch) = false)
    (hs : List String) (rows : List (List String)) :
    freeL trig [.elem "div" [] [("style", S "table_wrapper")]
      [.elem "table" [] [("style", S "table")]
        [outThead S hs, .elem "tbody" [] [] (zebRows S 0 rows)]]] = true := by
  obtain ⟨_, _, hzeb, hthead⟩ := free_out_family trig S htext helem
  have h1 : freeN trig (.elem "tbody" [] [] (zebRows S 0 rows)) = true := by
    rw [freeN_elem_eq, hzeb 0 rows, helem "tbody" [] _ _ (by simp) rfl]
    rfl
  have h2 : freeN trig (.elem "table" [] [("style", S "table")]
      [outThead S hs, .elem "tbody" [] [] (zebRows S 0 rows)]) = true := by
    rw [freeN_elem_eq, freeL_cons_eq, freeL_cons_eq, hthead hs, h1,
        helem "table" [] _ _ (by simp) rfl]
    rfl
  rw [freeL_cons_eq, freeN_elem_eq, freeL_cons_eq, h2,
      helem "div" [] _ _ (by simp) rfl]
  rfl

theorem wrapped_noTbody_free (trig : Node → Bool) (S : String → String)
    (htext : ∀ s, trig (.text s) = false)
    (helem : ∀ t c a ch, t ∈ ["div", "table", "thead", "tbody", "tr", "th", "td"] →
      c = [] → trig (.elem t c a ch) = false)
    (rows : List (List String)) :
    freeL trig [.elem "div" [] [("style", S "table_wrapper")]
      [.elem "table" [] [("style", S "table")] (rows.map mkTr)]] = true := by
  have hrows := (free_table_family trig htext helem).2.2.2.1 rows
  have h2 : freeN trig (.elem "table" [] [("style", S "table")] (rows.map mkTr)) = true := by
    rw [freeN_elem_eq, hrows, helem "table" [] _ _ (by simp) rfl]
    rfl
  rw [freeL_cons_eq, freeN_elem_eq, freeL_cons_eq, h2,
      helem "div" [] _ _ (by simp) rfl]
  rfl

theorem applyStyles_mkTable (C : Cfg) (hs : List String) (rows : List (List String)) :
    applyStylesC C [mkTable hs rows]
      = [.elem "div" [] [("style", C.sty "table_wrapper")]
          [.elem "table" [] [("style", C.sty "table")]
            [outThead C.sty hs, .elem "tbody" [] [] (zebRows C.sty 0 rows)]]] := by
  have hin : ∀ trig : Node → Bool, (∀ s, trig (.text s) = false) →
      (∀ t c a ch, t ∈ ["div", "table", "thead", "tbody", "tr", "th", "td"] →
        c = [] → trig (.elem t c a ch) = false) →
      freeL trig [mkTable hs rows] = true := by
    intro trig htext helem
    rw [freeL_cons_eq, (free_table_family trig htext helem).2.2.2.2.2.1 hs rows]
    rfl
  have hw : ∀ trig : Node → Bool, (∀ s, trig (.text s) = false) →
      (∀ t c a ch, t ∈ ["div", "table", "thead", "tbody", "tr", "th", "td"] →
        c = [] → trig (.elem t c a ch) = false) →
      freeL trig [.elem "div" [] [("style", C.sty "table_wrapper")]
        [.elem "table" [] [("style", C.sty "table")]
          [outThead C.sty hs, .elem "tbody" [] [] (zebRows C.sty 0 rows)]]] = true :=
    fun trig htext helem => wrapped_table_free trig C.sty htext helem hs rows
  unfold applyStylesC
  rw [styleA_id_list C.sty "" _ (hin _ trigStyleA_safe.1 trigStyleA_safe.2),
      code_id_list C _ (hin _ isCodehilite_safe.1 isCodehilite_safe.2),
      pre_id_list "" _ (hin _ trigPre_safe.1 trigPre_safe.2),
      ic_id_list C.sty "" "" _ (hin _ trigIc_safe.1 trigIc_safe.2),
      tableL_mkTable C.sty hs rows,
      hr_id_list C.sty _ (hw _ trigHr_safe.1 trigHr_safe.2),
      img_id_list C _ (hw _ trigImg_safe.1 trigImg_safe.2),
      task_id_list C.sty _ (hw _ trigTask_safe.1 trigTask_safe.2),
      fn_id_list C.sty _ (hw _ trigFn_safe.1 trigFn_safe.2)
        (hw _ trigHr_safe.1 trigHr_safe.2)]

theorem applyStyles_mkTableNoTbody (C : Cfg) (rows : List (List String)) :
    applyStylesC C [mkTableNoTbody rows]
      = [.elem "div" [] [("style", C.sty "table_wrapper")]
          [.elem "table" [] [("style", C.sty "table")] (rows.map mkTr)]] := by
  have hin : ∀ trig : Node → Bool, (∀ s, trig (.text s) = false) →
      (∀ t c a ch, t ∈ ["div", "table", "thead", "tbody", "tr", "th", "td"] →
        c = [] → trig (.elem t c a ch) = false) →
      freeL trig [mkTableNoTbody rows] = true := by
    intro trig htext helem
    rw [freeL_cons_eq, (free_table_family trig htext helem).2.2.2.2.2.2 rows]
    rfl
  have hw : ∀ trig : Node → Bool, (∀ s, trig (.text s) = false) →
      (∀ t c a ch, t ∈ ["div", "table", "thead", "tbody", "tr", "th", "td"] →
        c = [] → trig (.elem t c a ch) = false) →
      freeL trig [.elem "div" [] [("style", C.sty "table_wrapper")]
        [.elem "table" [] [("style", C.sty "table")] (rows.map mkTr)]] = true :=
    fun trig htext helem => wrapped_noTbody_free trig C.sty htext helem rows
  unfold applyStylesC
  rw [styleA_id_list C.sty "" _ (hin _ trigStyleA_safe.1 trigStyleA_safe.2),
      code_id_list C _ (hin _ isCodehilite_safe.1 isCodehilite_safe.2),
      pre_id_list "" _ (hin _ trigPre_safe.1 trigPre_safe.2),
      ic_id_list C.sty "" "" _ (hin _ trigIc_safe.1 trigIc_safe.2),
      tableL_mkTableNoTbody C.sty rows,
      hr_id_list C.sty _ (hw _ trigHr_safe.1 trigHr_safe.2),
      img_id_list C _ (hw _ trigImg_safe.1 trigImg_safe.2),
      task_id_list C.sty _ (hw _ trigTask_safe.1 trigTask_safe.2),
      fn_id_list C.sty _ (hw _ trigFn_safe.1 trigFn_safe.2)
        (hw _ trigHr_safe.1 trigHr_safe.2)]

theorem zebRows_get (S : String → String) :
    ∀ (rows : List (List String)) (i j : Nat),
      (zebRows S i rows).get? j = (rows.get? j).map (fun cs => outTr S (i + j) cs) := by
  intro rows
  induction rows with
  | nil => intro i j; simp [zebRows]
  | cons r rs ih =>
      intro i j
      cases j with
      | zero => simp [zebRows]
      | succ j2 =>
          rw [zebRows]
          have hL : (outTr S i r :: zebRows S (i + 1) rs).get? (j2 + 1)
              = (zebRows S (i + 1) rs).get? j2 := rfl
          have hR : ((r :: rs).get? (j2 + 1)) = rs.get? j2 := rfl
          rw [hL, hR, ih (i + 1) j2, show i + 1 + j2 = i + (j2 + 1) from by omega]
/-- C3: For every table with a `tbody` of body rows, both converters wrap the
table in the scrollable container div, style the table and its header, and
zebra-stripe the body: row `j` (0-indexed) has all its `td` cells styled
`td_even` when `j` is odd and `td` when `j` is even (conjuncts 1-4); a table
with no `tbody` is still wrapped and styled but receives no zebra styling,
and the pass does not fail (conjuncts 5-6). -/
theorem c3_zebra_table :
    (∀ (styles : List (String × String)) (hs : List String) (rows : List (List String)),
      Wechat.apply_styles styles [mkTable hs rows]
        = [.elem "div" [] [("style", getAttr styles "table_wrapper")]
            [.elem "table" [] [("style", getAttr styles "table")]
              [outThead (fun k => getAttr styles k) hs,
               .elem "tbody" [] [] (zebRows (fun k => getAttr styles k) 0 rows)]]]) ∧
    (∀ (styles : List (String × String)) (hs : List String) (rows : List (List String)),
      Zhihu.apply_styles styles [mkTable hs rows]
        = [.elem "div" [] [("style", getAttr styles "table_wrapper")]
            [.elem "table" [] [("style", getAttr styles "table")]
              [outThead (fun k => getAttr styles k) hs,
               .elem "tbody" [] [] (zebRows (fun k => getAttr styles k) 0 rows)]]]) ∧
    (∀ (S : String → String) (rows : List (List String)) (j : Nat),
      (zebRows S 0 rows).get? j = (rows.get? j).map (fun cs => outTr S j cs)) ∧
    (∀ (S : String → String) (i : Nat) (cells : List String),
      outTr S i cells = .elem "tr" [] [] (cells.map (fun s =>
        .elem "td" [] [("style", if i % 2 == 1 then S "td_even" else S "td")] [.text s]))) ∧
    (∀ (styles : List (String × String)) (rows : List (List String)),
      Wechat.apply_styles styles [mkTableNoTbody rows]
        = [.elem "div" [] [("style", getAttr styles "table_wrapper")]
            [.elem "table" [] [("style", getAttr styles "table")] (rows.map mkTr)]]) ∧
    (∀ (styles : List (String × String)) (rows : List (List String)),
      Zhihu.apply_styles styles [mkTableNoTbody rows]
        = [.elem "div" [] [("style", getAttr styles "table_wrapper")]
            [.elem "table" [] [("style", getAttr styles "table")] (rows.map mkTr)]]) := by
  refine ⟨fun styles hs rows => applyStyles_mkTable (Wechat.cfg styles) hs rows,
    fun styles hs rows => applyStyles_mkTable (Zhihu.cfg styles) hs rows,
    fun S rows j => by simpa using zebRows_get S rows 0 j,
    fun S i cells => rfl,
    fun styles rows => applyStyles_mkTableNoTbody (Wechat.cfg styles) rows,
    fun styles rows => applyStyles_mkTableNoTbody (Zhihu.cfg styles) rows⟩

theorem countIfN_text_eq (p : Node → Bool) (s : String) :
    countIfN p (.text s) = if p (.text s) then 1 else 0 := rfl

theorem countIfN_elem_eq (p : Node → Bool) (t : String) (c : List String)
    (a : List (String × String)) (ch : List Node) :
    countIfN p (.elem t c a ch)
      = (if p (.elem t c a ch) then 1 else 0) + countIfL p ch := rfl

theorem countIfL_nil_eq (p : Node → Bool) : countIfL p [] = 0 := rfl

theorem countIfL_cons_eq (p : Node → Bool) (n : Node) (ns : List Node) :
    countIfL p (n :: ns) = countIfN p n + countIfL p ns := rfl

theorem codeN_chDiv (C : Cfg) (it : CHItem) : codeN C (chDiv it) = wrapOut C it := rfl

theorem codeL_chDivs (C : Cfg) :
    ∀ items : List CHItem, codeL C (items.map chDiv) = items.map (wrapOut C) := by
  intro items
  induction items with
  | nil => rfl
  | cons it its ih =>
      rw [List.map_cons, List.map_cons]
      have hstep : codeL C (chDiv it :: its.map chDiv)
          = codeN C (chDiv it) :: codeL C (its.map chDiv) := rfl
      rw [hstep, codeN_chDiv, ih]

theorem chDivs_free_styleA :
    ∀ items : List CHItem, freeL trigStyleA (items.map chDiv) = true := by
  have h1 : ∀ it, freeN trigStyleA (chDiv it) = true := fun _ => rfl
  intro items
  induction items with
  | nil => rfl
  | cons it its ih =>
      rw [List.map_cons, freeL_cons_eq, h1 it, ih]
      rfl
theorem preL_dots (C : Cfg) (s : String) :
    ∀ colors : List String, preL s (colors.map (mkDot C)) = colors.map (mkDot C) := by
  intro colors
  induction colors with
  | nil => rfl
  | cons c cs ih =>
      rw [List.map_cons]
      have hstep : preL s (mkDot C c :: cs.map (mkDot C))
          = mkDot C c :: preL s (cs.map (mkDot C)) := rfl
      rw [hstep, ih]

theorem preL_badge (C : Cfg) (s : String) (lang : String) :
    preL s (if lang == "" then [] else [mkBadge C lang])
      = (if lang == "" then [] else [mkBadge C lang]) := by
  cases hb : lang == "" with
  | true => rfl
  | false => rfl

theorem preN_header (C : Cfg) (lang : String) :
    preN (mkHeader C lang) = mkHeader C lang := by
  have hdots : preN (mkDots C) = mkDots C := by
    have h : preN (mkDots C)
        = .elem "div" [] [("style", C.sty "code_block_dots")]
            (preL (C.sty "code_block_dots") (C.dotColors.map (mkDot C))) := rfl
    rw [h, preL_dots]
    rfl
  have h : preN (mkHeader C lang)
      = .elem "div" [] [("style", C.sty "code_block_header")]
          (preN (mkDots C) :: preL (C.sty "code_block_header")
            (if lang == "" then [] else [mkBadge C lang])) := rfl
  rw [h, hdots, preL_badge]
  rfl

theorem preN_body (C : Cfg)
    (hbody : strStarts (C.sty "code_block_body") "padding:" = true)
    (cls : List String) (txt : String) :
    preN (.elem "div" [] [("style", C.sty "code_block_body")]
      [.elem "pre" [] [("style", neutralPre)] [.elem "code" cls [] [.text txt]]])
    = .elem "div" [] [("style", C.sty "code_block_body")]
      [.elem "pre" [] [("style", neutralPre)] [.elem "code" cls [] [.text txt]]] := by
  have hguard : (tagOf (.elem "pre" [] [("style", neutralPre)]
        [.elem "code" cls [] [.text txt]]) == "pre"
      && !(strStarts (C.sty "code_block_body") "padding:")) = false := by
    rw [hbody]
    rfl
  have h : preN (.elem "div" [] [("style", C.sty "code_block_body")]
        [.elem "pre" [] [("style", neutralPre)] [.elem "code" cls [] [.text txt]]])
      = .elem "div" [] [("style", C.sty "code_block_body")]
          (preL (C.sty "code_block_body")
            [.elem "pre" [] [("style", neutralPre)] [.elem "code" cls [] [.text txt]]]) := rfl
  rw [h, preL]
  simp only [hguard, Bool.false_eq_true, if_false]
  rfl

theorem preN_wrapOut (C : Cfg)
    (hbody : strStarts (C.sty "code_block_body") "padding:" = true) (it : CHItem) :
    preN (wrapOut C it) = wrapOut C it := by
  have h : preN (wrapOut C it)
      = .elem "div" [] [("style", C.sty "code_block_wrapper")]
          [preN (mkHeader C (detectLang C ("codehilite" :: it.divClasses)
             [.elem "pre" [] [] [.elem "code" it.codeClasses [] [.text it.codeText]]])),
           preN (.elem "div" [] [("style", C.sty "code_block_body")]
             [.elem "pre" [] [("style", neutralPre)]
               [.elem "code" it.codeClasses [] [.text it.codeText]]])] := rfl
  rw [h, preN_header, preN_body C hbody]
  rfl

theorem preL_wrapOuts (C : Cfg)
    (hbody : strStarts (C.sty "code_block_body") "padding:" = true) :
    ∀ items : List CHItem, preL "" (items.map (wrapOut C)) = items.map (wrapOut C) := by
  intro items
  induction items with
  | nil => rfl
  | cons it its ih =>
      rw [List.map_cons]
      have hstep : preL "" (wrapOut C it :: its.map (wrapOut C))
          = preN (wrapOut C it) :: preL "" (its.map (wrapOut C)) := rfl
      rw [hstep, preN_wrapOut C hbody, ih]

theorem icL_dots (C : Cfg) (S : String → String) (pt ps : String) :
    ∀ colors : List String, icL S pt ps (colors.map (mkDot C)) = colors.map (mkDot C) := by
  intro colors
  induction colors with
  | nil => rfl
  | cons c cs ih =>
      rw [List.map_cons]
      have hstep : icL S pt ps (mkDot C c :: cs.map (mkDot C))
          = icN S pt ps (mkDot C c) :: icL S pt ps (cs.map (mkDot C)) := rfl
      rw [hstep, ih]
      rfl

theorem icL_badge (C : Cfg) (S : String → String) (pt ps : String) (lang : String) :
    icL S pt ps (if lang == "" then [] else [mkBadge C lang])
      = (if lang == "" then [] else [mkBadge C lang]) := by
  cases hb : lang == "" with
  | true => rfl
  | false => rfl

theorem icN_wrapOut (C : Cfg) (S : String → String) (pt ps : String) (it : CHItem) :
    icN S pt ps (wrapOut C it) = wrapOut C it := by
  have hhd : icN S "div" (C.sty "code_block_wrapper")
      (mkHeader C (detectLang C ("codehilite" :: it.divClasses)
        [.elem "pre" [] [] [.elem "code" it.codeClasses [] [.text it.codeText]]]))
      = mkHeader C (detectLang C ("codehilite" :: it.divClasses)
        [.elem "pre" [] [] [.elem "code" it.codeClasses [] [.text it.codeText]]]) := by
    have hdots : icN S "div" (C.sty "code_block_header") (mkDots C) = mkDots C := by
      have h : icN S "div" (C.sty "code_block_header") (mkDots C)
          = .elem "div" [] [("style", C.sty "code_block_dots")]
              (icL S "div" (C.sty "code_block_dots") (C.dotColors.map (mkDot C))) := rfl
      rw [h, icL_dots]
      rfl
    have h : icN S "div" (C.sty "code_block_wrapper")
        (mkHeader C (detectLang C ("codehilite" :: it.divClasses)
          [.elem "pre" [] [] [.elem "code" it.codeClasses [] [.text it.codeText]]]))
        = .elem "div" [] [("style", C.sty "code_block_header")]
            (icN S "div" (C.sty "code_block_header") (mkDots C)
              :: icL S "div" (C.sty "code_block_header")
                (if detectLang C ("codehilite" :: it.divClasses)
                    [.elem "pre" [] [] [.elem "code" it.codeClasses [] [.text it.codeText]]] == ""
                 then []
                 else [mkBadge C (detectLang C ("codehilite" :: it.divClasses)
                   [.elem "pre" [] [] [.elem "code" it.codeClasses [] [.text it.codeText]]])])) := rfl
    rw [h, hdots, icL_badge]
    rfl
  have hbd : icN S "div" (C.sty "code_block_wrapper")
      (.elem "div" [] [("style", C.sty "code_block_body")]
        [.elem "pre" [] [("style", neutralPre)]
          [.elem "code" it.codeClasses [] [.text it.codeText]]])
      = .elem "div" [] [("style", C.sty "code_block_body")]
          [.elem "pre" [] [("style", neutralPre)]
            [.elem "code" it.codeClasses [] [.text it.codeText]]] := rfl
  have h : icN S pt ps (wrapOut C it)
      = .elem "div" [] [("style", C.sty "code_block_wrapper")]
          [icN S "div" (C.sty "code_block_wrapper")
            (mkHeader C (detectLang C ("codehilite" :: it.divClasses)
              [.elem "pre" [] [] [.elem "code" it.codeClasses [] [.text it.codeText]]])),
           icN S "div" (C.sty "code_block_wrapper")
            (.elem "div" [] [("style", C.sty "code_block_body")]
              [.elem "pre" [] [("style", neutralPre)]
                [.elem "code" it.codeClasses [] [.text it.codeText]]])] := rfl
  rw [h, hhd, hbd]
  rfl

theorem icL_wrapOuts (C : Cfg) (S : String → String) :
    ∀ items : List CHItem, icL S "" "" (items.map (wrapOut C)) = items.map (wrapOut C) := by
  intro items
  induction items with
  | nil => rfl
  | cons it its ih =>
      rw [List.map_cons]
      have hstep : icL S "" "" (wrapOut C it :: its.map (wrapOut C))
          = icN S "" "" (wrapOut C it) :: icL S "" "" (its.map (wrapOut C)) := rfl
      rw [hstep, icN_wrapOut, ih]
theorem wrapOut_free (trig : Node → Bool) (C : Cfg) (it : CHItem)
    (htext : ∀ s, trig (.text s) = false)
    (helem : ∀ t c a ch, t ∈ ["div", "span", "pre"] → c = [] → trig (.elem t c a ch) = false)
    (hcode : ∀ a ch, trig (.elem "code" it.codeClasses a ch) = false) :
    freeN trig (wrapOut C it) = true := by
  have hdot : ∀ color, freeN trig (mkDot C color) = true := by
    intro color
    rw [mkDot, freeN_elem_eq,
        helem "span" [] _ _ (by simp) rfl]
    rfl
  have hdotsl : ∀ colors : List String, freeL trig (colors.map (mkDot C)) = true := by
    intro colors
    induction colors with
    | nil => rfl
    | cons c cs ih =>
        rw [List.map_cons, freeL_cons_eq, hdot c, ih]
        rfl
  have hdots : freeN trig (mkDots C) = true := by
    rw [mkDots, freeN_elem_eq, hdotsl, helem "div" [] _ _ (by simp) rfl]
    rfl
  have hbadge : ∀ lang, freeN trig (mkBadge C lang) = true := by
    intro lang
    rw [mkBadge, freeN_elem_eq, freeL_cons_eq, freeN_text_eq, htext,
        helem "span" [] _ _ (by simp) rfl]
    rfl
  have hbil : ∀ lang : String,
      freeL trig (if lang == "" then [] else [mkBadge C lang]) = true := by
    intro lang
    cases hb : lang == "" with
    | true => rfl
    | false =>
        show freeL trig [mkBadge C lang] = true
        rw [freeL_cons_eq, hbadge lang]
        rfl
  have hhd : ∀ lang, freeN trig (mkHeader C lang) = true := by
    intro lang
    rw [mkHeader, freeN_elem_eq, freeL_cons_eq, hdots, hbil lang,
        helem "div" [] _ _ (by simp) rfl]
    rfl
  have hbd : freeN trig (.elem "div" [] [("style", C.sty "code_block_body")]
      [.elem "pre" [] [("style", neutralPre)]
        [.elem "code" it.codeClasses [] [.text it.codeText]]]) = true := by
    rw [freeN_elem_eq, freeL_cons_eq, freeN_elem_eq, freeL_cons_eq, freeN_elem_eq,
        freeL_cons_eq, freeN_text_eq, htext, hcode,
        helem "pre" [] _ _ (by simp) rfl, helem "div" [] _ _ (by simp) rfl]
    rfl
  rw [wrapOut, freeN_elem_eq, freeL_cons_eq, freeL_cons_eq, hhd, hbd,
      helem "div" [] _ _ (by simp) rfl]
  rfl

theorem wrapOuts_free (trig : Node → Bool) (C : Cfg)
    (htext : ∀ s, trig (.text s) = false)
    (helem : ∀ t c a ch, t ∈ ["div", "span", "pre"] → c = [] → trig (.elem t c a ch) = false)
    (hcode : ∀ cls a ch, trig (.elem "code" cls a ch) = false) :
    ∀ items : List CHItem, freeL trig (items.map (wrapOut C)) = true := by
  intro items
  induction items with
  | nil => rfl
  | cons it its ih =>
      rw [List.map_cons, freeL_cons_eq,
          wrapOut_free trig C it htext helem (hcode it.codeClasses), ih]
      rfl

theorem applyStyles_chDivs (C : Cfg)
    (hbody : strStarts (C.sty "code_block_body") "padding:" = true)
    (items : List CHItem) :
    applyStylesC C (items.map chDiv) = items.map (wrapOut C) := by
  have hout : ∀ trig : Node → Bool, (∀ s, trig (.text s) = false) →
      (∀ t c a ch, t ∈ ["div", "span", "pre"] → c = [] → trig (.elem t c a ch) = false) →
      (∀ cls a ch, trig (.elem "code" cls a ch) = false) →
      freeL trig (items.map (wrapOut C)) = true :=
    fun trig h1 h2 h3 => wrapOuts_free trig C h1 h2 h3 items
  have htab : freeL trigTable (items.map (wrapOut C)) = true :=
    hout trigTable (fun _ => rfl)
      (fun t c a ch ht hc => by subst hc; fin_cases ht <;> rfl) (fun _ _ _ => rfl)
  have hhr : freeL trigHr (items.map (wrapOut C)) = true :=
    hout trigHr (fun _ => rfl)
      (fun t c a ch ht hc => by subst hc; fin_cases ht <;> rfl) (fun _ _ _ => rfl)
  have himg : freeL trigImg (items.map (wrapOut C)) = true :=
    hout trigImg (fun _ => rfl)
      (fun t c a ch ht hc => by subst hc; fin_cases ht <;> rfl) (fun _ _ _ => rfl)
  have htask : freeL trigTask (items.map (wrapOut C)) = true :=
    hout trigTask (fun _ => rfl)
      (fun t c a ch ht hc => by subst hc; fin_cases ht <;> rfl) (fun _ _ _ => rfl)
  have hfn : freeL trigFn (items.map (wrapOut C)) = true :=
    hout trigFn (fun _ => rfl)
      (fun t c a ch ht hc => by subst hc; fin_cases ht <;> rfl) (fun _ _ _ => rfl)
  unfold applyStylesC
  rw [styleA_id_list C.sty "" _ (chDivs_free_styleA items),
      codeL_chDivs C items,
      preL_wrapOuts C hbody items,
      icL_wrapOuts C C.sty items,
      table_id_list C.sty _ htab,
      hr_id_list C.sty _ hhr,
      img_id_list C _ himg,
      task_id_list C.sty _ htask,
      fn_id_list C.sty _ hfn hhr]
theorem countIfN_wrapOut_split (p : Node → Bool) (C : Cfg) (it : CHItem) :
    countIfN p (wrapOut C it)
      = (if p (wrapOut C it) then 1 else 0)
        + (((if p (mkHeader C (detectLang C ("codehilite" :: it.divClasses)
                [.elem "pre" [] [] [.elem "code" it.codeClasses [] [.text it.codeText]]])) then 1 else 0)
            + (countIfN p (mkDots C)
               + countIfL p (if detectLang C ("codehilite" :: it.divClasses)
                     [.elem "pre" [] [] [.elem "code" it.codeClasses [] [.text it.codeText]]] == ""
                   then []
                   else [mkBadge C (detectLang C ("codehilite" :: it.divClasses)
                     [.elem "pre" [] [] [.elem "code" it.codeClasses [] [.text it.codeText]]])])))
           + (countIfN p (.elem "div" [] [("style", C.sty "code_block_body")]
               [.elem "pre" [] [("style", neutralPre)]
                 [.elem "code" it.codeClasses [] [.text it.codeText]]]) + 0)) := rfl

theorem wechat_wrapper_count_item (key : String) (it : CHItem) :
    countIfN (isWrapper (Wechat.cfg (Wechat.build_styles key)))
      (wrapOut (Wechat.cfg (Wechat.build_styles key)) it) = 1 := by
  show countIfN
      (isWrapper (Wechat.cfg (Wechat.stylesOf ((Wechat.THEMES.lookup key).getD Wechat.theme_blue))))
      (wrapOut (Wechat.cfg (Wechat.stylesOf ((Wechat.THEMES.lookup key).getD Wechat.theme_blue))) it)
      = 1
  generalize (Wechat.THEMES.lookup key).getD Wechat.theme_blue = t
  rw [countIfN_wrapOut_split]
  have htop : isWrapper (Wechat.cfg (Wechat.stylesOf t))
      (wrapOut (Wechat.cfg (Wechat.stylesOf t)) it)
      = ((Wechat.cfg (Wechat.stylesOf t)).sty "code_block_wrapper"
         == (Wechat.cfg (Wechat.stylesOf t)).sty "code_block_wrapper") := rfl
  have hbil : countIfL (isWrapper (Wechat.cfg (Wechat.stylesOf t)))
      (if detectLang (Wechat.cfg (Wechat.stylesOf t)) ("codehilite" :: it.divClasses)
           [.elem "pre" [] [] [.elem "code" it.codeClasses [] [.text it.codeText]]] == ""
         then []
         else [mkBadge (Wechat.cfg (Wechat.stylesOf t))
           (detectLang (Wechat.cfg (Wechat.stylesOf t)) ("codehilite" :: it.divClasses)
             [.elem "pre" [] [] [.elem "code" it.codeClasses [] [.text it.codeText]]])]) = 0 := by
    cases hb : detectLang (Wechat.cfg (Wechat.stylesOf t)) ("codehilite" :: it.divClasses)
        [.elem "pre" [] [] [.elem "code" it.codeClasses [] [.text it.codeText]]] == "" with
    | true => rfl
    | false => rfl
  rw [htop, beq_self_eq_true, hbil]
  show 1 + ((0 + (0 + 0)) + (0 + 0)) = 1
  rfl
theorem zhihu_wrapper_count_item (key : String) (it : CHItem) :
    countIfN (isWrapper (Zhihu.cfg (Zhihu.build_styles key)))
      (wrapOut (Zhihu.cfg (Zhihu.build_styles key)) it) = 1 := by
  show countIfN
      (isWrapper (Zhihu.cfg (Zhihu.stylesOf ((Zhihu.THEMES.lookup key).getD Zhihu.theme_zhihu))))
      (wrapOut (Zhihu.cfg (Zhihu.stylesOf ((Zhihu.THEMES.lookup key).getD Zhihu.theme_zhihu))) it)
      = 1
  generalize (Zhihu.THEMES.lookup key).getD Zhihu.theme_zhihu = t
  rw [countIfN_wrapOut_split]
  have htop : isWrapper (Zhihu.cfg (Zhihu.stylesOf t))
      (wrapOut (Zhihu.cfg (Zhihu.stylesOf t)) it)
      = ((Zhihu.cfg (Zhihu.stylesOf t)).sty "code_block_wrapper"
         == (Zhihu.cfg (Zhihu.stylesOf t)).sty "code_block_wrapper") := rfl
  have hbil : countIfL (isWrapper (Zhihu.cfg (Zhihu.stylesOf t)))
      (if detectLang (Zhihu.cfg (Zhihu.stylesOf t)) ("codehilite" :: it.divClasses)
           [.elem "pre" [] [] [.elem "code" it.codeClasses [] [.text it.codeText]]] == ""
         then []
         else [mkBadge (Zhihu.cfg (Zhihu.stylesOf t))
           (detectLang (Zhihu.cfg (Zhihu.stylesOf t)) ("codehilite" :: it.divClasses)
             [.elem "pre" [] [] [.elem "code" it.codeClasses [] [.text it.codeText]]])]) = 0 := by
    cases hb : detectLang (Zhihu.cfg (Zhihu.stylesOf t)) ("codehilite" :: it.divClasses)
        [.elem "pre" [] [] [.elem "code" it.codeClasses [] [.text it.codeText]]] == "" with
    | true => rfl
    | false => rfl
  rw [htop, beq_self_eq_true, hbil]
  show 1 + ((0 + (0 + 0)) + (0 + 0)) = 1
  rfl

theorem wechat_dot_count_item (key : String) (it : CHItem) :
    countIfN (isDotSpan (Wechat.cfg (Wechat.build_styles key)))
      (wrapOut (Wechat.cfg (Wechat.build_styles key)) it) = 3 := by
  show countIfN
      (isDotSpan (Wechat.cfg (Wechat.stylesOf ((Wechat.THEMES.lookup key).getD Wechat.theme_blue))))
      (wrapOut (Wechat.cfg (Wechat.stylesOf ((Wechat.THEMES.lookup key).getD Wechat.theme_blue))) it)
      = 3
  generalize (Wechat.THEMES.lookup key).getD Wechat.theme_blue = t
  rw [countIfN_wrapOut_split]
  have hbil : countIfL (isDotSpan (Wechat.cfg (Wechat.stylesOf t)))
      (if detectLang (Wechat.cfg (Wechat.stylesOf t)) ("codehilite" :: it.divClasses)
           [.elem "pre" [] [] [.elem "code" it.codeClasses [] [.text it.codeText]]] == ""
         then []
         else [mkBadge (Wechat.cfg (Wechat.stylesOf t))
           (detectLang (Wechat.cfg (Wechat.stylesOf t)) ("codehilite" :: it.divClasses)
             [.elem "pre" [] [] [.elem "code" it.codeClasses [] [.text it.codeText]]])]) = 0 := by
    cases hb : detectLang (Wechat.cfg (Wechat.stylesOf t)) ("codehilite" :: it.divClasses)
        [.elem "pre" [] [] [.elem "code" it.codeClasses [] [.text it.codeText]]] == "" with
    | true => rfl
    | false => rfl
  rw [hbil]
  show 0 + ((0 + (3 + 0)) + (0 + 0)) = 3
  rfl

theorem zhihu_dot_count_item (key : String) (it : CHItem) :
    countIfN (isDotSpan (Zhihu.cfg (Zhihu.build_styles key)))
      (wrapOut (Zhihu.cfg (Zhihu.build_styles key)) it) = 3 := by
  show countIfN
      (isDotSpan (Zhihu.cfg (Zhihu.stylesOf ((Zhihu.THEMES.lookup key).getD Zhihu.theme_zhihu))))
      (wrapOut (Zhihu.cfg (Zhihu.stylesOf ((Zhihu.THEMES.lookup key).getD Zhihu.theme_zhihu))) it)
      = 3
  generalize (Zhihu.THEMES.lookup key).getD Zhihu.theme_zhihu = t
  rw [countIfN_wrapOut_split]
  have hbil : countIfL (isDotSpan (Zhihu.cfg (Zhihu.stylesOf t)))
      (if detectLang (Zhihu.cfg (Zhihu.stylesOf t)) ("codehilite" :: it.divClasses)
           [.elem "pre" [] [] [.elem "code" it.codeClasses [] [.text it.codeText]]] == ""
         then []
         else [mkBadge (Zhihu.cfg (Zhihu.stylesOf t))
           (detectLang (Zhihu.cfg (Zhihu.stylesOf t)) ("codehilite" :: it.divClasses)
             [.elem "pre" [] [] [.elem "code" it.codeClasses [] [.text it.codeText]]])]) = 0 := by
    cases hb : detectLang (Zhihu.cfg (Zhihu.stylesOf t)) ("codehilite" :: it.divClasses)
        [.elem "pre" [] [] [.elem "code" it.codeClasses [] [.text it.codeText]]] == "" with
    | true => rfl
    | false => rfl
  rw [hbil]
  show 0 + ((0 + (3 + 0)) + (0 + 0)) = 3
  rfl

theorem wechat_badge_count_item (key : String) (it : CHItem) :
    countIfN (isBadgeSpan (Wechat.cfg (Wechat.build_styles key)))
      (wrapOut (Wechat.cfg (Wechat.build_styles key)) it)
      = (if detectLang (Wechat.cfg (Wechat.build_styles key)) ("codehilite" :: it.divClasses)
            [.elem "pre" [] [] [.elem "code" it.codeClasses [] [.text it.codeText]]] == ""
         then 0 else 1) := by
  show countIfN
      (isBadgeSpan (Wechat.cfg (Wechat.stylesOf ((Wechat.THEMES.lookup key).getD Wechat.theme_blue))))
      (wrapOut (Wechat.cfg (Wechat.stylesOf ((Wechat.THEMES.lookup key).getD Wechat.theme_blue))) it)
      = (if detectLang (Wechat.cfg (Wechat.stylesOf ((Wechat.THEMES.lookup key).getD Wechat.theme_blue)))
            ("codehilite" :: it.divClasses)
            [.elem "pre" [] [] [.elem "code" it.codeClasses [] [.text it.codeText]]] == ""
         then 0 else 1)
  generalize (Wechat.THEMES.lookup key).getD Wechat.theme_blue = t
  rw [countIfN_wrapOut_split]
  have hbil : countIfL (isBadgeSpan (Wechat.cfg (Wechat.stylesOf t)))
      (if detectLang (Wechat.cfg (Wechat.stylesOf t)) ("codehilite" :: it.divClasses)
           [.elem "pre" [] [] [.elem "code" it.codeClasses [] [.text it.codeText]]] == ""
         then []
         else [mkBadge (Wechat.cfg (Wechat.stylesOf t))
           (detectLang (Wechat.cfg (Wechat.stylesOf t)) ("codehilite" :: it.divClasses)
             [.elem "pre" [] [] [.elem "code" it.codeClasses [] [.text it.codeText]]])])
      = (if detectLang (Wechat.cfg (Wechat.stylesOf t)) ("codehilite" :: it.divClasses)
           [.elem "pre" [] [] [.elem "code" it.codeClasses [] [.text it.codeText]]] == ""
         then 0 else 1) := by
    cases hb : detectLang (Wechat.cfg (Wechat.stylesOf t)) ("codehilite" :: it.divClasses)
        [.elem "pre" [] [] [.elem "code" it.codeClasses [] [.text it.codeText]]] == "" with
    | true => rfl
    | false =>
        have hb2 : isBadgeSpan (Wechat.cfg (Wechat.stylesOf t))
            (mkBadge (Wechat.cfg (Wechat.stylesOf t))
              (detectLang (Wechat.cfg (Wechat.stylesOf t)) ("codehilite" :: it.divClasses)
                [.elem "pre" [] [] [.elem "code" it.codeClasses [] [.text it.codeText]]]))
            = ((Wechat.cfg (Wechat.stylesOf t)).sty "code_block_lang"
               == (Wechat.cfg (Wechat.stylesOf t)).sty "code_block_lang") := rfl
        show (if isBadgeSpan (Wechat.cfg (Wechat.stylesOf t))
            (mkBadge (Wechat.cfg (Wechat.stylesOf t))
              (detectLang (Wechat.cfg (Wechat.stylesOf t)) ("codehilite" :: it.divClasses)
                [.elem "pre" [] [] [.elem "code" it.codeClasses [] [.text it.codeText]]]))
          then 1 else 0) + ((if isBadgeSpan (Wechat.cfg (Wechat.stylesOf t))
            (.text (upperS (detectLang (Wechat.cfg (Wechat.stylesOf t)) ("codehilite" :: it.divClasses)
              [.elem "pre" [] [] [.elem "code" it.codeClasses [] [.text it.codeText]]])))
          then 1 else 0) + 0) + 0 = 1
        rw [hb2, beq_self_eq_true]
        rfl
  rw [hbil]
  generalize (if detectLang (Wechat.cfg (Wechat.stylesOf t)) ("codehilite" :: it.divClasses)
      [.elem "pre" [] [] [.elem "code" it.codeClasses [] [.text it.codeText]]] == ""
    then 0 else 1) = n
  show 0 + ((0 + (0 + n)) + (0 + 0)) = n
  omega
theorem zhihu_badge_count_item (key : String) (it : CHItem) :
    countIfN (isBadgeSpan (Zhihu.cfg (Zhihu.build_styles key)))
      (wrapOut (Zhihu.cfg (Zhihu.build_styles key)) it)
      = (if detectLang (Zhihu.cfg (Zhihu.build_styles key)) ("codehilite" :: it.divClasses)
            [.elem "pre" [] [] [.elem "code" it.codeClasses [] [.text it.codeText]]] == ""
         then 0 else 1) := by
  show countIfN
      (isBadgeSpan (Zhihu.cfg (Zhihu.stylesOf ((Zhihu.THEMES.lookup key).getD Zhihu.theme_zhihu))))
      (wrapOut (Zhihu.cfg (Zhihu.stylesOf ((Zhihu.THEMES.lookup key).getD Zhihu.theme_zhihu))) it)
      = (if detectLang (Zhihu.cfg (Zhihu.stylesOf ((Zhihu.THEMES.lookup key).getD Zhihu.theme_zhihu)))
            ("codehilite" :: it.divClasses)
            [.elem "pre" [] [] [.elem "code" it.codeClasses [] [.text it.codeText]]] == ""
         then 0 else 1)
  generalize (Zhihu.THEMES.lookup key).getD Zhihu.theme_zhihu = t
  rw [countIfN_wrapOut_split]
  have hbil : countIfL (isBadgeSpan (Zhihu.cfg (Zhihu.stylesOf t)))
      (if detectLang (Zhihu.cfg (Zhihu.stylesOf t)) ("codehilite" :: it.divClasses)
           [.elem "pre" [] [] [.elem "code" it.codeClasses [] [.text it.codeText]]] == ""
         then []
         else [mkBadge (Zhihu.cfg (Zhihu.stylesOf t))
           (detectLang (Zhihu.cfg (Zhihu.stylesOf t)) ("codehilite" :: it.divClasses)
             [.elem "pre" [] [] [.elem "code" it.codeClasses [] [.text it.codeText]]])])
      = (if detectLang (Zhihu.cfg (Zhihu.stylesOf t)) ("codehilite" :: it.divClasses)
           [.elem "pre" [] [] [.elem "code" it.codeClasses [] [.text it.codeText]]] == ""
         then 0 else 1) := by
    cases hb : detectLang (Zhihu.cfg (Zhihu.stylesOf t)) ("codehilite" :: it.divClasses)
        [.elem "pre" [] [] [.elem "code" it.codeClasses [] [.text it.codeText]]] == "" with
    | true => rfl
    | false =>
        have hb2 : isBadgeSpan (Zhihu.cfg (Zhihu.stylesOf t))
            (mkBadge (Zhihu.cfg (Zhihu.stylesOf t))
              (detectLang (Zhihu.cfg (Zhihu.stylesOf t)) ("codehilite" :: it.divClasses)
                [.elem "pre" [] [] [.elem "code" it.codeClasses [] [.text it.codeText]]]))
            = ((Zhihu.cfg (Zhihu.stylesOf t)).sty "code_block_lang"
               == (Zhihu.cfg (Zhihu.stylesOf t)).sty "code_block_lang") := rfl
        show (if isBadgeSpan (Zhihu.cfg (Zhihu.stylesOf t))
            (mkBadge (Zhihu.cfg (Zhihu.stylesOf t))
              (detectLang (Zhihu.cfg (Zhihu.stylesOf t)) ("codehilite" :: it.divClasses)
                [.elem "pre" [] [] [.elem "code" it.codeClasses [] [.text it.codeText]]]))
          then 1 else 0) + ((if isBadgeSpan (Zhihu.cfg (Zhihu.stylesOf t))
            (.text (upperS (detectLang (Zhihu.cfg (Zhihu.stylesOf t)) ("codehilite" :: it.divClasses)
              [.elem "pre" [] [] [.elem "code" it.codeClasses [] [.text it.codeText]]])))
          then 1 else 0) + 0) + 0 = 1
        rw [hb2, beq_self_eq_true]
        rfl
  rw [hbil]
  generalize (if detectLang (Zhihu.cfg (Zhihu.stylesOf t)) ("codehilite" :: it.divClasses)
      [.elem "pre" [] [] [.elem "code" it.codeClasses [] [.text it.codeText]]] == ""
    then 0 else 1) = n
  show 0 + ((0 + (0 + n)) + (0 + 0)) = n
  omega

theorem wechat_wrapper_count_list (key : String) :
    ∀ items : List CHItem,
      countIfL (isWrapper (Wechat.cfg (Wechat.build_styles key)))
        (items.map (wrapOut (Wechat.cfg (Wechat.build_styles key)))) = items.length := by
  intro items
  induction items with
  | nil => rfl
  | cons it its ih =>
      rw [List.map_cons, countIfL_cons_eq, wechat_wrapper_count_item key it, ih,
          List.length_cons]
      omega

theorem zhihu_wrapper_count_list (key : String) :
    ∀ items : List CHItem,
      countIfL (isWrapper (Zhihu.cfg (Zhihu.build_styles key)))
        (items.map (wrapOut (Zhihu.cfg (Zhihu.build_styles key)))) = items.length := by
  intro items
  induction items with
  | nil => rfl
  | cons it its ih =>
      rw [List.map_cons, countIfL_cons_eq, zhihu_wrapper_count_item key it, ih,
          List.length_cons]
      omega

theorem chDiv_codehilite_count :
    ∀ items : List CHItem, countIfL isCodehilite (items.map chDiv) = items.length := by
  have h1 : ∀ it, countIfN isCodehilite (chDiv it) = 1 := fun _ => rfl
  intro items
  induction items with
  | nil => rfl
  | cons it its ih =>
      rw [List.map_cons, countIfL_cons_eq, h1 it, ih, List.length_cons]
      omega
/-- C4, counterexample: in the WeChat converter the scan of the container
classes for a `language-` hint happens inside `if pre:`; a codehilite `div`
carrying the class `language-python` but no `pre` child is rebuilt into a
wrapper with no badge at all, although a language hint is present on the
container.  The Zhihu converter, which scans unconditionally, produces the
badge on the same input. -/
theorem c4_code_wrap_counterexample :
    countIfL (isBadgeSpan (Wechat.cfg (Wechat.build_styles "blue")))
      (Wechat.apply_styles (Wechat.build_styles "blue")
        [.elem "div" ["codehilite", "language-python"] [] []]) = 0
    ∧ countIfL (isWrapper (Wechat.cfg (Wechat.build_styles "blue")))
      (Wechat.apply_styles (Wechat.build_styles "blue")
        [.elem "div" ["codehilite", "language-python"] [] []]) = 1
    ∧ strStarts "language-python" "language-" = true
    ∧ countIfL (isBadgeSpan (Zhihu.cfg (Zhihu.build_styles "zhihu")))
      (Zhihu.apply_styles (Zhihu.build_styles "zhihu")
        [.elem "div" ["codehilite", "language-python"] [] []]) = 1 :=
  ⟨rfl, rfl, rfl, rfl⟩

/-- C4, amended: on a tree of `k` codehilite containers of the
`pre > code > text` shape, both converters rebuild each container into one
wrapper (conjuncts 1-5), each wrapper holds exactly 3 indicator dots
(conjuncts 6-7), and each wrapper holds exactly one uppercase language
badge when the variant's own language detection (`detectLang`, which in the
WeChat variant requires a `pre` child before the container classes are
scanned) yields a non-empty hint, and none otherwise (conjuncts 8-9). -/
theorem c4_code_wrap_amended :
    (∀ (key : String) (items : List CHItem),
      Wechat.apply_styles (Wechat.build_styles key) (items.map chDiv)
        = items.map (wrapOut (Wechat.cfg (Wechat.build_styles key)))) ∧
    (∀ (key : String) (items : List CHItem),
      Zhihu.apply_styles (Zhihu.build_styles key) (items.map chDiv)
        = items.map (wrapOut (Zhihu.cfg (Zhihu.build_styles key)))) ∧
    (∀ items : List CHItem, countIfL isCodehilite (items.map chDiv) = items.length) ∧
    (∀ (key : String) (items : List CHItem),
      countIfL (isWrapper (Wechat.cfg (Wechat.build_styles key)))
        (items.map (wrapOut (Wechat.cfg (Wechat.build_styles key)))) = items.length) ∧
    (∀ (key : String) (items : List CHItem),
      countIfL (isWrapper (Zhihu.cfg (Zhihu.build_styles key)))
        (items.map (wrapOut (Zhihu.cfg (Zhihu.build_styles key)))) = items.length) ∧
    (∀ (key : String) (it : CHItem),
      countIfN (isDotSpan (Wechat.cfg (Wechat.build_styles key)))
        (wrapOut (Wechat.cfg (Wechat.build_styles key)) it) = 3) ∧
    (∀ (key : String) (it : CHItem),
      countIfN (isDotSpan (Zhihu.cfg (Zhihu.build_styles key)))
        (wrapOut (Zhihu.cfg (Zhihu.build_styles key)) it) = 3) ∧
    (∀ (key : String) (it : CHItem),
      countIfN (isBadgeSpan (Wechat.cfg (Wechat.build_styles key)))
        (wrapOut (Wechat.cfg (Wechat.build_styles key)) it)
        = (if detectLang (Wechat.cfg (Wechat.build_styles key)) ("codehilite" :: it.divClasses)
              [.elem "pre" [] [] [.elem "code" it.codeClasses [] [.text it.codeText]]] == ""
           then 0 else 1)) ∧
    (∀ (key : String) (it : CHItem),
      countIfN (isBadgeSpan (Zhihu.cfg (Zhihu.build_styles key)))
        (wrapOut (Zhihu.cfg (Zhihu.build_styles key)) it)
        = (if detectLang (Zhihu.cfg (Zhihu.build_styles key)) ("codehilite" :: it.divClasses)
              [.elem "pre" [] [] [.elem "code" it.codeClasses [] [.text it.codeText]]] == ""
           then 0 else 1)) := by
  refine ⟨fun key items => applyStyles_chDivs (Wechat.cfg (Wechat.build_styles key)) ?_ items,
    fun key items => applyStyles_chDivs (Zhihu.cfg (Zhihu.build_styles key)) ?_ items,
    chDiv_codehilite_count, wechat_wrapper_count_list, zhihu_wrapper_count_list,
    wechat_dot_count_item, zhihu_dot_count_item,
    wechat_badge_count_item, zhihu_badge_count_item⟩
  · show strStarts ((Wechat.cfg (Wechat.stylesOf
        ((Wechat.THEMES.lookup key).getD Wechat.theme_blue))).sty "code_block_body")
      "padding:" = true
    generalize (Wechat.THEMES.lookup key).getD Wechat.theme_blue = t
    rfl
  · show strStarts ((Zhihu.cfg (Zhihu.stylesOf
        ((Zhihu.THEMES.lookup key).getD Zhihu.theme_zhihu))).sty "code_block_body")
      "padding:" = true
    generalize (Zhihu.THEMES.lookup key).getD Zhihu.theme_zhihu = t
    rfl

theorem capOKN_text_eq (C : Cfg) (s : String) : capOKN C (.text s) = true := rfl

theorem capOKN_elem_eq (C : Cfg) (t : String) (c : List String)
    (a : List (String × String)) (ch : List Node) :
    capOKN C (.elem t c a ch) = capOKL C ch := rfl

theorem capOKL_nil_eq (C : Cfg) : capOKL C [] = true := rfl

theorem capOKL_cons_eq (C : Cfg) (n : Node) (ns : List Node) :
    capOKL C (n :: ns)
      = ((if condImg C n then
            match ns with
            | m :: _ => nodeBeq m (imgCaption C (pyStrip (getAttr (attrsOf n) "alt")))
            | [] => false
          else true)
         && capOKN C n && capOKL C ns) := rfl

theorem imgN_tag (C : Cfg) : ∀ n, tagOf (imgN C n) = tagOf n := by
  intro n
  cases n with
  | text s => rfl
  | elem t c a ch =>
      rw [imgN]
      cases h : t == "img" with
      | true => rfl
      | false => rfl

theorem imgN_alt (C : Cfg) : ∀ n, getAttr (attrsOf (imgN C n)) "alt"
    = getAttr (attrsOf n) "alt" := by
  intro n
  cases n with
  | text s => rfl
  | elem t c a ch =>
      rw [imgN]
      cases h : t == "img" with
      | true =>
          show getAttr (setAttr a "style" (C.sty "img")) "alt" = getAttr a "alt"
          exact getAttr_setAttr_ne a "style" "alt" (C.sty "img") (by decide)
      | false => rfl

theorem condImg_imgN (C : Cfg) (n : Node) : condImg C (imgN C n) = condImg C n := by
  rw [condImg, condImg, imgN_tag, imgN_alt]

theorem capOK_imgL (C : Cfg) :
    (∀ n, capOKN C (imgN C n) = true) ∧
    (∀ l, capOKL C (imgL C l) = true) := by
  have hlist : ∀ l, (∀ m ∈ l, capOKN C (imgN C m) = true) → capOKL C (imgL C l) = true := by
    intro l
    induction l with
    | nil => intro _; rfl
    | cons n ns ih =>
        intro hall
        have hn := hall n (List.mem_cons_self n ns)
        have hns := ih (fun m hm => hall m (List.mem_cons_of_mem n hm))
        rw [imgL]
        cases hc : condImg C n with
        | true =>
            show capOKL C (imgN C n
              :: imgCaption C (pyStrip (getAttr (attrsOf n) "alt")) :: imgL C ns) = true
            rw [capOKL_cons_eq, condImg_imgN, hc]
            show (nodeBeq (imgCaption C (pyStrip (getAttr (attrsOf n) "alt")))
                (imgCaption C (pyStrip (getAttr (attrsOf (imgN C n)) "alt")))
              && capOKN C (imgN C n)
              && capOKL C (imgCaption C (pyStrip (getAttr (attrsOf n) "alt"))
                  :: imgL C ns)) = true
            rw [imgN_alt, nodeBeq_refl, hn]
            have hcaps : capOKL C (imgCaption C (pyStrip (getAttr (attrsOf n) "alt"))
                :: imgL C ns) = capOKL C (imgL C ns) := rfl
            rw [hcaps, hns]
            rfl
        | false =>
            show capOKL C (imgN C n :: imgL C ns) = true
            rw [capOKL_cons_eq, condImg_imgN, hc, hn, hns]
            rfl
  have hnode : ∀ n, capOKN C (imgN C n) = true := by
    intro n
    induction n using node_ind with
    | h1 s => rfl
    | h2 t c a ch ih =>
        rw [imgN]
        cases h : t == "img" with
        | true =>
            show capOKL C (imgL C ch) = true
            exact hlist ch ih
        | false =>
            show capOKL C (imgL C ch) = true
            exact hlist ch ih
  exact ⟨hnode, fun l => hlist l (fun m _ => hnode m)⟩
theorem taskN_tag (S : String → String) : ∀ n, tagOf (taskN S n) = tagOf n := by
  intro n
  cases n with
  | text s => rfl
  | elem t c a ch =>
      rw [taskN]
      cases h : t == "span" && c.contains "task-done" with
      | true => rfl
      | false => rfl

theorem taskN_alt (S : String → String) : ∀ n, getAttr (attrsOf (taskN S n)) "alt"
    = getAttr (attrsOf n) "alt" := by
  intro n
  cases n with
  | text s => rfl
  | elem t c a ch =>
      rw [taskN]
      cases h : t == "span" && c.contains "task-done" with
      | true =>
          show getAttr (setAttr a "style" (S "task_done")) "alt" = getAttr a "alt"
          exact getAttr_setAttr_ne a "style" "alt" (S "task_done") (by decide)
      | false => rfl

theorem condImg_taskN (C : Cfg) (S : String → String) (n : Node) :
    condImg C (taskN S n) = condImg C n := by
  rw [condImg, condImg, taskN_tag, taskN_alt]

theorem capOK_taskL (C : Cfg) (S : String → String) :
    (∀ n, capOKN C n = true → capOKN C (taskN S n) = true) ∧
    (∀ l, capOKL C l = true → capOKL C (taskL S l) = true) := by
  have hlist : ∀ l, (∀ m ∈ l, capOKN C m = true → capOKN C (taskN S m) = true) →
      capOKL C l = true → capOKL C (taskL S l) = true := by
    intro l
    induction l with
    | nil => intro _ _; rfl
    | cons n ns ih =>
        intro hall h
        rw [capOKL_cons_eq] at h
        rcases Bool.and_eq_true_iff.mp h with ⟨h12, h3⟩
        rcases Bool.and_eq_true_iff.mp h12 with ⟨h1, h2⟩
        cases hc : condImg C n with
        | true =>
            cases ns with
            | nil =>
                rw [hc] at h1
                exact absurd (h1 : false = true) Bool.false_ne_true
            | cons m rest =>
                rw [hc] at h1
                have hmeq : m = imgCaption C (pyStrip (getAttr (attrsOf n) "alt")) :=
                  nodeBeq_sound _ _ h1
                subst hmeq
                show capOKL C (taskN S n
                  :: imgCaption C (pyStrip (getAttr (attrsOf n) "alt"))
                  :: taskL S rest) = true
                rw [capOKL_cons_eq, condImg_taskN, hc]
                show (nodeBeq (imgCaption C (pyStrip (getAttr (attrsOf n) "alt")))
                    (imgCaption C (pyStrip (getAttr (attrsOf (taskN S n)) "alt")))
                  && capOKN C (taskN S n)
                  && capOKL C (imgCaption C (pyStrip (getAttr (attrsOf n) "alt"))
                      :: taskL S rest)) = true
                rw [taskN_alt, nodeBeq_refl,
                    hall n (List.mem_cons_self n _) h2]
                have hcol : capOKL C (imgCaption C (pyStrip (getAttr (attrsOf n) "alt"))
                    :: taskL S rest) = capOKL C (taskL S rest) := rfl
                have htail : capOKL C (taskL S rest) = true :=
                  ih (fun m hm => hall m (List.mem_cons_of_mem n hm)) h3
                rw [hcol, htail]
                rfl
        | false =>
            show capOKL C (taskN S n :: taskL S ns) = true
            rw [capOKL_cons_eq, condImg_taskN, hc,
                hall n (List.mem_cons_self n ns) h2,
                ih (fun m hm => hall m (List.mem_cons_of_mem n hm)) h3]
            rfl
  have hnode : ∀ n, capOKN C n = true → capOKN C (taskN S n) = true := by
    intro n
    induction n using node_ind with
    | h1 s => intro _; rfl
    | h2 t c a ch ih =>
        intro h
        rw [taskN]
        cases hg : t == "span" && c.contains "task-done" with
        | true =>
            show capOKL C (taskL S ch) = true
            exact hlist ch ih h
        | false =>
            show capOKL C (taskL S ch) = true
            exact hlist ch ih h
  exact ⟨hnode, fun l => hlist l (fun m _ => hnode m)⟩
theorem fnStyleN_tag (S : String → String) : ∀ n, tagOf (fnStyleN S n) = tagOf n := by
  intro n
  cases n with
  | text s => rfl
  | elem t c a ch =>
      rw [fnStyleN]
      cases h : t == "div" && c.contains "footnote" with
      | true => rfl
      | false => rfl

theorem fnStyleN_alt (S : String → String) : ∀ n, getAttr (attrsOf (fnStyleN S n)) "alt"
    = getAttr (attrsOf n) "alt" := by
  intro n
  cases n with
  | text s => rfl
  | elem t c a ch =>
      rw [fnStyleN]
      cases h : t == "div" && c.contains "footnote" with
      | true =>
          show getAttr (setAttr a "style" (S "footnote_section")) "alt" = getAttr a "alt"
          exact getAttr_setAttr_ne a "style" "alt" (S "footnote_section") (by decide)
      | false => rfl

theorem condImg_fnStyleN (C : Cfg) (S : String → String) (n : Node) :
    condImg C (fnStyleN S n) = condImg C n := by
  rw [condImg, condImg, fnStyleN_tag, fnStyleN_alt]

theorem capOK_fnStyleL (C : Cfg) (S : String → String) :
    (∀ n, capOKN C n = true → capOKN C (fnStyleN S n) = true) ∧
    (∀ l, capOKL C l = true → capOKL C (fnStyleL S l) = true) := by
  have hlist : ∀ l, (∀ m ∈ l, capOKN C m = true → capOKN C (fnStyleN S m) = true) →
      capOKL C l = true → capOKL C (fnStyleL S l) = true := by
    intro l
    induction l with
    | nil => intro _ _; rfl
    | cons n ns ih =>
        intro hall h
        rw [capOKL_cons_eq] at h
        rcases Bool.and_eq_true_iff.mp h with ⟨h12, h3⟩
        rcases Bool.and_eq_true_iff.mp h12 with ⟨h1, h2⟩
        cases hc : condImg C n with
        | true =>
            cases ns with
            | nil =>
                rw [hc] at h1
                exact absurd (h1 : false = true) Bool.false_ne_true
            | cons m rest =>
                rw [hc] at h1
                have hmeq : m = imgCaption C (pyStrip (getAttr (attrsOf n) "alt")) :=
                  nodeBeq_sound _ _ h1
                subst hmeq
                show capOKL C (fnStyleN S n
                  :: imgCaption C (pyStrip (getAttr (attrsOf n) "alt"))
                  :: fnStyleL S rest) = true
                rw [capOKL_cons_eq, condImg_fnStyleN, hc]
                show (nodeBeq (imgCaption C (pyStrip (getAttr (attrsOf n) "alt")))
                    (imgCaption C (pyStrip (getAttr (attrsOf (fnStyleN S n)) "alt")))
                  && capOKN C (fnStyleN S n)
                  && capOKL C (imgCaption C (pyStrip (getAttr (attrsOf n) "alt"))
                      :: fnStyleL S rest)) = true
                rw [fnStyleN_alt, nodeBeq_refl,
                    hall n (List.mem_cons_self n _) h2]
                have hcol : capOKL C (imgCaption C (pyStrip (getAttr (attrsOf n) "alt"))
                    :: fnStyleL S rest) = capOKL C (fnStyleL S rest) := rfl
                have htail : capOKL C (fnStyleL S rest) = true :=
                  ih (fun m hm => hall m (List.mem_cons_of_mem n hm)) h3
                rw [hcol, htail]
                rfl
        | false =>
            show capOKL C (fnStyleN S n :: fnStyleL S ns) = true
            rw [capOKL_cons_eq, condImg_fnStyleN, hc,
                hall n (List.mem_cons_self n ns) h2,
                ih (fun m hm => hall m (List.mem_cons_of_mem n hm)) h3]
            rfl
  have hnode : ∀ n, capOKN C n = true → capOKN C (fnStyleN S n) = true := by
    intro n
    induction n using node_ind with
    | h1 s => intro _; rfl
    | h2 t c a ch ih =>
        intro h
        rw [fnStyleN]
        cases hg : t == "div" && c.contains "footnote" with
        | true =>
            show capOKL C (fnStyleL S ch) = true
            exact hlist ch ih h
        | false =>
            show capOKL C (fnStyleL S ch) = true
            exact hlist ch ih h
  exact ⟨hnode, fun l => hlist l (fun m _ => hnode m)⟩
theorem condImg_fnRmN (C : Cfg) (b : Bool) : ∀ n, condImg C (fnRmN b n) = condImg C n := by
  intro n
  cases n with
  | text s => rfl
  | elem t c a ch => rfl

theorem fnRmN_alt (b : Bool) : ∀ n, getAttr (attrsOf (fnRmN b n)) "alt"
    = getAttr (attrsOf n) "alt" := by
  intro n
  cases n with
  | text s => rfl
  | elem t c a ch => rfl

theorem fnRmN_cap (b : Bool) (s alt : String) :
    fnRmN b (.elem "p" [] [("style", s)] [.text alt])
      = .elem "p" [] [("style", s)] [.text alt] := by
  rw [fnRmN]
  have hb : (b || ("p" == "div" && List.contains ([] : List String) "footnote")) = b := by
    simp
  rw [hb]
  have hg : (b && (tagOf (Node.text alt) == "hr")) = false := by simp [tagOf]
  rw [fnRmL]
  simp only [hg, Bool.false_eq_true, if_false]
  rfl

theorem capOK_fnRmL (C : Cfg) :
    (∀ b n, capOKN C n = true → capOKN C (fnRmN b n) = true) ∧
    (∀ b l, capOKL C l = true → capOKL C (fnRmL b l) = true) := by
  have hlist : ∀ l, (∀ m ∈ l, ∀ b2, capOKN C m = true → capOKN C (fnRmN b2 m) = true) →
      ∀ b, capOKL C l = true → capOKL C (fnRmL b l) = true := by
    intro l
    induction l with
    | nil => intro _ b _; rfl
    | cons n ns ih =>
        intro hall b h
        rw [capOKL_cons_eq] at h
        rcases Bool.and_eq_true_iff.mp h with ⟨h12, h3⟩
        rcases Bool.and_eq_true_iff.mp h12 with ⟨h1, h2⟩
        rw [fnRmL]
        cases hg : b && (tagOf n == "hr") with
        | true =>
            show capOKL C (fnRmL b ns) = true
            exact ih (fun m hm => hall m (List.mem_cons_of_mem n hm)) b h3
        | false =>
            show capOKL C (fnRmN b n :: fnRmL b ns) = true
            cases hc : condImg C n with
            | true =>
                cases ns with
                | nil =>
                    rw [hc] at h1
                    exact absurd (h1 : false = true) Bool.false_ne_true
                | cons m rest =>
                    rw [hc] at h1
                    have hmeq : m = imgCaption C (pyStrip (getAttr (attrsOf n) "alt")) :=
                      nodeBeq_sound _ _ h1
                    subst hmeq
                    have hgc : (b && (tagOf (imgCaption C
                        (pyStrip (getAttr (attrsOf n) "alt"))) == "hr")) = false := by
                      simp [imgCaption, tagOf]
                    have hstep : fnRmL b (imgCaption C (pyStrip (getAttr (attrsOf n) "alt"))
                        :: rest)
                        = fnRmN b (imgCaption C (pyStrip (getAttr (attrsOf n) "alt")))
                          :: fnRmL b rest := by
                      rw [fnRmL]
                      simp only [hgc, Bool.false_eq_true, if_false]
                    have hcap : fnRmN b (imgCaption C (pyStrip (getAttr (attrsOf n) "alt")))
                        = imgCaption C (pyStrip (getAttr (attrsOf n) "alt")) :=
                      fnRmN_cap b (C.sty "img_caption") (pyStrip (getAttr (attrsOf n) "alt"))
                    rw [hstep, hcap]
                    have h4 := ih (fun m hm => hall m (List.mem_cons_of_mem n hm)) b h3
                    rw [hstep, hcap] at h4
                    have htail : capOKL C (fnRmL b rest) = true := h4
                    rw [capOKL_cons_eq, condImg_fnRmN, hc]
                    show (nodeBeq (imgCaption C (pyStrip (getAttr (attrsOf n) "alt")))
                        (imgCaption C (pyStrip (getAttr (attrsOf (fnRmN b n)) "alt")))
                      && capOKN C (fnRmN b n)
                      && capOKL C (imgCaption C (pyStrip (getAttr (attrsOf n) "alt"))
                          :: fnRmL b rest)) = true
                    rw [fnRmN_alt, nodeBeq_refl, hall n (List.mem_cons_self n _) b h2]
                    have hcol : capOKL C (imgCaption C (pyStrip (getAttr (attrsOf n) "alt"))
                        :: fnRmL b rest) = capOKL C (fnRmL b rest) := rfl
                    rw [hcol, htail]
                    rfl
            | false =>
                rw [capOKL_cons_eq, condImg_fnRmN, hc,
                    hall n (List.mem_cons_self n ns) b h2,
                    ih (fun m hm => hall m (List.mem_cons_of_mem n hm)) b h3]
                rfl
  have hnode : ∀ n, ∀ b, capOKN C n = true → capOKN C (fnRmN b n) = true := by
    intro n
    induction n using node_ind with
    | h1 s => intro b _; rfl
    | h2 t c a ch ih =>
        intro b h
        show capOKL C (fnRmL (b || (t == "div" && c.contains "footnote")) ch) = true
        exact hlist ch (fun m hm b2 => ih m hm b2) _ h
  exact ⟨fun b n => hnode n b, fun b l => hlist l (fun m _ b2 => hnode m b2) b⟩
theorem capOK_applyStyles (C : Cfg) (tree : List Node) :
    capOKL C (applyStylesC C tree) = true := by
  show capOKL C (fnRmL false (fnStyleL C.sty (taskL C.sty (imgL C (hrL C.sty (tableL C.sty
    (icL C.sty "" "" (preL "" (codeL C (styleAL C.sty "" tree)))))))))) = true
  exact (capOK_fnRmL C).2 false _
    ((capOK_fnStyleL C C.sty).2 _
      ((capOK_taskL C C.sty).2 _
        ((capOK_imgL C).2 _)))

/-- C2, counterexample: the WeChat converter's caption condition is the
case-sensitive `alt and alt != "image"`; the placeholder `"img"` (which the
claim's placeholder set excludes from captioning) does receive a caption
there, while the Zhihu converter (whose condition is the claimed
case-insensitive set `\x7b"image", "img", ""\x7d`) does not. -/
theorem c2_caption_counterexample :
    Wechat.apply_styles (Wechat.build_styles "blue") [.elem "img" [] [("alt", "img")] []]
      = [.elem "img" []
          [("alt", "img"), ("style", (Wechat.cfg (Wechat.build_styles "blue")).sty "img")] [],
         imgCaption (Wechat.cfg (Wechat.build_styles "blue")) "img"]
    ∧ List.contains ["image", "img", ""] (lowerS (pyStrip "img")) = true
    ∧ Zhihu.apply_styles (Zhihu.build_styles "zhihu") [.elem "img" [] [("alt", "img")] []]
      = [.elem "img" []
          [("alt", "img"), ("style", (Zhihu.cfg (Zhihu.build_styles "zhihu")).sty "img")] []] :=
  ⟨rfl, rfl, rfl⟩

/-- C2, amended: in both converters, every `img` of the output whose
stripped alt text satisfies the variant's own caption condition is
immediately followed by a caption paragraph carrying the caption style and
exactly the stripped alt text (conjuncts 1-2, the `capOKL` invariant); the
WeChat condition is the case-sensitive `alt != "" && alt != "image"`
(conjunct 3) while the Zhihu condition is the case-insensitive placeholder
set `\x7b"image", "img", ""\x7d` of the claim (conjunct 4); the image pass
inserts a caption right after an image exactly when the condition holds on
the stripped alt, and inserts nothing otherwise (conjunct 5). -/
theorem c2_caption_amended :
    (∀ (styles : List (String × String)) (tree : List Node),
      capOKL (Wechat.cfg styles) (Wechat.apply_styles styles tree) = true) ∧
    (∀ (styles : List (String × String)) (tree : List Node),
      capOKL (Zhihu.cfg styles) (Zhihu.apply_styles styles tree) = true) ∧
    (∀ (styles : List (String × String)) (alt : String),
      (Wechat.cfg styles).captionCond alt = (alt != "" && alt != "image")) ∧
    (∀ (styles : List (String × String)) (alt : String),
      (Zhihu.cfg styles).captionCond alt
        = (alt != "" && !(List.contains ["image", "img", ""] (lowerS alt)))) ∧
    (∀ (C : Cfg) (n : Node) (ns : List Node),
      imgL C (n :: ns)
        = if condImg C n then
            imgN C n :: imgCaption C (pyStrip (getAttr (attrsOf n) "alt")) :: imgL C ns
          else imgN C n :: imgL C ns) :=
  ⟨fun styles tree => capOK_applyStyles (Wechat.cfg styles) tree,
   fun styles tree => capOK_applyStyles (Zhihu.cfg styles) tree,
   fun _ _ => rfl, fun _ _ => rfl, fun _ _ _ => rfl⟩

theorem noHrN_text_eq (s : String) : noHrN (.text s) = true := rfl

theorem noHrN_elem_eq (t : String) (c : List String) (a : List (String × String))
    (ch : List Node) : noHrN (.elem t c a ch) = ((t != "hr") && noHrL ch) := rfl

theorem noHrL_nil_eq : noHrL [] = true := rfl

theorem noHrL_cons_eq (n : Node) (ns : List Node) :
    noHrL (n :: ns) = (noHrN n && noHrL ns) := rfl

theorem fnOKN_text_eq (fs : String) (s : String) : fnOKN fs (.text s) = true := rfl

theorem fnOKN_elem_eq (fs : String) (t : String) (c : List String)
    (a : List (String × String)) (ch : List Node) :
    fnOKN fs (.elem t c a ch)
      = ((if t == "div" && c.contains "footnote" then
            (getAttr a "style" == fs) && noHrL ch
          else true)
         && fnOKL fs ch) := rfl

theorem fnOKL_nil_eq (fs : String) : fnOKL fs [] = true := rfl

theorem fnOKL_cons_eq (fs : String) (n : Node) (ns : List Node) :
    fnOKL fs (n :: ns) = (fnOKN fs n && fnOKL fs ns) := rfl

theorem noHr_fnRm_true :
    (∀ n, (tagOf n == "hr") = false → noHrN (fnRmN true n) = true) ∧
    (∀ l, noHrL (fnRmL true l) = true) := by
  have hlist : ∀ l, (∀ m ∈ l, (tagOf m == "hr") = false → noHrN (fnRmN true m) = true) →
      noHrL (fnRmL true l) = true := by
    intro l
    induction l with
    | nil => intro _; rfl
    | cons n ns ih =>
        intro hall
        rw [fnRmL]
        cases htag : tagOf n == "hr" with
        | true =>
            show noHrL (fnRmL true ns) = true
            exact ih (fun m hm => hall m (List.mem_cons_of_mem n hm))
        | false =>
            show noHrL (fnRmN true n :: fnRmL true ns) = true
            rw [noHrL_cons_eq, hall n (List.mem_cons_self n ns) htag,
                ih (fun m hm => hall m (List.mem_cons_of_mem n hm))]
            rfl
  have hnode : ∀ n, (tagOf n == "hr") = false → noHrN (fnRmN true n) = true := by
    intro n
    induction n using node_ind with
    | h1 s => intro _; rfl
    | h2 t c a ch ih =>
        intro htag
        show ((t != "hr") && noHrL (fnRmL true ch)) = true
        have ht2 : (t != "hr") = true := by
          have : (t == "hr") = false := htag
          simp [bne, this]
        rw [ht2, hlist ch ih]
        rfl
  exact ⟨hnode, fun l => hlist l (fun m _ => hnode m)⟩

theorem fnOK_fn_pass (C : Cfg) :
    (∀ n b, fnOKN (C.sty "footnote_section")
      (fnRmN b (fnStyleN C.sty n)) = true) ∧
    (∀ l b, fnOKL (C.sty "footnote_section")
      (fnRmL b (fnStyleL C.sty l)) = true) := by
  have hlist : ∀ l, (∀ m ∈ l, ∀ b, fnOKN (C.sty "footnote_section")
        (fnRmN b (fnStyleN C.sty m)) = true) →
      ∀ b, fnOKL (C.sty "footnote_section") (fnRmL b (fnStyleL C.sty l)) = true := by
    intro l
    induction l with
    | nil => intro _ b; rfl
    | cons n ns ih =>
        intro hall b
        show fnOKL (C.sty "footnote_section")
          (fnRmL b (fnStyleN C.sty n :: fnStyleL C.sty ns)) = true
        rw [fnRmL]
        cases hg : b && (tagOf (fnStyleN C.sty n) == "hr") with
        | true =>
            show fnOKL (C.sty "footnote_section") (fnRmL b (fnStyleL C.sty ns)) = true
            exact ih (fun m hm => hall m (List.mem_cons_of_mem n hm)) b
        | false =>
            show fnOKL (C.sty "footnote_section")
              (fnRmN b (fnStyleN C.sty n) :: fnRmL b (fnStyleL C.sty ns)) = true
            rw [fnOKL_cons_eq, hall n (List.mem_cons_self n ns) b,
                ih (fun m hm => hall m (List.mem_cons_of_mem n hm)) b]
            rfl
  have hnode : ∀ n, ∀ b, fnOKN (C.sty "footnote_section")
      (fnRmN b (fnStyleN C.sty n)) = true := by
    intro n
    induction n using node_ind with
    | h1 s => intro b; rfl
    | h2 t c a ch ih =>
        intro b
        rw [fnStyleN]
        cases hg : t == "div" && c.contains "footnote" with
        | true =>
            have hflag : (b || (t == "div" && c.contains "footnote")) = true := by
              rw [hg]
              exact Bool.or_true b
            show fnOKN (C.sty "footnote_section")
              (.elem t c (setAttr a "style" (C.sty "footnote_section"))
                (fnRmL (b || (t == "div" && c.contains "footnote"))
                  (fnStyleL C.sty ch))) = true
            rw [hflag, fnOKN_elem_eq, hg]
            show ((getAttr (setAttr a "style" (C.sty "footnote_section")) "style"
                == C.sty "footnote_section")
              && noHrL (fnRmL true (fnStyleL C.sty ch))
              && fnOKL (C.sty "footnote_section") (fnRmL true (fnStyleL C.sty ch))) = true
            rw [getAttr_setAttr_same, beq_self_eq_true, noHr_fnRm_true.2,
                hlist ch ih true]
            rfl
        | false =>
            have hflag : (b || (t == "div" && c.contains "footnote")) = b := by
              rw [hg]
              exact Bool.or_false b
            show fnOKN (C.sty "footnote_section")
              (.elem t c a (fnRmL (b || (t == "div" && c.contains "footnote"))
                (fnStyleL C.sty ch))) = true
            rw [hflag, fnOKN_elem_eq, hg, hlist ch ih b]
            rfl
  exact ⟨hnode, fun l b => hlist l (fun m _ b2 => hnode m b2) b⟩
theorem fnOK_applyStyles (C : Cfg) (tree : List Node) :
    fnOKL (C.sty "footnote_section") (applyStylesC C tree) = true := by
  show fnOKL (C.sty "footnote_section")
    (fnRmL false (fnStyleL C.sty (taskL C.sty (imgL C (hrL C.sty (tableL C.sty
      (icL C.sty "" "" (preL "" (codeL C (styleAL C.sty "" tree)))))))))) = true
  exact (fnOK_fn_pass C).2 _ false

/-- C7, counterexample: the footnote pass looks for `div`s carrying the
`footnote` class.  A `p` element carrying the `footnote` class is a
footnote-classed container in the output too, yet it keeps the plain
paragraph style (not the footnote-section style) and its `hr` child is
kept, contradicting the claim read over every element that carries the
footnote class. -/
theorem c7_footnote_counterexample :
    Wechat.apply_styles (Wechat.build_styles "blue")
        [.elem "p" ["footnote"] [] [.elem "hr" [] [] []]]
      = [.elem "p" ["footnote"]
          [("style", getAttr (Wechat.build_styles "blue") "p")]
          [.elem "hr" [] [("style", getAttr (Wechat.build_styles "blue") "hr")] []]]
    ∧ List.contains (clsOf (.elem "p" ["footnote"]
          [("style", getAttr (Wechat.build_styles "blue") "p")]
          [.elem "hr" [] [("style", getAttr (Wechat.build_styles "blue") "hr")] []]))
        "footnote" = true
    ∧ noHrN (.elem "p" ["footnote"]
          [("style", getAttr (Wechat.build_styles "blue") "p")]
          [.elem "hr" [] [("style", getAttr (Wechat.build_styles "blue") "hr")] []]) = false
    ∧ (styleOf (.elem "p" ["footnote"]
          [("style", getAttr (Wechat.build_styles "blue") "p")]
          [.elem "hr" [] [("style", getAttr (Wechat.build_styles "blue") "hr")] []])
        == getAttr (Wechat.build_styles "blue") "footnote_section") = false :=
  ⟨rfl, rfl, rfl, rfl⟩

/-- C7, amended: in both converters, every `div` of the output that carries
the `footnote` class (the container shape the source's
`find_all("div", class_="footnote")` selects) carries the footnote-section
style and has no `hr` descendant, whatever the input tree contained. -/
theorem c7_footnote_amended :
    (∀ (styles : List (String × String)) (tree : List Node),
      fnOKL (getAttr styles "footnote_section")
        (Wechat.apply_styles styles tree) = true) ∧
    (∀ (styles : List (String × String)) (tree : List Node),
      fnOKL (getAttr styles "footnote_section")
        (Zhihu.apply_styles styles tree) = true) :=
  ⟨fun styles tree => fnOK_applyStyles (Wechat.cfg styles) tree,
   fun styles tree => fnOK_applyStyles (Zhihu.cfg styles) tree⟩

end Md
